import Mathlib

/-!
# FS3 storage driver: embedding and verified properties

A shallow embedding of `fs3_driver.c`, `fs3_cache.c` and `fs3_network.c`.

Conventions of the embedding.

* C unsigned integers are `Nat` with an explicit `% 2^w` at every place where the C
  code converts or wraps; `int16_t` / `int32_t` values are `Int`, produced by
  `toInt16` / `toInt32`.
* C arrays are total functions on indices; every access the C code could make out of
  bounds is guarded and reported as `none` (no defined result).
* Loops are structurally recursive on a fuel argument.  The callers pass a fuel that the
  loop provably cannot exhaust when it terminates in C; exhausting it is `none` as well.
* The doubly linked cache list (`cache_head`, `next` pointers) is the `List` of its nodes
  from head to tail; a node pointer is the position of the node in that list.
* `calloc` always succeeds.
* The constants of the headers that are not part of the sources (`fs3_controller.h`,
  `fs3_cache.h`) are the fields of `Consts`.
* The server and the operating system are an environment `Env`, asked once per
  `network_fs3_syscall` call.
-/

namespace FS3

/-! ## Constants of the missing headers -/

/-- Constants that `fs3_controller.h` and `fs3_cache.h` define.  The sizes are positive
(the code divides by `FS3_SECTOR_SIZE` and `FS3_TRACK_SIZE`); the five opcodes are
pairwise distinct (they are the case labels of one `switch` in `network_fs3_syscall`)
and fit the 4-bit opcode field of the command block. -/
structure Consts where
  FS3_MAX_TRACKS : Nat
  FS3_TRACK_SIZE : Nat
  FS3_SECTOR_SIZE : Nat
  FS3_DEFAULT_CACHE_SIZE : Nat
  FS3_OP_MOUNT : Nat
  FS3_OP_TSEEK : Nat
  FS3_OP_RDSECT : Nat
  FS3_OP_WRSECT : Nat
  FS3_OP_UMOUNT : Nat
  track_size_pos : 0 < FS3_TRACK_SIZE
  sector_size_pos : 0 < FS3_SECTOR_SIZE
  op_nodup : [FS3_OP_MOUNT, FS3_OP_TSEEK, FS3_OP_RDSECT, FS3_OP_WRSECT, FS3_OP_UMOUNT].Nodup
  op_lt : ∀ op ∈ [FS3_OP_MOUNT, FS3_OP_TSEEK, FS3_OP_RDSECT, FS3_OP_WRSECT, FS3_OP_UMOUNT],
    op < 16

/-- Macro `#define MAX_FILES (FS3_MAX_TRACKS*FS3_TRACK_SIZE)`. -/
def MAX_FILES (c : Consts) : Nat := c.FS3_MAX_TRACKS * c.FS3_TRACK_SIZE

/-- Macro `#define FILE_OPEN 1`. -/
def FILE_OPEN : Int := 1

/-- Macro `#define FILE_CLOSE 0`. -/
def FILE_CLOSE : Int := 0

/-- Macro `#define SUCCESS 0` (fs3_driver.h). -/
def SUCCESS : Nat := 0

/-- Macro `#define FAIL 1` (fs3_driver.h). -/
def FAIL : Nat := 1

/-- Conversion of an unsigned value to `int16_t` (two's complement wrap). -/
def toInt16 (n : Nat) : Int :=
  if n % 2^16 < 2^15 then ((n % 2^16 : Nat) : Int) else ((n % 2^16 : Nat) : Int) - 2^16

/-- Conversion of an unsigned value to `int32_t` (two's complement wrap). -/
def toInt32 (n : Nat) : Int :=
  if n % 2^32 < 2^31 then ((n % 2^32 : Nat) : Int) else ((n % 2^32 : Nat) : Int) - 2^32

/-- Conversion of a signed value to an unsigned type of `w` bits. -/
def toUInt (w : Nat) (x : Int) : Nat := (x % (2^w : Int)).toNat

/-! ## Command block codec (fs3_driver.c, lines 113-138) -/

/-- Function `construct_fs3_cmdblock`: every argument is cast to the 64-bit `FS3CmdBlk`, shifted
and or-ed.  `op` and `ret` are `uint8_t`, `sec` is `uint16_t`. -/
def construct_fs3_cmdblock (op sec trk ret : Nat) : Nat :=
  (((op % 2^8) <<< 60) % 2^64) ||| (((sec % 2^16) <<< 44) % 2^64) |||
    (((trk % 2^64) <<< 12) % 2^64) ||| (((ret % 2^8) <<< 11) % 2^64)

/-- Function `deconstruct_fs3_cmdblock`: the four out-parameters `(op, sec, trk, ret)`, each
masked, shifted and cast to the width of its pointer target. -/
def deconstruct_fs3_cmdblock (cmdblock : Nat) : Nat × Nat × Nat × Nat :=
  (((cmdblock &&& 0xf000000000000000) >>> 60) % 2^8,
   ((cmdblock &&& 0x0ffff00000000000) >>> 44) % 2^16,
   ((cmdblock &&& 0xf0000ffffffff000) >>> 12) % 2^32,
   ((cmdblock &&& 0x0000000000000800) >>> 11) % 2^8)

/-! ## Memory -/

/-- Function `memcpy(dst + doff, src + soff, n)` on byte arrays seen as functions of the index. -/
def memcpy (dst : Nat → Nat) (doff : Nat) (src : Nat → Nat) (soff n : Nat) : Nat → Nat :=
  fun k => if doff ≤ k ∧ k < doff + n then src (soff + (k - doff)) else dst k

/-- Array store `a[i] = v`. -/
def setAt {α : Type} (a : Nat → α) (i : Nat) (v : α) : Nat → α :=
  fun k => if k = i then v else a k

/-! ## Sector cache (fs3_cache.c) -/

/-- Type `struct cache_node` without its links: the sector data and the sector id. -/
structure cache_node where
  sector_data : Nat → Nat
  sector_id : Nat

/-- Globals of fs3_cache.c: the list from `cache_head` along `next`, and the four
metrics counters (`uint32_t`). -/
structure Cache where
  nodes : List cache_node
  fs3_put_cache_success : Nat
  fs3_put_cache_failure : Nat
  fs3_get_cache_success : Nat
  fs3_get_cache_failure : Nat

/-- The identifier both `fs3_get_cache_node` and `fs3_put_cache` compute:
`sector_id = ((trk)*1024) + sct`, stored in a `uint32_t`. -/
def cache_sector_id (trk sct : Nat) : Nat := (trk * 1024 + sct) % 2^32

/-- The `while(current != NULL)` scan of `fs3_get_cache_node`: position of the first
node whose id matches, `none` for `NULL`. -/
def find_node (sector_id : Nat) : List cache_node → Option Nat
  | [] => none
  | n :: rest =>
    if n.sector_id = sector_id then some 0
    else (find_node sector_id rest).map (fun i => i + 1)

/-- Function `is_cache_empty`. -/
def is_cache_empty (nodes : List cache_node) : Bool := nodes.isEmpty

/-- Function `fs3_get_cache_node`. -/
def fs3_get_cache_node (nodes : List cache_node) (trk sct : Nat) : Option Nat :=
  if is_cache_empty nodes then none else find_node (cache_sector_id trk sct) nodes

/-- Function `get_cache_size`. -/
def get_cache_size (nodes : List cache_node) : Nat := nodes.length

/-- Function `insert_node_to_tail`. -/
def insert_node_to_tail (nodes : List cache_node) (node : cache_node) : List cache_node :=
  nodes ++ [node]

/-- Function `move_node_to_tail`: unlink the node at position `i`, then `insert_node_to_tail`. -/
def move_node_to_tail (nodes : List cache_node) (i : Nat) : List cache_node :=
  match nodes.get? i with
  | none => nodes
  | some node => insert_node_to_tail (nodes.eraseIdx i) node

/-- Function `delete_head`: the deleted node (`none` for `NULL`) and the remaining list. -/
def delete_head (nodes : List cache_node) : Option cache_node × List cache_node :=
  match nodes with
  | [] => (none, [])
  | n :: rest => (some n, rest)

/-- Function `insert_tail`: a zeroed node (calloc) receives the id and `FS3_SECTOR_SIZE` bytes. -/
def insert_tail (c : Consts) (nodes : List cache_node) (sector_id : Nat)
    (sector_data : Nat → Nat) : Int × List cache_node :=
  (0, insert_node_to_tail nodes
    { sector_id := sector_id,
      sector_data := memcpy (fun _ => 0) 0 sector_data 0 c.FS3_SECTOR_SIZE })

/-- Function `fs3_init_cache`. -/
def fs3_init_cache (ch : Cache) : Int × Cache := (0, { ch with nodes := [] })

/-- Function `fs3_close_cache`. -/
def fs3_close_cache (ch : Cache) : Int × Cache := (0, { ch with nodes := [] })

/-- Function `fs3_put_cache`. -/
def fs3_put_cache (c : Consts) (ch : Cache) (trk sct : Nat) (buf : Nat → Nat) :
    Int × Cache :=
  match fs3_get_cache_node ch.nodes trk sct with
  | none =>
    let nodes1 :=
      if get_cache_size ch.nodes ≥ c.FS3_DEFAULT_CACHE_SIZE then (delete_head ch.nodes).2
      else ch.nodes
    let r := insert_tail c nodes1 (cache_sector_id trk sct) buf
    if r.1 = 1 then
      (-1, { ch with nodes := r.2,
                     fs3_put_cache_failure := (ch.fs3_put_cache_failure + 1) % 2^32 })
    else
      (0, { ch with nodes := r.2,
                    fs3_put_cache_success := (ch.fs3_put_cache_success + 1) % 2^32 })
  | some i =>
    let nodes1 := ch.nodes.modify
      (fun n => { n with sector_data := memcpy n.sector_data 0 buf 0 c.FS3_SECTOR_SIZE }) i
    (0, { ch with nodes := move_node_to_tail nodes1 i,
                  fs3_put_cache_success := (ch.fs3_put_cache_success + 1) % 2^32 })

/-- Function `fs3_get_cache`: the data of the node found (`none` for `NULL`) and the cache. -/
def fs3_get_cache (ch : Cache) (trk sct : Nat) : Option (Nat → Nat) × Cache :=
  match fs3_get_cache_node ch.nodes trk sct with
  | none => (none, { ch with fs3_get_cache_failure := (ch.fs3_get_cache_failure + 1) % 2^32 })
  | some i =>
    ((ch.nodes.get? i).map (fun n => n.sector_data),
     { ch with nodes := move_node_to_tail ch.nodes i,
               fs3_get_cache_success := (ch.fs3_get_cache_success + 1) % 2^32 })

/-! ## Transport (fs3_network.c) -/

/-- What the operating system and the server do in the `k`-th call of
`network_fs3_syscall`, and the indeterminate contents of uninitialised local buffers. -/
structure Env where
  sock : Nat → Int
  connect : Nat → Int
  reply : Nat → Nat
  payload : Nat → Nat → Nat
  stack : Nat → Nat

/-- Globals of fs3_network.c that the code reads (`socket_fd`), and the number of calls
of `network_fs3_syscall` so far, which indexes the environment. -/
structure Net where
  socket_fd : Int
  calls : Nat

/-- Function `network_fs3_syscall(cmd, ret, buf)`: the return code, the value of `*ret`
afterwards, the buffer afterwards, and the globals. -/
def network_fs3_syscall (c : Consts) (env : Env) (net : Net) (cmd ret : Nat)
    (buf : Nat → Nat) : Int × Nat × (Nat → Nat) × Net :=
  let k := net.calls
  let op := (deconstruct_fs3_cmdblock cmd).1
  let fd1 := if c.FS3_OP_MOUNT = op then env.sock k else net.socket_fd
  if c.FS3_OP_MOUNT = op ∧ fd1 = -1 then (-1, ret, buf, ⟨fd1, k + 1⟩)
  else if c.FS3_OP_MOUNT = op ∧ env.connect k ≠ 0 then (-1, ret, buf, ⟨fd1, k + 1⟩)
  else if fd1 = -1 then (-1, ret, buf, ⟨fd1, k + 1⟩)
  else
    let known := op = c.FS3_OP_MOUNT ∨ op = c.FS3_OP_TSEEK ∨ op = c.FS3_OP_UMOUNT
      ∨ op = c.FS3_OP_RDSECT ∨ op = c.FS3_OP_WRSECT
    let read_buf := ¬ (op = c.FS3_OP_MOUNT ∨ op = c.FS3_OP_TSEEK ∨ op = c.FS3_OP_UMOUNT)
      ∧ op = c.FS3_OP_RDSECT
    if ¬ known then (-1, ret, buf, ⟨fd1, k + 1⟩)
    else
      let ret1 := env.reply k % 2^64
      let d := deconstruct_fs3_cmdblock ret1
      if d.2.2.2 = FAIL then (-1, ret1, buf, ⟨fd1, k + 1⟩)
      else
        let buf1 := if read_buf then memcpy buf 0 (env.payload k) 0 c.FS3_SECTOR_SIZE
          else buf
        if c.FS3_OP_UMOUNT = d.1 then
          if fd1 ≠ -1 then (-1, ret1, buf1, ⟨fd1, k + 1⟩)
          else (0, ret1, buf1, ⟨-1, k + 1⟩)
        else (0, ret1, buf1, ⟨fd1, k + 1⟩)

/-! ## Driver globals (fs3_driver.c, lines 45-60) -/

/-- Type `file_t`.  `sector_id` is the array `uint32_t sector_id[512]`; `path` is `none` for
`NULL`. -/
structure file_t where
  sector_id : Nat → Nat
  num_sectors : Nat
  len : Nat
  pos : Nat
  path : Option String
  file_state : Int

/-- The globals of the three source files. -/
structure State where
  file_handlers : Nat → file_t
  sector_usage : Nat → Nat → Nat
  sectors_used : Nat
  cache : Cache
  net : Net

/-- A zero-initialised `file_t`. -/
def file_zero : file_t :=
  { sector_id := fun _ => 0, num_sectors := 0, len := 0, pos := 0, path := none,
    file_state := 0 }

/-- State at program start: `file_handlers = {0}`, `sector_usage = {0}`,
`sectors_used = 0`, empty cache, `socket_fd = -1`. -/
def init_state : State :=
  { file_handlers := fun _ => file_zero,
    sector_usage := fun _ _ => 0,
    sectors_used := 0,
    cache := ⟨[], 0, 0, 0, 0⟩,
    net := ⟨-1, 0⟩ }

/-! ## Sector allocation (fs3_driver.c, lines 64-103) -/

/-- Inner `while` of `get_free_sector` for track `i`, entered with column `j`:
the column at exit and the flag `found_free_sector`. -/
def get_free_sector_inner (c : Consts) (usage : Nat → Nat → Nat) (i : Nat) :
    Nat → Nat → Option (Nat × Bool)
  | 0, _ => none
  | fuel + 1, j =>
    if j < c.FS3_TRACK_SIZE then
      if usage i j = 0 then some (j, true)
      else get_free_sector_inner c usage i fuel ((j + 1) % 2^16)
    else some (j, false)

/-- Outer `while` of `get_free_sector`, entered with `(i, j)`: the values of `i`, `j`
and of the flag at exit. -/
def get_free_sector_outer (c : Consts) (usage : Nat → Nat → Nat) :
    Nat → Nat → Nat → Option (Nat × Nat × Bool)
  | 0, _, _ => none
  | fuel + 1, i, j =>
    if i < c.FS3_MAX_TRACKS then
      match get_free_sector_inner c usage i (c.FS3_TRACK_SIZE + 1) j with
      | none => none
      | some (j1, true) => some (i, j1, true)
      | some (_, false) => get_free_sector_outer c usage fuel ((i + 1) % 2^16) 0
    else some (i, j, false)

/-- Function `get_free_sector`: `some (track, sector)` for `TRUE` with the out-parameters,
`none` inside for `FALSE`, together with the state (`sectors_used++` on success).
The bitmap is not written here; the caller marks the cell. -/
def get_free_sector (c : Consts) (s : State) : Option (Option (Nat × Nat) × State) :=
  match get_free_sector_outer c s.sector_usage (c.FS3_MAX_TRACKS + 1) 0 0 with
  | none => none
  | some (i, j, true) => some (some (i, j), { s with sectors_used := (s.sectors_used + 1) % 2^32 })
  | some (_, _, false) => some (none, s)

/-- Lines 576-580 of `fs3_write`: `get_free_sector(&track, &sector)` and, on success,
`sector_usage[track][sector] = TRUE`. -/
def allocate_sector (c : Consts) (s : State) : Option (Option (Nat × Nat) × State) :=
  match get_free_sector c s with
  | none => none
  | some (none, s1) => some (none, s1)
  | some (some (track, sector), s1) =>
    some (some (track, sector),
      { s1 with sector_usage :=
                  setAt s1.sector_usage track (setAt (s1.sector_usage track) sector 1) })

/-! ## Open, close, seek (fs3_driver.c) -/

/-- The `for` loop of `fs3_open` from index `i` with `n` iterations left: `Sum.inl` is a
`return` inside the loop (value and file table), `Sum.inr` the value of `free_handle`
when the loop ends. -/
def fs3_open_scan (fh : Nat → file_t) (path : String) :
    Nat → Nat → Int → (Int × (Nat → file_t)) ⊕ Int
  | 0, _, free_handle => Sum.inr free_handle
  | n + 1, i, free_handle =>
    if (fh i).path = some path then
      if (fh i).file_state = FILE_OPEN then Sum.inl (-1, fh)
      else Sum.inl (toInt16 i, setAt fh i { fh i with pos := 0, file_state := FILE_OPEN })
    else
      fs3_open_scan fh path n (i + 1)
        (if (fh i).path = none ∧ free_handle = -1 then toInt16 i else free_handle)

/-- Function `fs3_open`.  `none`: the store through a negative `free_handle`. -/
def fs3_open (c : Consts) (s : State) (path : String) : Option (Int × State) :=
  match fs3_open_scan s.file_handlers path (MAX_FILES c) 0 (-1) with
  | Sum.inl (r, fh) => some (r, { s with file_handlers := fh })
  | Sum.inr free_handle =>
    if free_handle = -1 then some (-1, s)
    else if free_handle < 0 then none
    else
      let h := free_handle.toNat
      let f : file_t :=
        { s.file_handlers h with num_sectors := 0, len := 0, pos := 0,
                                 path := some path, file_state := FILE_OPEN }
      some (free_handle, { s with file_handlers := setAt s.file_handlers h f })

/-- Function `fs3_close`. -/
def fs3_close (c : Consts) (s : State) (fd : Int) : Int × State :=
  if fd < 0 ∨ fd ≥ (MAX_FILES c : Int) then (-1, s)
  else if (s.file_handlers fd.toNat).file_state ≠ FILE_OPEN then (-1, s)
  else
    let f : file_t := { s.file_handlers fd.toNat with pos := 0, file_state := FILE_CLOSE }
    (0, { s with file_handlers := setAt s.file_handlers fd.toNat f })

/-- Function `fs3_seek`; `loc` is a `uint32_t` value. -/
def fs3_seek (c : Consts) (s : State) (fd : Int) (loc : Nat) : Int × State :=
  if fd < 0 ∨ fd ≥ (MAX_FILES c : Int) then (-1, s)
  else if (s.file_handlers fd.toNat).file_state ≠ FILE_OPEN then (-1, s)
  else if loc > (s.file_handlers fd.toNat).len then (-1, s)
  else
    let f : file_t := { s.file_handlers fd.toNat with pos := loc }
    (0, { s with file_handlers := setAt s.file_handlers fd.toNat f })

/-- The status field a driver function reads off `ret_cmd_blk` after an exchange. -/
def status_of (ret_cmd_blk : Nat) : Nat := (deconstruct_fs3_cmdblock ret_cmd_blk).2.2.2

/-! ## Read (fs3_driver.c, lines 421-526) -/

/-- Locals of `fs3_read` that live across loop iterations. -/
structure ReadLocals where
  cur_pos : Nat
  remaining_count : Nat
  read_index : Nat
  temp_buf : Nat → Nat
  sector_buf : Nat → Nat
  ret_cmd_blk : Nat

/-- Value of `bytes_to_read` in one iteration (lines 457-461), in `uint32_t` arithmetic. -/
def read_bytes_to_read (c : Consts) (cur_pos remaining_count : Nat) : Nat :=
  if (cur_pos % c.FS3_SECTOR_SIZE + remaining_count) % 2^32 > c.FS3_SECTOR_SIZE then
    c.FS3_SECTOR_SIZE - cur_pos % c.FS3_SECTOR_SIZE
  else remaining_count

/-- The locals after the three updates `remaining_count -= bytes_to_read`,
`cur_pos += bytes_to_read`, `read_index += bytes_to_read` (all `uint32_t`). -/
def read_advance (l : ReadLocals) (bytes_to_read : Nat) : ReadLocals :=
  { l with remaining_count := l.remaining_count - bytes_to_read,
           cur_pos := (l.cur_pos + bytes_to_read) % 2^32,
           read_index := (l.read_index + bytes_to_read) % 2^32 }

/-- Lines 481-517: the cache-miss part of one iteration of the loop of `fs3_read`, for
the sector `(track, sector)`.  Inner `none`: `return (-1)`. -/
def fs3_read_miss (c : Consts) (env : Env) (l : ReadLocals) (ch : Cache) (nt : Net)
    (track sector bytes_to_read : Nat) : Option ReadLocals × Cache × Net :=
  match network_fs3_syscall c env nt
      (construct_fs3_cmdblock c.FS3_OP_TSEEK 0 track 0) l.ret_cmd_blk (fun _ => 0) with
  | (_, r1, _, n1) =>
    if status_of r1 = FAIL then (none, ch, n1)
    else
      match network_fs3_syscall c env n1
          (construct_fs3_cmdblock c.FS3_OP_RDSECT sector 0 0) r1 l.sector_buf with
      | (_, r2, sector_buf, n2) =>
        if status_of r2 = FAIL then (none, ch, n2)
        else
          (some { read_advance l bytes_to_read with
                    temp_buf := memcpy l.temp_buf l.read_index sector_buf
                      (l.cur_pos % c.FS3_SECTOR_SIZE) bytes_to_read,
                    sector_buf := sector_buf, ret_cmd_blk := r2 },
           (fs3_put_cache c ch track sector sector_buf).2, n2)

/-- One iteration of the `while (remaining_count > 0)` loop of `fs3_read` (lines
456-517) on file entry `f`.  Outer `none`: no defined result (an index outside
`sector_id[512]`, a copy outside `temp_buf` or outside a sector buffer).  Inner `none`:
`return (-1)`. -/
def fs3_read_iter (c : Consts) (env : Env) (f : file_t) (l : ReadLocals) (ch : Cache)
    (nt : Net) : Option (Option ReadLocals × Cache × Net) :=
  let bytes_to_read := read_bytes_to_read c l.cur_pos l.remaining_count
  let sector_index := toInt16 (l.cur_pos / c.FS3_SECTOR_SIZE)
  if sector_index < 0 ∨ sector_index ≥ 512 then none
  else if l.read_index + bytes_to_read > c.FS3_SECTOR_SIZE * 512 then none
  else if l.cur_pos % c.FS3_SECTOR_SIZE + bytes_to_read > c.FS3_SECTOR_SIZE then none
  else
    let track := (f.sector_id sector_index.toNat / c.FS3_TRACK_SIZE) % 2^16
    let sector := (f.sector_id sector_index.toNat % c.FS3_TRACK_SIZE) % 2^16
    match fs3_get_cache ch track sector with
    | (some cache_data, ch1) =>
      some (some { read_advance l bytes_to_read with
                     temp_buf := memcpy l.temp_buf l.read_index cache_data 0 bytes_to_read },
            ch1, nt)
    | (none, ch1) => some (fs3_read_miss c env l ch1 nt track sector bytes_to_read)

/-- The `while (remaining_count > 0)` loop of `fs3_read`.  Outer `none`: no defined
result, or the fuel is exhausted.  Inner `none`: `return (-1)`. -/
def fs3_read_loop (c : Consts) (env : Env) (f : file_t) :
    Nat → ReadLocals → Cache → Net → Option (Option ReadLocals × Cache × Net)
  | 0, l, ch, nt => if l.remaining_count = 0 then some (some l, ch, nt) else none
  | fuel + 1, l, ch, nt =>
    if l.remaining_count = 0 then some (some l, ch, nt)
    else
      match fs3_read_iter c env f l ch nt with
      | none => none
      | some (none, ch1, n1) => some (none, ch1, n1)
      | some (some l1, ch1, n1) => fs3_read_loop c env f fuel l1 ch1 n1

/-- The value of `count` after the clamp of lines 441-443 (`int32_t` against the
`uint64_t` difference `len - pos`). -/
def read_clamp (f : file_t) (count : Int) : Int :=
  if toUInt 64 count > toUInt 64 ((f.len : Int) - (f.pos : Int)) then
    toInt32 ((toUInt 64 ((f.len : Int) - (f.pos : Int)) + 1) % 2^64)
  else count

/-- The locals of `fs3_read` when the loop is entered (lines 445-452); the buffers are
uninitialised. -/
def read_locals_init (env : Env) (f : file_t) (count : Int) : ReadLocals :=
  { cur_pos := f.pos % 2^32, remaining_count := toUInt 32 count, read_index := 0,
    temp_buf := env.stack, sector_buf := env.stack, ret_cmd_blk := 0 }

/-- Function `fs3_read(fd, buf, count)`: return value, the bytes stored to `buf` (the first
`count` bytes of `temp_buf`), and the state. -/
def fs3_read (c : Consts) (env : Env) (s : State) (fd : Int) (count : Int) :
    Option (Int × List Nat × State) :=
  if fd < 0 ∨ fd ≥ (MAX_FILES c : Int) then some (-1, [], s)
  else if (s.file_handlers fd.toNat).file_state ≠ FILE_OPEN then some (-1, [], s)
  else
    match fs3_read_loop c env (s.file_handlers fd.toNat)
        (toUInt 32 (read_clamp (s.file_handlers fd.toNat) count))
        (read_locals_init env (s.file_handlers fd.toNat)
          (read_clamp (s.file_handlers fd.toNat) count)) s.cache s.net with
    | none => none
    | some (none, ch, nt) => some (-1, [], { s with cache := ch, net := nt })
    | some (some l, ch, nt) =>
      if read_clamp (s.file_handlers fd.toNat) count < 0 then none
      else
        some (read_clamp (s.file_handlers fd.toNat) count,
          (List.range (read_clamp (s.file_handlers fd.toNat) count).toNat).map l.temp_buf,
          { s with cache := ch, net := nt,
                   file_handlers := setAt s.file_handlers fd.toNat
                     { s.file_handlers fd.toNat with
                         pos := ((s.file_handlers fd.toNat).pos
                           + toUInt 64 (read_clamp (s.file_handlers fd.toNat) count)) % 2^64 } })

/-! ## Write (fs3_driver.c, lines 539-662) -/

/-- Locals of `fs3_write` that live across loop iterations. -/
structure WriteLocals where
  cur_count : Nat
  copy_index : Nat
  temp_buf : Nat → Nat
  ret_cmd_blk : Nat

/-- Lines 573-586 of `fs3_write` for handle `fd`: the value of `sector_id` (a
`uint16_t`) and the state.  Outer `none`: an index outside `sector_id[512]` or a
diverging allocation.  Inner `none`: `return(-1)`. -/
def write_sector_id (c : Consts) (s : State) (fd : Nat) : Option (Option Nat × State) :=
  if toInt16 ((s.file_handlers fd).pos / c.FS3_SECTOR_SIZE) + 1
      > ((s.file_handlers fd).num_sectors : Int) then
    match allocate_sector c s with
    | none => none
    | some (none, s1) => some (none, s1)
    | some (some (track, sector), s1) =>
      if ((s.file_handlers fd).num_sectors + 1) % 2^16 = 0
          ∨ ((s.file_handlers fd).num_sectors + 1) % 2^16 - 1 ≥ 512 then none
      else
        some (some ((track * c.FS3_TRACK_SIZE + sector) % 2^16),
          { s1 with file_handlers := setAt s1.file_handlers fd
                      { s.file_handlers fd with
                          num_sectors := ((s.file_handlers fd).num_sectors + 1) % 2^16,
                          sector_id := setAt (s.file_handlers fd).sector_id
                            (((s.file_handlers fd).num_sectors + 1) % 2^16 - 1)
                            ((track * c.FS3_TRACK_SIZE + sector) % 2^16) } })
  else if toInt16 ((s.file_handlers fd).pos / c.FS3_SECTOR_SIZE) < 0
      ∨ toInt16 ((s.file_handlers fd).pos / c.FS3_SECTOR_SIZE) ≥ 512 then none
  else
    some (some ((s.file_handlers fd).sector_id
        (toInt16 ((s.file_handlers fd).pos / c.FS3_SECTOR_SIZE)).toNat % 2^16), s)

/-- Value of `copy_count` in one iteration (lines 591-599): `vacancy` is a `uint16_t`. -/
def write_copy_count (c : Consts) (pos cur_count : Nat) : Nat :=
  if cur_count > (c.FS3_SECTOR_SIZE - pos % c.FS3_SECTOR_SIZE) % 2^16 then
    (c.FS3_SECTOR_SIZE - pos % c.FS3_SECTOR_SIZE) % 2^16
  else cur_count

/-- Lines 653-659: the entry after the length and position updates. -/
def write_commit (f : file_t) (copy_count : Nat) : file_t :=
  { f with len := if (f.pos + copy_count) % 2^64 > f.len then (f.pos + copy_count) % 2^64
                  else f.len,
           pos := (f.pos + copy_count) % 2^64 }

/-- Lines 588-659: one iteration of the loop of `fs3_write` once `sector_id` is known,
in state `s1`.  `none`: `return(-1)`. -/
def fs3_write_sector (c : Consts) (env : Env) (fd : Nat) (buf : Nat → Nat)
    (l : WriteLocals) (s1 : State) (sector_id : Nat) : Option WriteLocals × State :=
  match network_fs3_syscall c env s1.net
      (construct_fs3_cmdblock c.FS3_OP_TSEEK 0 ((sector_id / c.FS3_TRACK_SIZE) % 2^16) 0)
      l.ret_cmd_blk (fun _ => 0) with
  | (_, r1, _, n1) =>
    if status_of r1 = FAIL then (none, { s1 with net := n1 })
    else
      match network_fs3_syscall c env n1
          (construct_fs3_cmdblock c.FS3_OP_RDSECT ((sector_id % c.FS3_TRACK_SIZE) % 2^16) 0 0)
          r1 l.temp_buf with
      | (_, r2, b2, n2) =>
        if status_of r2 = FAIL then (none, { s1 with net := n2 })
        else
          match network_fs3_syscall c env n2
              (construct_fs3_cmdblock c.FS3_OP_WRSECT ((sector_id % c.FS3_TRACK_SIZE) % 2^16) 0 0)
              r2
              (memcpy b2 ((s1.file_handlers fd).pos % c.FS3_SECTOR_SIZE) buf l.copy_index
                (write_copy_count c (s1.file_handlers fd).pos l.cur_count)) with
          | (_, r3, b3, n3) =>
            if status_of r3 = FAIL then (none, { s1 with net := n3 })
            else
              match fs3_put_cache c s1.cache ((sector_id / c.FS3_TRACK_SIZE) % 2^16)
                  ((sector_id % c.FS3_TRACK_SIZE) % 2^16) b3 with
              | (p, ch) =>
                if p = 1 then (none, { s1 with net := n3, cache := ch })
                else
                  (some { cur_count :=
                            l.cur_count - write_copy_count c (s1.file_handlers fd).pos l.cur_count,
                          copy_index :=
                            (l.copy_index
                              + write_copy_count c (s1.file_handlers fd).pos l.cur_count) % 2^16,
                          temp_buf := b3, ret_cmd_blk := r3 },
                   { s1 with net := n3, cache := ch,
                             file_handlers := setAt s1.file_handlers fd
                               (write_commit (s1.file_handlers fd)
                                 (write_copy_count c (s1.file_handlers fd).pos l.cur_count)) })

/-- One iteration of the `while (cur_count > 0)` loop of `fs3_write` (lines 572-659). -/
def fs3_write_iter (c : Consts) (env : Env) (fd : Nat) (buf : Nat → Nat)
    (l : WriteLocals) (s : State) : Option (Option WriteLocals × State) :=
  match write_sector_id c s fd with
  | none => none
  | some (none, s1) => some (none, s1)
  | some (some sector_id, s1) => some (fs3_write_sector c env fd buf l s1 sector_id)

/-- The `while (cur_count > 0)` loop of `fs3_write` for handle `fd` and caller buffer
`buf`.  Outer `none`: no defined result, or the fuel is exhausted; inner `none`:
`return(-1)`. -/
def fs3_write_loop (c : Consts) (env : Env) (fd : Nat) (buf : Nat → Nat) :
    Nat → WriteLocals → State → Option (Option WriteLocals × State)
  | 0, l, s => if l.cur_count = 0 then some (some l, s) else none
  | fuel + 1, l, s =>
    if l.cur_count = 0 then some (some l, s)
    else
      match fs3_write_iter c env fd buf l s with
      | none => none
      | some (none, s1) => some (none, s1)
      | some (some l1, s1) => fs3_write_loop c env fd buf fuel l1 s1

/-- The locals of `fs3_write` when the loop is entered (lines 541-567); `temp_buf` is
uninitialised. -/
def write_locals_init (env : Env) (count : Int) : WriteLocals :=
  { cur_count := toUInt 32 count, copy_index := 0, temp_buf := env.stack, ret_cmd_blk := 0 }

/-- Function `fs3_write(fd, buf, count)`: return value and state. -/
def fs3_write (c : Consts) (env : Env) (s : State) (fd : Int) (buf : Nat → Nat)
    (count : Int) : Option (Int × State) :=
  if fd < 0 ∨ fd ≥ (MAX_FILES c : Int) then some (-1, s)
  else if (s.file_handlers fd.toNat).file_state ≠ FILE_OPEN then some (-1, s)
  else
    match fs3_write_loop c env fd.toNat buf (toUInt 32 count) (write_locals_init env count) s with
    | none => none
    | some (none, s1) => some (-1, s1)
    | some (some _, s1) => some (count, s1)

/-! ## Mount and unmount (fs3_driver.c, lines 149-189) -/

/-- Function `fs3_mount_disk`: the value of `ret == SUCCESS` and the state. -/
def fs3_mount_disk (c : Consts) (env : Env) (s : State) : Int × State :=
  let x := network_fs3_syscall c env s.net (construct_fs3_cmdblock c.FS3_OP_MOUNT 0 0 0) 0
    (fun _ => 0)
  (if status_of x.2.1 = SUCCESS then 1 else 0, { s with net := x.2.2.2 })

/-- Function `fs3_unmount_disk`: the value of `ret == SUCCESS` and the state. -/
def fs3_unmount_disk (c : Consts) (env : Env) (s : State) : Int × State :=
  let x := network_fs3_syscall c env s.net (construct_fs3_cmdblock c.FS3_OP_UMOUNT 0 0 0) 0
    (fun _ => 0)
  (if status_of x.2.1 = SUCCESS then 1 else 0, { s with net := x.2.2.2 })

/-! ## Reachable states -/

/-- States the program can be in: the start state closed under every interface
function of the three files, with any arguments and any environment. -/
inductive Reachable (c : Consts) : State → Prop
  | init : Reachable c init_state
  | step_mount (s : State) (env : Env) : Reachable c s → Reachable c (fs3_mount_disk c env s).2
  | step_unmount (s : State) (env : Env) : Reachable c s →
      Reachable c (fs3_unmount_disk c env s).2
  | step_init_cache (s : State) : Reachable c s →
      Reachable c { s with cache := (fs3_init_cache s.cache).2 }
  | step_close_cache (s : State) : Reachable c s →
      Reachable c { s with cache := (fs3_close_cache s.cache).2 }
  | step_get_cache (s : State) (trk sct : Nat) : Reachable c s →
      Reachable c { s with cache := (fs3_get_cache s.cache trk sct).2 }
  | step_put_cache (s : State) (trk sct : Nat) (buf : Nat → Nat) : Reachable c s →
      Reachable c { s with cache := (fs3_put_cache c s.cache trk sct buf).2 }
  | step_open (s : State) (path : String) (r : Int) (s1 : State) : Reachable c s →
      fs3_open c s path = some (r, s1) → Reachable c s1
  | step_close (s : State) (fd : Int) : Reachable c s → Reachable c (fs3_close c s fd).2
  | step_seek (s : State) (fd : Int) (loc : Nat) : Reachable c s →
      Reachable c (fs3_seek c s fd loc).2
  | step_read (s : State) (env : Env) (fd count : Int) (r : Int) (bytes : List Nat) (s1 : State) :
      Reachable c s → fs3_read c env s fd count = some (r, bytes, s1) → Reachable c s1
  | step_write (s : State) (env : Env) (fd : Int) (buf : Nat → Nat) (count r : Int) (s1 : State) :
      Reachable c s → fs3_write c env s fd buf count = some (r, s1) → Reachable c s1

/-! ## Predicates used in the statements -/

/-- Paths of all entries agree between two states. -/
def same_paths (s s1 : State) : Prop :=
  ∀ i, (s1.file_handlers i).path = (s.file_handlers i).path

/-- No two slots of the file table hold the same path. -/
def paths_unique (c : Consts) (s : State) : Prop :=
  ∀ i j (p : String), i < MAX_FILES c → j < MAX_FILES c →
    (s.file_handlers i).path = some p → (s.file_handlers j).path = some p → i = j

/-- The success condition of `fs3_seek`. -/
def seek_ok (c : Consts) (s : State) (fd : Int) (loc : Nat) : Prop :=
  0 ≤ fd ∧ fd < (MAX_FILES c : Int) ∧ (s.file_handlers fd.toNat).file_state = FILE_OPEN
    ∧ loc ≤ (s.file_handlers fd.toNat).len

/-- A small instance of the constants, for evaluating the functions on concrete inputs:
2 tracks of 4 sectors of 8 bytes, a cache of 2 lines, opcodes 0 to 4. -/
def demo : Consts :=
  { FS3_MAX_TRACKS := 2, FS3_TRACK_SIZE := 4, FS3_SECTOR_SIZE := 8,
    FS3_DEFAULT_CACHE_SIZE := 2,
    FS3_OP_MOUNT := 0, FS3_OP_TSEEK := 1, FS3_OP_RDSECT := 2, FS3_OP_WRSECT := 3,
    FS3_OP_UMOUNT := 4,
    track_size_pos := by decide, sector_size_pos := by decide,
    op_nodup := by decide, op_lt := by decide }

/-- An environment in which every call succeeds: descriptor 3, every reply is the zero
block (status 0), payloads and uninitialised memory are zero bytes. -/
def env_ok : Env :=
  { sock := fun _ => 3, connect := fun _ => 0, reply := fun _ => 0,
    payload := fun _ _ => 0, stack := fun _ => 0 }

/-- The state after `fs3_mount_disk()` and `fs3_open("f")` at program start, in the
environment `env_ok`: the connection is open and slot 0 holds the open, empty file. -/
def demo_open : State :=
  { init_state with
      net := ⟨3, 1⟩,
      file_handlers := setAt init_state.file_handlers 0
        { file_zero with path := some "f", file_state := FILE_OPEN } }

/-- The state after `fs3_open("f")` at program start, without a mount: the connection
is not open and slot 0 holds the open, empty file. -/
def demo_open_unmounted : State :=
  { init_state with
      file_handlers := setAt init_state.file_handlers 0
        { file_zero with path := some "f", file_state := FILE_OPEN } }

/-- The state after `fs3_read(0, buf, 1)` on the empty file of `demo_open_unmounted`. -/
def demo_read_empty_unmounted : State :=
  ((fs3_read demo env_ok demo_open_unmounted 0 1).getD (0, [], demo_open_unmounted)).2.2

/-- The caller buffer holding the three bytes 10, 20, 30. -/
def bytes3 : Nat → Nat := fun k => [10, 20, 30].getD k 0

/-- The state after `fs3_write(0, {10, 20, 30}, 3)` in `demo_open`. -/
def demo_written : State :=
  ((fs3_write demo env_ok demo_open 0 bytes3 3).getD (0, demo_open)).2

/-- The state after `fs3_read(0, buf, 1)` on the empty file of `demo_open`. -/
def demo_read_empty : State :=
  ((fs3_read demo env_ok demo_open 0 1).getD (0, [], demo_open)).2.2

/-- Cell `(t, j)` is the first free cell of the bitmap in row-major order. -/
def first_free (c : Consts) (usage : Nat → Nat → Nat) (t j : Nat) : Prop :=
  t < c.FS3_MAX_TRACKS ∧ j < c.FS3_TRACK_SIZE ∧ usage t j = 0
    ∧ (∀ k, k < j → usage t k ≠ 0)
    ∧ (∀ t1, t1 < t → ∀ k, k < c.FS3_TRACK_SIZE → usage t1 k ≠ 0)

/-- Every cell of the bitmap is used. -/
def bitmap_full (c : Consts) (usage : Nat → Nat → Nat) : Prop :=
  ∀ t, t < c.FS3_MAX_TRACKS → ∀ k, k < c.FS3_TRACK_SIZE → usage t k ≠ 0

/-- Row-major order on cells: track ascending, then sector ascending. -/
def row_major_lt (a b : Nat × Nat) : Prop := a.1 < b.1 ∨ (a.1 = b.1 ∧ a.2 < b.2)

/-- The node `insert_tail` creates for the sector `(trk, sct)` with the data of `buf`. -/
def new_node (c : Consts) (trk sct : Nat) (buf : Nat → Nat) : cache_node :=
  { sector_id := cache_sector_id trk sct,
    sector_data := memcpy (fun _ => 0) 0 buf 0 c.FS3_SECTOR_SIZE }

/-- The test sequence of the cache: from the cache `ch`, insert `A`, insert `B`, look up
`A`, insert `C`, then look up `B`, `A` and `C`.  The result lists the data returned by
the four lookups in this order, and the nodes of the cache right after the insertion of
`C`. -/
def lru_scenario (c : Consts) (ch : Cache) (tA sA tB sB tC sC : Nat) (dA dB dC : Nat → Nat) :
    Option (Nat → Nat) × Option (Nat → Nat) × Option (Nat → Nat) × Option (Nat → Nat)
      × List cache_node :=
  let c1 := (fs3_put_cache c ch tA sA dA).2
  let c2 := (fs3_put_cache c c1 tB sB dB).2
  let g3 := fs3_get_cache c2 tA sA
  let c4 := (fs3_put_cache c g3.2 tC sC dC).2
  let g5 := fs3_get_cache c4 tB sB
  let g6 := fs3_get_cache g5.2 tA sA
  let g7 := fs3_get_cache g6.2 tC sC
  (g3.1, g5.1, g6.1, g7.1, c4.nodes)

/-- The sector identifiers of the nodes of a cache list. -/
def cache_ids (nodes : List cache_node) : List Nat := nodes.map (fun n => n.sector_id)

/-- The cache identifier of the `k`-th sector of a file entry, as `fs3_read` and
`fs3_write` compute it from the stored sector id. -/
def file_cache_id (c : Consts) (f : file_t) (k : Nat) : Nat :=
  cache_sector_id ((f.sector_id k / c.FS3_TRACK_SIZE) % 2^16)
    ((f.sector_id k % c.FS3_TRACK_SIZE) % 2^16)

/-- Loop invariant of `fs3_write` when a fresh file `h` is written from position 0 with
the `n` bytes of `b`: the bytes written so far are the position, the file owns
`num_sectors` distinct used sectors, and every cache node of one of these sectors holds
the bytes of `b` that belong to it. -/
structure WInv (c : Consts) (h : Nat) (b : Nat → Nat) (n : Nat) (l : WriteLocals)
    (s : State) : Prop where
  ns_le : (s.file_handlers h).num_sectors ≤ 512
  total : (s.file_handlers h).pos + l.cur_count = n
  len_eq : (s.file_handlers h).len = (s.file_handlers h).pos
  aligned : l.cur_count > 0 →
    (s.file_handlers h).pos = (s.file_handlers h).num_sectors * c.FS3_SECTOR_SIZE
  pos_le : (s.file_handlers h).pos ≤ (s.file_handlers h).num_sectors * c.FS3_SECTOR_SIZE
  copy_index : l.copy_index = (s.file_handlers h).pos % 2^16
  is_open : (s.file_handlers h).file_state = FILE_OPEN
  used : ∀ k, k < (s.file_handlers h).num_sectors →
    (s.file_handlers h).sector_id k < c.FS3_MAX_TRACKS * c.FS3_TRACK_SIZE
    ∧ s.sector_usage ((s.file_handlers h).sector_id k / c.FS3_TRACK_SIZE)
        ((s.file_handlers h).sector_id k % c.FS3_TRACK_SIZE) ≠ 0
  distinct : ∀ k1 k2, k1 < (s.file_handlers h).num_sectors →
    k2 < (s.file_handlers h).num_sectors →
    (s.file_handlers h).sector_id k1 = (s.file_handlers h).sector_id k2 → k1 = k2
  nodup : (cache_ids s.cache.nodes).Nodup
  data : ∀ k, k < (s.file_handlers h).num_sectors → ∀ y ∈ s.cache.nodes,
    y.sector_id = file_cache_id c (s.file_handlers h) k →
    ∀ x, x < c.FS3_SECTOR_SIZE → k * c.FS3_SECTOR_SIZE + x < (s.file_handlers h).pos →
      y.sector_data x = b (k * c.FS3_SECTOR_SIZE + x)

/-- Loop invariant of `fs3_read` when the `n` bytes of `b` are read back from position 0
of the entry `f` and every sector of the file is in the cache with the bytes of `b`. -/
structure RInv (c : Consts) (f : file_t) (b : Nat → Nat) (n : Nat) (l : ReadLocals)
    (ch : Cache) : Prop where
  cur_pos : l.cur_pos = l.read_index
  total : l.read_index + l.remaining_count = n
  aligned : l.remaining_count > 0 → l.read_index % c.FS3_SECTOR_SIZE = 0
  buf : ∀ x, x < l.read_index → l.temp_buf x = b x
  nodup : (cache_ids ch.nodes).Nodup
  present : ∀ k, k * c.FS3_SECTOR_SIZE < n →
    ∃ y ∈ ch.nodes, y.sector_id = file_cache_id c f k
  data : ∀ k, k * c.FS3_SECTOR_SIZE < n → ∀ y ∈ ch.nodes,
    y.sector_id = file_cache_id c f k →
    ∀ x, x < c.FS3_SECTOR_SIZE → k * c.FS3_SECTOR_SIZE + x < n →
      y.sector_data x = b (k * c.FS3_SECTOR_SIZE + x)

/-- Twelve bytes, more than one sector of the demo geometry. -/
def bytes12 : List Nat := [1, 2, 3, 4, 5, 6, 7, 8, 9, 10, 11, 12]

/-- The state after `fs3_write(0, bytes12, 12)` in `demo_open`. -/
def demo_written12 : State :=
  ((fs3_write demo env_ok demo_open 0 (fun k => bytes12.getD k 0) 12).getD (0, demo_open)).2

/-- The state after `fs3_write(0, buf, 64)` in `demo_open`, which uses all 8 sectors of
the demo geometry, followed by `fs3_open("g")`: slot 1 holds a freshly opened new file and
no sector is free. -/
def demo_full : State :=
  ((fs3_open demo
      ((fs3_write demo env_ok demo_open 0 (fun k => k % 251) 64).getD (0, demo_open)).2
      "g").getD (0, demo_open)).2

/-- Calls `fs3_write(h, buf, n)`, `fs3_seek(h, 0)`, `fs3_read(h, out, n)` in sequence: the
return value of the read and the bytes it stores to `out`. -/
def write_seek_read (c : Consts) (env : Env) (s : State) (h : Int) (buf : Nat → Nat)
    (n : Int) : Option (Int × List Nat) :=
  match fs3_write c env s h buf n with
  | none => none
  | some (_, s1) => (fs3_read c env (fs3_seek c s1 h 0).2 h n).map (fun x => (x.1, x.2.1))

/-- The free cells of the bitmap. -/
def free_set (c : Consts) (usage : Nat → Nat → Nat) : Finset (Nat × Nat) :=
  ((Finset.range c.FS3_MAX_TRACKS) ×ˢ (Finset.range c.FS3_TRACK_SIZE)).filter
    (fun p => usage p.1 p.2 = 0)

/-- Every reply of the server carries status success. -/
def replies_ok (env : Env) : Prop := ∀ k, status_of (env.reply k % 2^64) ≠ FAIL

/-- What a write of the remaining bytes needs in order to go through: the status seen so
far is success, and `m` more sectors cover the remaining bytes, are free in the bitmap
and fit the sector list of the file. -/
structure WProg (c : Consts) (h : Nat) (m : Nat) (l : WriteLocals) (s : State) : Prop where
  status : status_of l.ret_cmd_blk ≠ FAIL
  covers : l.cur_count ≤ m * c.FS3_SECTOR_SIZE
  free : m ≤ (free_set c s.sector_usage).card
  room : (s.file_handlers h).num_sectors + m ≤ 512

/-! ## Further predicates, invariants and concrete states -/

/-- The success condition of `fs3_close`. -/
def close_ok (c : Consts) (s : State) (fd : Int) : Prop :=
  0 ≤ fd ∧ fd < (MAX_FILES c : Int) ∧ (s.file_handlers fd.toNat).file_state = FILE_OPEN

/-- The cache after `fs3_put_cache(0, 0, {1, ..})` and `fs3_put_cache(0, 1, {2, ..})` on the
empty cache of the demo geometry. -/
def demo_cache2 : Cache :=
  (fs3_put_cache demo (fs3_put_cache demo ⟨[], 0, 0, 0, 0⟩ 0 0 (fun _ => 1)).2 0 1
    (fun _ => 2)).2

/-- What the loop of `fs3_write` keeps true for an entry with initial position `p0` and
length `l0` and a write of `total` bytes: the status seen so far is success, the bytes
written and the bytes left add up, the length is the larger of `l0` and the position, the
position lies within the allocated sectors, and `m` more sectors cover the bytes left,
are free in the bitmap with `e` free cells to spare, and fit the sector list. -/
structure WAcc (c : Consts) (h p0 l0 total e m : Nat) (l : WriteLocals) (s : State) :
    Prop where
  status : status_of l.ret_cmd_blk ≠ FAIL
  sum : (s.file_handlers h).pos + l.cur_count = p0 + total
  len_eq : (s.file_handlers h).len = max l0 (s.file_handlers h).pos
  within : (s.file_handlers h).pos ≤ (s.file_handlers h).num_sectors * c.FS3_SECTOR_SIZE
  covers : (s.file_handlers h).pos + l.cur_count
    ≤ ((s.file_handlers h).num_sectors + m) * c.FS3_SECTOR_SIZE
  free : m + e ≤ (free_set c s.sector_usage).card
  room : (s.file_handlers h).num_sectors + m ≤ 512

/-- An instance of the constants with 64 tracks of 1024 sectors of 1024 bytes, hence a file
table of 65536 slots; the opcodes are numbered 0..4. -/
def geometry64 : Consts :=
  { FS3_MAX_TRACKS := 64, FS3_TRACK_SIZE := 1024, FS3_SECTOR_SIZE := 1024,
    FS3_DEFAULT_CACHE_SIZE := 2048,
    FS3_OP_MOUNT := 0, FS3_OP_TSEEK := 1, FS3_OP_RDSECT := 2, FS3_OP_WRSECT := 3,
    FS3_OP_UMOUNT := 4,
    track_size_pos := by decide, sector_size_pos := by decide,
    op_nodup := by decide, op_lt := by decide }

/-- A state whose slots 0..32767 hold closed files with pairwise distinct paths (slot `i`
has the path of `i + 2` letters `x`) and whose other slots are unassigned. -/
def table_32768 : State :=
  { init_state with
      file_handlers := fun i =>
        if i < 32768 then
          { file_zero with path := some (String.mk (List.replicate (i + 2) 'x')) }
        else file_zero }

/-- The state after `fs3_write(0, {1, .., 24}, 24)` and `fs3_seek(0, 0)` in
`demo_open_unmounted`: the connection was never opened. -/
def demo_unmounted_written24 : State :=
  (fs3_seek demo
    ((fs3_write demo env_ok demo_open_unmounted 0 (fun k => k + 1) 24).getD
      (0, demo_open_unmounted)).2 0 0).2

/-! ## Cache reachability, sector invariant and further concrete states -/

/-- Cache states reachable from an empty cache by calls of `fs3_put_cache` and
`fs3_get_cache`. -/
inductive CacheReachable (c : Consts) : Cache → Prop
  | empty (ch : Cache) : ch.nodes = [] → CacheReachable c ch
  | step_put (ch : Cache) (trk sct : Nat) (buf : Nat → Nat) : CacheReachable c ch →
      CacheReachable c (fs3_put_cache c ch trk sct buf).2
  | step_get (ch : Cache) (trk sct : Nat) : CacheReachable c ch →
      CacheReachable c (fs3_get_cache ch trk sct).2

/-- An environment like `env_ok` in which every reply is the UMOUNT block with status
success. -/
def env_umount : Env :=
  { env_ok with reply := fun _ => construct_fs3_cmdblock demo.FS3_OP_UMOUNT 0 0 0 }

/-- The value of `track` in an iteration of the loop of `fs3_read` (line 465), for a
sector index inside the array. -/
def read_track (c : Consts) (f : file_t) (l : ReadLocals) : Nat :=
  (f.sector_id (l.cur_pos / c.FS3_SECTOR_SIZE) / c.FS3_TRACK_SIZE) % 2^16

/-- The value of `sector` in an iteration of the loop of `fs3_read` (line 466), for a
sector index inside the array. -/
def read_sector (c : Consts) (f : file_t) (l : ReadLocals) : Nat :=
  (f.sector_id (l.cur_pos / c.FS3_SECTOR_SIZE) % c.FS3_TRACK_SIZE) % 2^16

/-- An environment like `env_ok` whose sector payloads hold the byte `100 + i` at
offset `i`. -/
def env_data : Env := { env_ok with payload := fun _ i => 100 + i }

/-- The state after `fs3_write(0, {1, .., 24}, 24)` and `fs3_seek(0, 0)` in `demo_open`:
the file has three sectors, of which the cache holds the last two. -/
def demo_written24 : State :=
  (fs3_seek demo
    ((fs3_write demo env_ok demo_open 0 (fun k => k + 1) 24).getD (0, demo_open)).2 0 0).2

/-- An environment like `env_ok` in which the reply of call number `k0` carries status
failure (bit 11 set). -/
def env_fail_at (k0 : Nat) : Env :=
  { env_ok with reply := fun k => if k = k0 then 2^11 else 0 }

/-- The state after the failed `fs3_read(0, buf, 16)` in `demo_written24`, when the
reply of call number 12 carries status failure. -/
def demo_read_failed : State :=
  ((fs3_read demo (env_fail_at 12) demo_written24 0 16).getD (0, [], demo_written24)).2.2

/-- The state after `fs3_read(0, buf, 20)` in `demo_read_empty`, where the position is 1
and the length is 0. -/
def demo_read_past : State :=
  ((fs3_read demo env_ok demo_read_empty 0 20).getD (0, [], demo_read_empty)).2.2

/-- The state after `fs3_write(0, {7}, 1)` in `demo_read_past`. -/
def demo_unbacked : State :=
  ((fs3_write demo env_ok demo_read_past 0 (fun _ => 7) 1).getD (0, demo_read_past)).2

/-- The used cells of the bitmap. -/
def used_set (c : Consts) (usage : Nat → Nat → Nat) : Finset (Nat × Nat) :=
  ((Finset.range c.FS3_MAX_TRACKS) ×ˢ (Finset.range c.FS3_TRACK_SIZE)).filter
    (fun p => usage p.1 p.2 ≠ 0)

/-- The sector lists, the bitmap and the used-sector counter agree: every file entry has
at most 512 sectors; every listed sector id names a cell of the bitmap (track `id /
FS3_TRACK_SIZE`, sector `id % FS3_TRACK_SIZE`) that is marked used; no sector id is listed
twice, within one entry or across entries; the counter is the number of used cells. -/
structure SInv (c : Consts) (s : State) : Prop where
  bound : ∀ h, (s.file_handlers h).num_sectors ≤ 512
  used : ∀ h k, k < (s.file_handlers h).num_sectors →
    (s.file_handlers h).sector_id k / c.FS3_TRACK_SIZE < c.FS3_MAX_TRACKS
    ∧ s.sector_usage ((s.file_handlers h).sector_id k / c.FS3_TRACK_SIZE)
        ((s.file_handlers h).sector_id k % c.FS3_TRACK_SIZE) ≠ 0
  distinct : ∀ h1 k1 h2 k2, k1 < (s.file_handlers h1).num_sectors →
    k2 < (s.file_handlers h2).num_sectors →
    (s.file_handlers h1).sector_id k1 = (s.file_handlers h2).sector_id k2 →
    h1 = h2 ∧ k1 = k2
  counter : s.sectors_used = (used_set c s.sector_usage).card

/-- What a step of `fs3_write` on handle `fd` may do to the state: the other entries are
unchanged; the sector list of entry `fd` only grows at its end, within the 512 entries of
the array; and `SInv` is kept, for track and sector counts that fit the `uint16_t`
variables and sector ids that fit the `uint16_t` variable `sector_id`. -/
structure WFrame (c : Consts) (fd : Nat) (s s1 : State) : Prop where
  others : ∀ k, k ≠ fd → s1.file_handlers k = s.file_handlers k
  grows : (s.file_handlers fd).num_sectors ≤ 512 →
    (s.file_handlers fd).num_sectors ≤ (s1.file_handlers fd).num_sectors
    ∧ (s1.file_handlers fd).num_sectors ≤ 512
    ∧ ∀ k, k < (s.file_handlers fd).num_sectors →
        (s1.file_handlers fd).sector_id k = (s.file_handlers fd).sector_id k
  inv : c.FS3_MAX_TRACKS < 2^16 → c.FS3_TRACK_SIZE < 2^16 →
    c.FS3_MAX_TRACKS * c.FS3_TRACK_SIZE ≤ 2^16 → SInv c s → SInv c s1

/-- The state after `fs3_open("g")` in `demo_open`: slot 0 holds the open, empty file "f"
and slot 1 the open, empty file "g". -/
def demo_two_files : State :=
  { demo_open with
      file_handlers := setAt demo_open.file_handlers 1
        { demo_open.file_handlers 1 with
            num_sectors := 0, len := 0, pos := 0, path := some "g",
            file_state := FILE_OPEN } }

/-! ## Codec lemmas -/

theorem mask_shift_mod (x m k w : Nat) (hm : ∀ i, i < w → m.testBit (k + i) = true) :
    ((x &&& m) >>> k) % 2^w = (x / 2^k) % 2^w := by
  apply Nat.eq_of_testBit_eq
  intro i
  simp only [Nat.testBit_mod_two_pow, Nat.testBit_shiftRight, Nat.testBit_and,
    ← Nat.shiftRight_eq_div_pow]
  by_cases h : i < w
  · simp [h, hm i h]
  · simp [h]

theorem mask_shift_exact (x k w : Nat) :
    (x &&& ((2^w - 1) <<< k)) >>> k = (x / 2^k) % 2^w := by
  apply Nat.eq_of_testBit_eq
  intro i
  simp only [Nat.testBit_mod_two_pow, Nat.testBit_shiftRight, Nat.testBit_and,
    ← Nat.shiftRight_eq_div_pow, Nat.testBit_shiftLeft, Nat.testBit_two_pow_sub_one]
  by_cases h : i < w
  · simp [h]
  · simp [h]

theorem construct_eq_sum (op sec trk ret : Nat) (ho : op < 2^4) (hs : sec < 2^16)
    (ht : trk < 2^32) (hr : ret < 2) :
    construct_fs3_cmdblock op sec trk ret
      = op * 2^60 + sec * 2^44 + trk * 2^12 + ret * 2^11 := by
  unfold construct_fs3_cmdblock
  simp only [Nat.shiftLeft_eq]
  have h1 : op % 2^8 = op := Nat.mod_eq_of_lt (by omega)
  have h2 : sec % 2^16 = sec := Nat.mod_eq_of_lt hs
  have h3 : trk % 2^64 = trk := Nat.mod_eq_of_lt (by omega)
  have h4 : ret % 2^8 = ret := Nat.mod_eq_of_lt (by omega)
  rw [h1, h2, h3, h4]
  have e1 : op * 2^60 % 2^64 = 2^60 * op := by omega
  have e2 : sec * 2^44 % 2^64 = 2^44 * sec := by omega
  have e3 : trk * 2^12 % 2^64 = 2^12 * trk := by omega
  have e4 : ret * 2^11 % 2^64 = 2^11 * ret := by omega
  rw [e1, e2, e3, e4]
  rw [← Nat.mul_add_lt_is_or (by omega : 2^44 * sec < 2^60) op]
  have a1 : 2^60 * op + 2^44 * sec = 2^44 * (2^16 * op + sec) := by omega
  rw [a1, ← Nat.mul_add_lt_is_or (by omega : 2^12 * trk < 2^44)]
  have a2 : 2^44 * (2^16 * op + sec) + 2^12 * trk
      = 2^12 * (2^32 * (2^16 * op + sec) + trk) := by omega
  rw [a2, ← Nat.mul_add_lt_is_or (by omega : 2^11 * ret < 2^12)]
  omega

theorem deconstruct_eq_divmod (x : Nat) :
    deconstruct_fs3_cmdblock x
      = ((x / 2^60) % 2^4, (x / 2^44) % 2^16, (x / 2^12) % 2^32, (x / 2^11) % 2) := by
  unfold deconstruct_fs3_cmdblock
  have m1 : (0xf000000000000000 : Nat) = (2^4 - 1) <<< 60 := by decide
  have m2 : (0x0ffff00000000000 : Nat) = (2^16 - 1) <<< 44 := by decide
  have m4 : (0x0000000000000800 : Nat) = (2^1 - 1) <<< 11 := by decide
  have m3 : ∀ i, i < 32 → (0xf0000ffffffff000 : Nat).testBit (12 + i) = true := by
    intro i hi
    interval_cases i <;> decide
  rw [m1, m2, m4, mask_shift_exact, mask_shift_exact, mask_shift_exact,
    mask_shift_mod _ _ 12 32 m3]
  refine Prod.ext ?_ (Prod.ext ?_ (Prod.ext ?_ ?_)) <;> simp only <;> omega

/-! ## Array stores -/

theorem setAt_same {α : Type} (a : Nat → α) (i : Nat) (v : α) : setAt a i v i = v := by
  simp [setAt]

theorem setAt_other {α : Type} (a : Nat → α) (i k : Nat) (v : α) (h : k ≠ i) :
    setAt a i v k = a k := by
  simp [setAt, h]

/-! ## Paths are never changed except by `fs3_open` of a new path -/

theorem get_free_sector_fh (c : Consts) (s : State) (r : Option (Nat × Nat)) (s1 : State)
    (h : get_free_sector c s = some (r, s1)) : s1.file_handlers = s.file_handlers := by
  unfold get_free_sector at h
  split at h
  · exact absurd h (by simp)
  · simp only [Option.some.injEq, Prod.mk.injEq] at h
    rw [← h.2]
  · simp only [Option.some.injEq, Prod.mk.injEq] at h
    rw [← h.2]

theorem allocate_sector_fh (c : Consts) (s : State) (r : Option (Nat × Nat)) (s1 : State)
    (h : allocate_sector c s = some (r, s1)) : s1.file_handlers = s.file_handlers := by
  unfold allocate_sector at h
  split at h
  · exact absurd h (by simp)
  · rename_i s2 h2
    simp only [Option.some.injEq, Prod.mk.injEq] at h
    rw [← h.2]; exact get_free_sector_fh c s _ _ h2
  · rename_i t sc s2 h2
    simp only [Option.some.injEq, Prod.mk.injEq] at h
    rw [← h.2]
    exact get_free_sector_fh c s _ s2 h2

theorem write_sector_id_paths (c : Consts) (s : State) (fd : Nat) (r : Option Nat) (s1 : State)
    (h : write_sector_id c s fd = some (r, s1)) : same_paths s s1 := by
  unfold write_sector_id at h
  split at h
  · split at h
    · exact absurd h (by simp)
    · rename_i s2 h2
      simp only [Option.some.injEq, Prod.mk.injEq] at h
      intro i; rw [← h.2, allocate_sector_fh c s _ _ h2]
    · rename_i t sc s2 h2
      split at h
      · exact absurd h (by simp)
      · simp only [Option.some.injEq, Prod.mk.injEq] at h
        intro i
        rw [← h.2]
        by_cases hi : i = fd
        · subst hi; simp only [setAt_same]
        · simp only [setAt_other _ _ _ _ hi]; rw [allocate_sector_fh c s _ _ h2]
  · split at h
    · exact absurd h (by simp)
    · simp only [Option.some.injEq, Prod.mk.injEq] at h
      intro i; rw [← h.2]

theorem fs3_write_sector_paths (c : Consts) (env : Env) (fd : Nat) (buf : Nat → Nat)
    (l : WriteLocals) (s : State) (sid : Nat) :
    same_paths s (fs3_write_sector c env fd buf l s sid).2 := by
  intro i
  unfold fs3_write_sector
  split
  split
  · rfl
  · split
    split
    · rfl
    · split
      split
      · rfl
      · split
        split
        · rfl
        · by_cases hi : i = fd
          · subst hi; simp only [setAt_same, write_commit]
          · simp only [setAt_other _ _ _ _ hi]

theorem fs3_write_iter_paths (c : Consts) (env : Env) (fd : Nat) (buf : Nat → Nat)
    (l : WriteLocals) (s : State) (r : Option WriteLocals) (s1 : State)
    (h : fs3_write_iter c env fd buf l s = some (r, s1)) : same_paths s s1 := by
  unfold fs3_write_iter at h
  split at h
  · exact absurd h (by simp)
  · rename_i s2 h2
    simp only [Option.some.injEq, Prod.mk.injEq] at h
    rw [← h.2]; exact write_sector_id_paths c s fd _ _ h2
  · rename_i sid s2 h2
    have hp := write_sector_id_paths c s fd _ _ h2
    simp only [Option.some.injEq] at h
    have h3 := fs3_write_sector_paths c env fd buf l s2 sid
    rw [h] at h3
    intro i; rw [h3 i, hp i]

theorem fs3_write_loop_paths (c : Consts) (env : Env) (fd : Nat) (buf : Nat → Nat) :
    ∀ (fuel : Nat) (l : WriteLocals) (s : State) (r : Option WriteLocals) (s1 : State),
      fs3_write_loop c env fd buf fuel l s = some (r, s1) → same_paths s s1 := by
  intro fuel
  induction fuel with
  | zero =>
    intro l s r s1 h
    unfold fs3_write_loop at h
    split at h
    · simp only [Option.some.injEq, Prod.mk.injEq] at h
      intro i; rw [← h.2]
    · exact absurd h (by simp)
  | succ n ih =>
    intro l s r s1 h
    unfold fs3_write_loop at h
    split at h
    · simp only [Option.some.injEq, Prod.mk.injEq] at h
      intro i; rw [← h.2]
    · split at h
      · exact absurd h (by simp)
      · rename_i s2 h2
        simp only [Option.some.injEq, Prod.mk.injEq] at h
        rw [← h.2]; exact fs3_write_iter_paths c env fd buf l s _ _ h2
      · rename_i l2 s2 h2
        have hp := fs3_write_iter_paths c env fd buf l s _ _ h2
        have := ih _ _ _ _ h
        intro i; rw [this i, hp i]

theorem fs3_write_paths (c : Consts) (env : Env) (s : State) (fd : Int) (buf : Nat → Nat)
    (count r : Int) (s1 : State) (h : fs3_write c env s fd buf count = some (r, s1)) :
    same_paths s s1 := by
  unfold fs3_write at h
  split at h
  · simp only [Option.some.injEq, Prod.mk.injEq] at h
    intro i; rw [← h.2]
  · split at h
    · simp only [Option.some.injEq, Prod.mk.injEq] at h
      intro i; rw [← h.2]
    · split at h
      · exact absurd h (by simp)
      · rename_i s2 h2
        simp only [Option.some.injEq, Prod.mk.injEq] at h
        rw [← h.2]; exact fs3_write_loop_paths c env _ buf _ _ _ _ _ h2
      · rename_i l2 s2 h2
        simp only [Option.some.injEq, Prod.mk.injEq] at h
        rw [← h.2]; exact fs3_write_loop_paths c env _ buf _ _ _ _ _ h2

theorem fs3_read_paths (c : Consts) (env : Env) (s : State) (fd count r : Int)
    (bytes : List Nat) (s1 : State) (h : fs3_read c env s fd count = some (r, bytes, s1)) :
    same_paths s s1 := by
  unfold fs3_read at h
  split at h
  · simp only [Option.some.injEq, Prod.mk.injEq] at h
    intro i; rw [← h.2.2]
  · split at h
    · simp only [Option.some.injEq, Prod.mk.injEq] at h
      intro i; rw [← h.2.2]
    · split at h
      · exact absurd h (by simp)
      · simp only [Option.some.injEq, Prod.mk.injEq] at h
        intro i; rw [← h.2.2]
      · split at h
        · exact absurd h (by simp)
        · simp only [Option.some.injEq, Prod.mk.injEq] at h
          intro i; rw [← h.2.2]
          by_cases hi : i = fd.toNat
          · rw [hi]; simp only [setAt_same]
          · simp only [setAt_other _ _ _ _ hi]

theorem fs3_close_paths (c : Consts) (s : State) (fd : Int) :
    same_paths s (fs3_close c s fd).2 := by
  intro i
  unfold fs3_close
  split
  · rfl
  · split
    · rfl
    · by_cases hi : i = fd.toNat
      · rw [hi]; simp only [setAt_same]
      · simp only [setAt_other _ _ _ _ hi]

theorem fs3_seek_paths (c : Consts) (s : State) (fd : Int) (loc : Nat) :
    same_paths s (fs3_seek c s fd loc).2 := by
  intro i
  unfold fs3_seek
  split
  · rfl
  · split
    · rfl
    · split
      · rfl
      · by_cases hi : i = fd.toNat
        · rw [hi]; simp only [setAt_same]
        · simp only [setAt_other _ _ _ _ hi]

/-! ## The scan of `fs3_open` -/

theorem fs3_open_scan_match (fh : Nat → file_t) (path : String) :
    ∀ (n i : Nat) (free_handle : Int) (i0 : Nat), i ≤ i0 → i0 < i + n →
      (∀ k, i ≤ k → k < i0 → (fh k).path ≠ some path) → (fh i0).path = some path →
      fs3_open_scan fh path n i free_handle =
        if (fh i0).file_state = FILE_OPEN then Sum.inl (-1, fh)
        else Sum.inl (toInt16 i0, setAt fh i0 { fh i0 with pos := 0, file_state := FILE_OPEN }) := by
  intro n
  induction n with
  | zero => intro i free_handle i0 h1 h2; omega
  | succ n ih =>
    intro i free_handle i0 h1 h2 hbefore hat
    unfold fs3_open_scan
    by_cases hi : i = i0
    · subst hi
      rw [if_pos hat]
    · rw [if_neg (hbefore i (Nat.le_refl i) (by omega))]
      exact ih (i + 1) _ i0 (by omega) (by omega)
        (fun k hk1 hk2 => hbefore k (by omega) hk2) hat

theorem fs3_open_scan_inl (fh : Nat → file_t) (path : String) :
    ∀ (n i : Nat) (free_handle : Int) (r : Int) (fh1 : Nat → file_t),
      fs3_open_scan fh path n i free_handle = Sum.inl (r, fh1) →
      ∀ k, (fh1 k).path = (fh k).path := by
  intro n
  induction n with
  | zero => intro i free_handle r fh1 h; unfold fs3_open_scan at h; exact absurd h (by simp)
  | succ n ih =>
    intro i free_handle r fh1 h
    unfold fs3_open_scan at h
    split at h
    · split at h
      · simp only [Sum.inl.injEq, Prod.mk.injEq] at h
        intro k; rw [← h.2]
      · simp only [Sum.inl.injEq, Prod.mk.injEq] at h
        intro k; rw [← h.2]
        by_cases hk : k = i
        · subst hk; simp only [setAt_same]
        · simp only [setAt_other _ _ _ _ hk]
    · exact ih _ _ _ _ h

theorem fs3_open_scan_inr (fh : Nat → file_t) (path : String) :
    ∀ (n i : Nat) (free_handle free1 : Int),
      fs3_open_scan fh path n i free_handle = Sum.inr free1 →
      ∀ k, i ≤ k → k < i + n → (fh k).path ≠ some path := by
  intro n
  induction n with
  | zero => intro i free_handle free1 _ k h1 h2; omega
  | succ n ih =>
    intro i free_handle free1 h k h1 h2
    unfold fs3_open_scan at h
    split at h
    · split at h <;> exact absurd h (by simp)
    · rename_i hne
      by_cases hk : k = i
      · subst hk; exact hne
      · exact ih _ _ _ h k (by omega) (by omega)

theorem same_paths_unique (c : Consts) (s s1 : State) (h : same_paths s s1)
    (hu : paths_unique c s) : paths_unique c s1 := by
  intro i j p hi hj h1 h2
  rw [h i] at h1
  rw [h j] at h2
  exact hu i j p hi hj h1 h2

theorem fs3_open_paths_unique (c : Consts) (s : State) (path : String) (r : Int) (s1 : State)
    (h : fs3_open c s path = some (r, s1)) (hu : paths_unique c s) : paths_unique c s1 := by
  unfold fs3_open at h
  split at h
  · rename_i r1 fh1 hscan
    simp only [Option.some.injEq, Prod.mk.injEq] at h
    have hp := fs3_open_scan_inl _ _ _ _ _ _ _ hscan
    apply same_paths_unique c s s1 _ hu
    intro i; rw [← h.2]; exact hp i
  · rename_i free1 hscan
    have hno := fs3_open_scan_inr _ _ _ _ _ _ hscan
    split at h
    · simp only [Option.some.injEq, Prod.mk.injEq] at h
      rw [← h.2]; exact hu
    · split at h
      · exact absurd h (by simp)
      · simp only [Option.some.injEq, Prod.mk.injEq] at h
        intro i j p hi hj h1 h2
        rw [← h.2] at h1 h2
        simp only at h1 h2
        by_cases hih : i = free1.toNat <;> by_cases hjh : j = free1.toNat
        · rw [hih, hjh]
        · rw [hih, setAt_same] at h1
          rw [setAt_other _ _ _ _ hjh] at h2
          simp only [Option.some.injEq] at h1
          rw [← h1] at h2
          exact absurd h2 (hno j (Nat.zero_le j) (by omega))
        · rw [hjh, setAt_same] at h2
          rw [setAt_other _ _ _ _ hih] at h1
          simp only [Option.some.injEq] at h2
          rw [← h2] at h1
          exact absurd h1 (hno i (Nat.zero_le i) (by omega))
        · rw [setAt_other _ _ _ _ hih] at h1
          rw [setAt_other _ _ _ _ hjh] at h2
          exact hu i j p hi hj h1 h2

theorem reachable_paths_unique (c : Consts) (s : State) (h : Reachable c s) :
    paths_unique c s := by
  induction h with
  | init => intro i j p _ _ h1 _; simp [init_state, file_zero] at h1
  | step_mount s env _ ih => exact same_paths_unique c s _ (fun _ => rfl) ih
  | step_unmount s env _ ih => exact same_paths_unique c s _ (fun _ => rfl) ih
  | step_init_cache s _ ih => exact same_paths_unique c s _ (fun _ => rfl) ih
  | step_close_cache s _ ih => exact same_paths_unique c s _ (fun _ => rfl) ih
  | step_get_cache s trk sct _ ih => exact same_paths_unique c s _ (fun _ => rfl) ih
  | step_put_cache s trk sct buf _ ih => exact same_paths_unique c s _ (fun _ => rfl) ih
  | step_open s path r s1 _ ho ih => exact fs3_open_paths_unique c s path r s1 ho ih
  | step_close s fd _ ih => exact same_paths_unique c s _ (fs3_close_paths c s fd) ih
  | step_seek s fd loc _ ih => exact same_paths_unique c s _ (fs3_seek_paths c s fd loc) ih
  | step_read s env fd count r bytes s1 _ hr ih =>
    exact same_paths_unique c s _ (fs3_read_paths c env s fd count r bytes s1 hr) ih
  | step_write s env fd buf count r s1 _ hw ih =>
    exact same_paths_unique c s _ (fs3_write_paths c env s fd buf count r s1 hw) ih

/-! ## Seek -/

theorem fs3_seek_of_ok (c : Consts) (s : State) (fd : Int) (loc : Nat)
    (h : seek_ok c s fd loc) :
    fs3_seek c s fd loc =
      (0, { s with file_handlers :=
                     setAt s.file_handlers fd.toNat { s.file_handlers fd.toNat with pos := loc } }) := by
  obtain ⟨h0, h1, h2, h3⟩ := h
  unfold fs3_seek
  rw [if_neg (by omega), if_neg (by simp [h2]), if_neg (by omega)]

theorem fs3_seek_of_not_ok (c : Consts) (s : State) (fd : Int) (loc : Nat)
    (h : ¬ seek_ok c s fd loc) : fs3_seek c s fd loc = (-1, s) := by
  unfold fs3_seek
  split
  · rfl
  · split
    · rfl
    · split
      · rfl
      · rename_i h1 h2 h3
        exact absurd ⟨by omega, by omega, not_not.mp h2, by omega⟩ h

theorem toInt16_small (n : Nat) (h : n < 2^15) : toInt16 n = (n : Int) := by
  unfold toInt16
  have h1 : n % 2^16 = n := Nat.mod_eq_of_lt (by omega)
  rw [h1, if_pos h]

/-! ## First-fit allocation -/

theorem get_free_sector_inner_spec (c : Consts) (usage : Nat → Nat → Nat) (i : Nat)
    (hT : c.FS3_TRACK_SIZE < 2^16) :
    ∀ (fuel j : Nat), j ≤ c.FS3_TRACK_SIZE → c.FS3_TRACK_SIZE - j < fuel →
      (∃ j1, j ≤ j1 ∧ j1 < c.FS3_TRACK_SIZE ∧ usage i j1 = 0
          ∧ (∀ k, j ≤ k → k < j1 → usage i k ≠ 0)
          ∧ get_free_sector_inner c usage i fuel j = some (j1, true))
      ∨ ((∀ k, j ≤ k → k < c.FS3_TRACK_SIZE → usage i k ≠ 0)
          ∧ get_free_sector_inner c usage i fuel j = some (c.FS3_TRACK_SIZE, false)) := by
  intro fuel
  induction fuel with
  | zero => intro j _ h; omega
  | succ n ih =>
    intro j hj hf
    unfold get_free_sector_inner
    by_cases hlt : j < c.FS3_TRACK_SIZE
    · rw [if_pos hlt]
      by_cases hz : usage i j = 0
      · rw [if_pos hz]
        exact Or.inl ⟨j, Nat.le_refl j, hlt, hz, fun k h1 h2 => by omega, rfl⟩
      · rw [if_neg hz]
        have hmod : (j + 1) % 2^16 = j + 1 := Nat.mod_eq_of_lt (by omega)
        rw [hmod]
        rcases ih (j + 1) (by omega) (by omega) with ⟨j1, h1, h2, h3, h4, h5⟩ | ⟨h1, h2⟩
        · refine Or.inl ⟨j1, by omega, h2, h3, fun k hk1 hk2 => ?_, h5⟩
          by_cases hk : k = j
          · rw [hk]; exact hz
          · exact h4 k (by omega) hk2
        · refine Or.inr ⟨fun k hk1 hk2 => ?_, h2⟩
          by_cases hk : k = j
          · rw [hk]; exact hz
          · exact h1 k (by omega) hk2
    · rw [if_neg hlt]
      have : j = c.FS3_TRACK_SIZE := by omega
      exact Or.inr ⟨fun k hk1 hk2 => by omega, by rw [this]⟩

theorem get_free_sector_outer_spec (c : Consts) (usage : Nat → Nat → Nat)
    (hM : c.FS3_MAX_TRACKS < 2^16) (hT : c.FS3_TRACK_SIZE < 2^16) :
    ∀ (fuel i : Nat), i ≤ c.FS3_MAX_TRACKS → c.FS3_MAX_TRACKS - i < fuel →
      (∃ i1 j1, i ≤ i1 ∧ i1 < c.FS3_MAX_TRACKS ∧ j1 < c.FS3_TRACK_SIZE ∧ usage i1 j1 = 0
          ∧ (∀ k, k < j1 → usage i1 k ≠ 0)
          ∧ (∀ t, i ≤ t → t < i1 → ∀ k, k < c.FS3_TRACK_SIZE → usage t k ≠ 0)
          ∧ get_free_sector_outer c usage fuel i 0 = some (i1, j1, true))
      ∨ ((∀ t, i ≤ t → t < c.FS3_MAX_TRACKS → ∀ k, k < c.FS3_TRACK_SIZE → usage t k ≠ 0)
          ∧ get_free_sector_outer c usage fuel i 0 = some (c.FS3_MAX_TRACKS, 0, false)) := by
  intro fuel
  induction fuel with
  | zero => intro i _ h; omega
  | succ n ih =>
    intro i hi hf
    unfold get_free_sector_outer
    by_cases hlt : i < c.FS3_MAX_TRACKS
    · rw [if_pos hlt]
      rcases get_free_sector_inner_spec c usage i hT (c.FS3_TRACK_SIZE + 1) 0
          (Nat.zero_le _) (by omega) with ⟨j1, h1, h2, h3, h4, h5⟩ | ⟨h1, h2⟩
      · rw [h5]
        exact Or.inl ⟨i, j1, Nat.le_refl i, hlt, h2, h3, fun k hk => h4 k (Nat.zero_le k) hk,
          fun t ht1 ht2 => by omega, rfl⟩
      · rw [h2]
        simp only
        have hmod : (i + 1) % 2^16 = i + 1 := Nat.mod_eq_of_lt (by omega)
        rw [hmod]
        rcases ih (i + 1) (by omega) (by omega) with ⟨i1, j1, g1, g2, g3, g4, g5, g6, g7⟩ | ⟨g1, g2⟩
        · refine Or.inl ⟨i1, j1, by omega, g2, g3, g4, g5, fun t ht1 ht2 k hk => ?_, g7⟩
          by_cases ht : t = i
          · rw [ht]; exact h1 k (Nat.zero_le k) hk
          · exact g6 t (by omega) ht2 k hk
        · refine Or.inr ⟨fun t ht1 ht2 k hk => ?_, g2⟩
          by_cases ht : t = i
          · rw [ht]; exact h1 k (Nat.zero_le k) hk
          · exact g1 t (by omega) ht2 k hk
    · rw [if_neg hlt]
      have : i = c.FS3_MAX_TRACKS := by omega
      exact Or.inr ⟨fun t ht1 ht2 => by omega, by rw [this]⟩

theorem get_free_sector_spec (c : Consts) (s : State)
    (hM : c.FS3_MAX_TRACKS < 2^16) (hT : c.FS3_TRACK_SIZE < 2^16) :
    (∃ t j, first_free c s.sector_usage t j
        ∧ get_free_sector c s
            = some (some (t, j), { s with sectors_used := (s.sectors_used + 1) % 2^32 }))
    ∨ (bitmap_full c s.sector_usage ∧ get_free_sector c s = some (none, s)) := by
  unfold get_free_sector
  rcases get_free_sector_outer_spec c s.sector_usage hM hT (c.FS3_MAX_TRACKS + 1) 0
      (Nat.zero_le _) (by omega) with ⟨i1, j1, g1, g2, g3, g4, g5, g6, g7⟩ | ⟨g1, g2⟩
  · rw [g7]
    exact Or.inl ⟨i1, j1, ⟨g2, g3, g4, g5, fun t ht k hk => g6 t (Nat.zero_le t) ht k hk⟩, rfl⟩
  · rw [g2]
    exact Or.inr ⟨fun t ht k hk => g1 t (Nat.zero_le t) ht k hk, rfl⟩

theorem allocate_sector_spec (c : Consts) (s : State)
    (hM : c.FS3_MAX_TRACKS < 2^16) (hT : c.FS3_TRACK_SIZE < 2^16) :
    (∃ t j, first_free c s.sector_usage t j
        ∧ allocate_sector c s
            = some (some (t, j),
                { s with sectors_used := (s.sectors_used + 1) % 2^32,
                         sector_usage := setAt s.sector_usage t (setAt (s.sector_usage t) j 1) }))
    ∨ (bitmap_full c s.sector_usage ∧ allocate_sector c s = some (none, s)) := by
  unfold allocate_sector
  rcases get_free_sector_spec c s hM hT with ⟨t, j, h1, h2⟩ | ⟨h1, h2⟩
  · rw [h2]; exact Or.inl ⟨t, j, h1, rfl⟩
  · rw [h2]; exact Or.inr ⟨h1, rfl⟩

theorem allocate_sector_some (c : Consts) (s : State)
    (hM : c.FS3_MAX_TRACKS < 2^16) (hT : c.FS3_TRACK_SIZE < 2^16)
    (a : Nat × Nat) (s1 : State) (h : allocate_sector c s = some (some a, s1)) :
    first_free c s.sector_usage a.1 a.2
    ∧ s1 = { s with sectors_used := (s.sectors_used + 1) % 2^32,
                    sector_usage := setAt s.sector_usage a.1 (setAt (s.sector_usage a.1) a.2 1) } := by
  rcases allocate_sector_spec c s hM hT with ⟨t, j, h1, h2⟩ | ⟨h1, h2⟩
  · rw [h2] at h
    simp only [Option.some.injEq, Prod.mk.injEq] at h
    obtain ⟨ha, hs⟩ := h
    subst ha
    exact ⟨h1, hs.symm⟩
  · rw [h2] at h
    simp at h

theorem allocate_sector_of_free (c : Consts) (s : State)
    (hM : c.FS3_MAX_TRACKS < 2^16) (hT : c.FS3_TRACK_SIZE < 2^16)
    (t j : Nat) (ht : t < c.FS3_MAX_TRACKS) (hj : j < c.FS3_TRACK_SIZE)
    (hfree : s.sector_usage t j = 0) :
    ∃ a s1, allocate_sector c s = some (some a, s1) := by
  rcases allocate_sector_spec c s hM hT with ⟨t1, j1, _, h2⟩ | ⟨h1, _⟩
  · exact ⟨(t1, j1), _, h2⟩
  · exact absurd hfree (h1 t ht j hj)

theorem usage_after_mark (usage : Nat → Nat → Nat) (t j t1 j1 : Nat) :
    setAt usage t (setAt (usage t) j 1) t1 j1 = if t1 = t ∧ j1 = j then 1 else usage t1 j1 := by
  unfold setAt
  by_cases h1 : t1 = t
  · by_cases h2 : j1 = j
    · simp [h1, h2]
    · simp [h1, h2]
  · simp [h1]

theorem allocate_sector_next (c : Consts) (s : State)
    (hM : c.FS3_MAX_TRACKS < 2^16) (hT : c.FS3_TRACK_SIZE < 2^16)
    (a : Nat × Nat) (s1 : State) (h : allocate_sector c s = some (some a, s1)) :
    s1.sector_usage a.1 a.2 = 1
    ∧ ∀ (b : Nat × Nat) (s2 : State), allocate_sector c s1 = some (some b, s2) →
        row_major_lt a b := by
  obtain ⟨hf, hs⟩ := allocate_sector_some c s hM hT a s1 h
  have hu : ∀ t1 j1, s1.sector_usage t1 j1
      = if t1 = a.1 ∧ j1 = a.2 then 1 else s.sector_usage t1 j1 := by
    intro t1 j1; rw [hs]; exact usage_after_mark _ _ _ _ _
  refine ⟨by rw [hu]; simp, ?_⟩
  intro b s2 hb
  obtain ⟨hfb, _⟩ := allocate_sector_some c s1 hM hT b s2 hb
  obtain ⟨a1, a2, a3, a4, a5⟩ := hf
  obtain ⟨b1, b2, b3, b4, b5⟩ := hfb
  rw [hu] at b3
  have hne : ¬ (b.1 = a.1 ∧ b.2 = a.2) := by
    intro hh; rw [if_pos hh] at b3; omega
  rw [if_neg hne] at b3
  unfold row_major_lt
  by_contra hcon
  have hcase : b.1 < a.1 ∨ (b.1 = a.1 ∧ b.2 < a.2) := by omega
  rcases hcase with h1 | ⟨h1, h2⟩
  · exact a5 b.1 h1 b.2 b2 b3
  · rw [h1] at b3; exact a4 b.2 h2 b3

theorem cell_in_range (c : Consts) (n : Nat) (h : n < c.FS3_MAX_TRACKS * c.FS3_TRACK_SIZE) :
    n / c.FS3_TRACK_SIZE < c.FS3_MAX_TRACKS ∧ n % c.FS3_TRACK_SIZE < c.FS3_TRACK_SIZE := by
  refine ⟨?_, Nat.mod_lt _ c.track_size_pos⟩
  exact Nat.div_lt_of_lt_mul (by rw [Nat.mul_comm]; exact h)

theorem cell_inj (c : Consts) (n m : Nat) (h1 : n / c.FS3_TRACK_SIZE = m / c.FS3_TRACK_SIZE)
    (h2 : n % c.FS3_TRACK_SIZE = m % c.FS3_TRACK_SIZE) : n = m := by
  rw [← Nat.div_add_mod n c.FS3_TRACK_SIZE, ← Nat.div_add_mod m c.FS3_TRACK_SIZE, h1, h2]

/-! ## Cache -/

theorem fs3_get_cache_node_nil (trk sct : Nat) : fs3_get_cache_node [] trk sct = none := rfl

theorem fs3_get_cache_node_cons (n : cache_node) (rest : List cache_node) (trk sct : Nat) :
    fs3_get_cache_node (n :: rest) trk sct = find_node (cache_sector_id trk sct) (n :: rest) := rfl

theorem fs3_get_cache_node_eq (nodes : List cache_node) (trk sct : Nat) :
    fs3_get_cache_node nodes trk sct = find_node (cache_sector_id trk sct) nodes := by
  cases nodes <;> rfl

theorem fs3_put_cache_absent_full (c : Consts) (ch : Cache) (trk sct : Nat) (buf : Nat → Nat)
    (habs : fs3_get_cache_node ch.nodes trk sct = none)
    (hfull : c.FS3_DEFAULT_CACHE_SIZE ≤ ch.nodes.length) :
    fs3_put_cache c ch trk sct buf =
      (0, { ch with nodes := ch.nodes.tail ++ [new_node c trk sct buf],
                    fs3_put_cache_success := (ch.fs3_put_cache_success + 1) % 2^32 }) := by
  unfold fs3_put_cache
  rw [habs]
  simp only [get_cache_size, ge_iff_le, hfull, if_true, insert_tail, insert_node_to_tail, new_node]
  rw [if_neg (by decide)]
  cases hn : ch.nodes <;> simp [delete_head]

theorem fs3_put_cache_absent_room (c : Consts) (ch : Cache) (trk sct : Nat) (buf : Nat → Nat)
    (habs : fs3_get_cache_node ch.nodes trk sct = none)
    (hroom : ch.nodes.length < c.FS3_DEFAULT_CACHE_SIZE) :
    fs3_put_cache c ch trk sct buf =
      (0, { ch with nodes := ch.nodes ++ [new_node c trk sct buf],
                    fs3_put_cache_success := (ch.fs3_put_cache_success + 1) % 2^32 }) := by
  unfold fs3_put_cache
  rw [habs]
  simp only [get_cache_size, ge_iff_le, insert_tail, insert_node_to_tail, new_node]
  rw [if_neg (by omega : ¬ c.FS3_DEFAULT_CACHE_SIZE ≤ ch.nodes.length), if_neg (by decide)]

theorem find_node_none_iff (key : Nat) (nodes : List cache_node) :
    find_node key nodes = none ↔ ∀ y ∈ nodes, y.sector_id ≠ key := by
  induction nodes with
  | nil => simp [find_node]
  | cons x rest ih =>
    unfold find_node
    by_cases hx : x.sector_id = key
    · simp [hx]
    · simp [hx, ih]

theorem find_node_some_split (key : Nat) (nodes : List cache_node) (i : Nat)
    (h : find_node key nodes = some i) :
    ∃ pre x post, nodes = pre ++ x :: post ∧ pre.length = i ∧ x.sector_id = key
      ∧ ∀ y ∈ pre, y.sector_id ≠ key := by
  induction nodes generalizing i with
  | nil => simp [find_node] at h
  | cons x rest ih =>
    unfold find_node at h
    by_cases hx : x.sector_id = key
    · rw [if_pos hx] at h
      simp only [Option.some.injEq] at h
      exact ⟨[], x, rest, rfl, by simp [h], hx, by simp⟩
    · rw [if_neg hx] at h
      cases hr : find_node key rest with
      | none => rw [hr] at h; simp at h
      | some j =>
        rw [hr] at h
        simp only [Option.map_some', Option.some.injEq] at h
        obtain ⟨pre, y, post, h1, h2, h3, h4⟩ := ih j hr
        refine ⟨x :: pre, y, post, by rw [h1]; rfl, by simp [h2, h], h3, ?_⟩
        intro z hz
        rcases List.mem_cons.mp hz with hz | hz
        · rw [hz]; exact hx
        · exact h4 z hz

theorem find_node_split (key : Nat) (pre post : List cache_node) (x : cache_node)
    (hx : x.sector_id = key) (hpre : ∀ y ∈ pre, y.sector_id ≠ key) :
    find_node key (pre ++ x :: post) = some pre.length := by
  induction pre with
  | nil => simp [find_node, hx]
  | cons y pre ih =>
    have hy : y.sector_id ≠ key := hpre y (List.mem_cons_self _ _)
    have := ih (fun z hz => hpre z (List.mem_cons_of_mem _ hz))
    simp [find_node, hy, this]

theorem get?_split (pre post : List cache_node) (x : cache_node) :
    (pre ++ x :: post).get? pre.length = some x := by
  induction pre with
  | nil => rfl
  | cons y pre ih => simpa using ih

theorem eraseIdx_split (pre post : List cache_node) (x : cache_node) :
    (pre ++ x :: post).eraseIdx pre.length = pre ++ post := by
  induction pre with
  | nil => rfl
  | cons y pre ih => simp [ih]

theorem move_node_to_tail_split (pre post : List cache_node) (x : cache_node) :
    move_node_to_tail (pre ++ x :: post) pre.length = pre ++ post ++ [x] := by
  unfold move_node_to_tail insert_node_to_tail
  rw [get?_split, eraseIdx_split]

theorem modify_split (f : cache_node → cache_node) (pre post : List cache_node)
    (x : cache_node) :
    (pre ++ x :: post).modify f pre.length = pre ++ f x :: post := by
  induction pre with
  | nil => simp
  | cons y pre ih => simp [ih]

theorem fs3_get_cache_hit (ch : Cache) (trk sct : Nat) (pre post : List cache_node)
    (x : cache_node) (hn : ch.nodes = pre ++ x :: post)
    (hx : x.sector_id = cache_sector_id trk sct)
    (hpre : ∀ y ∈ pre, y.sector_id ≠ cache_sector_id trk sct) :
    fs3_get_cache ch trk sct
      = (some x.sector_data,
         { ch with nodes := pre ++ post ++ [x],
                   fs3_get_cache_success := (ch.fs3_get_cache_success + 1) % 2^32 }) := by
  unfold fs3_get_cache
  rw [fs3_get_cache_node_eq, hn, find_node_split _ pre post x hx hpre]
  simp only [get?_split, move_node_to_tail_split, Option.map_some']

theorem fs3_get_cache_miss (ch : Cache) (trk sct : Nat)
    (h : ∀ y ∈ ch.nodes, y.sector_id ≠ cache_sector_id trk sct) :
    fs3_get_cache ch trk sct
      = (none, { ch with fs3_get_cache_failure := (ch.fs3_get_cache_failure + 1) % 2^32 }) := by
  unfold fs3_get_cache
  rw [fs3_get_cache_node_eq, (find_node_none_iff _ _).mpr h]

theorem fs3_put_cache_present (c : Consts) (ch : Cache) (trk sct : Nat) (buf : Nat → Nat)
    (pre post : List cache_node) (x : cache_node) (hn : ch.nodes = pre ++ x :: post)
    (hx : x.sector_id = cache_sector_id trk sct)
    (hpre : ∀ y ∈ pre, y.sector_id ≠ cache_sector_id trk sct) :
    fs3_put_cache c ch trk sct buf
      = (0, { ch with nodes := pre ++ post ++
                       [{ x with sector_data := memcpy x.sector_data 0 buf 0 c.FS3_SECTOR_SIZE }],
                      fs3_put_cache_success := (ch.fs3_put_cache_success + 1) % 2^32 }) := by
  unfold fs3_put_cache
  rw [fs3_get_cache_node_eq, hn, find_node_split _ pre post x hx hpre]
  simp only [modify_split, move_node_to_tail_split]

theorem memcpy_zero_apply (dst src : Nat → Nat) (n k : Nat) (h : k < n) :
    memcpy dst 0 src 0 n k = src k := by
  simp [memcpy, h]

/-- What `fs3_put_cache` does to the nodes: identifiers stay pairwise distinct, and every
node afterwards is either an old node of another sector or holds the new data. -/
theorem fs3_put_cache_nodes (c : Consts) (ch : Cache) (trk sct : Nat) (buf : Nat → Nat)
    (hnd : (cache_ids ch.nodes).Nodup) :
    (cache_ids (fs3_put_cache c ch trk sct buf).2.nodes).Nodup
    ∧ (fs3_put_cache c ch trk sct buf).1 = 0
    ∧ (∀ y ∈ (fs3_put_cache c ch trk sct buf).2.nodes,
        (y ∈ ch.nodes ∧ y.sector_id ≠ cache_sector_id trk sct)
        ∨ (y.sector_id = cache_sector_id trk sct
            ∧ ∀ k, k < c.FS3_SECTOR_SIZE → y.sector_data k = buf k)) := by
  cases hf : find_node (cache_sector_id trk sct) ch.nodes with
  | none =>
    have habs := (find_node_none_iff _ _).mp hf
    have hf2 : fs3_get_cache_node ch.nodes trk sct = none := by rw [fs3_get_cache_node_eq, hf]
    by_cases hfull : c.FS3_DEFAULT_CACHE_SIZE ≤ ch.nodes.length
    · rw [fs3_put_cache_absent_full c ch trk sct buf hf2 hfull]
      refine ⟨?_, rfl, ?_⟩
      · simp only [cache_ids, List.map_append, List.map_cons, List.map_nil]
        have hsub : (ch.nodes.tail.map (fun n => n.sector_id)).Nodup :=
          hnd.sublist ((List.tail_sublist ch.nodes).map _)
        apply List.Nodup.append hsub (List.nodup_singleton _)
        intro a ha1 ha2
        simp only [List.mem_singleton] at ha2
        obtain ⟨y, hy1, hy2⟩ := List.mem_map.mp ha1
        exact habs y (List.mem_of_mem_tail hy1) (by rw [hy2, ha2]; rfl)
      · intro y hy
        simp only [List.mem_append, List.mem_singleton] at hy
        rcases hy with hy | hy
        · exact Or.inl ⟨List.mem_of_mem_tail hy, habs y (List.mem_of_mem_tail hy)⟩
        · rw [hy]
          exact Or.inr ⟨rfl, fun k hk => by
            show memcpy (fun _ => 0) 0 buf 0 c.FS3_SECTOR_SIZE k = buf k
            exact memcpy_zero_apply _ _ _ _ hk⟩
    · rw [fs3_put_cache_absent_room c ch trk sct buf hf2 (by omega)]
      refine ⟨?_, rfl, ?_⟩
      · simp only [cache_ids, List.map_append, List.map_cons, List.map_nil]
        apply List.Nodup.append hnd (List.nodup_singleton _)
        intro a ha1 ha2
        simp only [List.mem_singleton] at ha2
        obtain ⟨y, hy1, hy2⟩ := List.mem_map.mp ha1
        exact habs y hy1 (by rw [hy2, ha2]; rfl)
      · intro y hy
        simp only [List.mem_append, List.mem_singleton] at hy
        rcases hy with hy | hy
        · exact Or.inl ⟨hy, habs y hy⟩
        · rw [hy]
          exact Or.inr ⟨rfl, fun k hk => by
            show memcpy (fun _ => 0) 0 buf 0 c.FS3_SECTOR_SIZE k = buf k
            exact memcpy_zero_apply _ _ _ _ hk⟩
  | some i =>
    obtain ⟨pre, x, post, h1, h2, h3, h4⟩ := find_node_some_split _ _ _ hf
    rw [fs3_put_cache_present c ch trk sct buf pre post x h1 h3 h4]
    rw [h1] at hnd
    simp only [cache_ids, List.map_append, List.map_cons, List.map_nil] at hnd ⊢
    have hperm : List.Perm (pre.map (fun n => n.sector_id) ++ x.sector_id
          :: post.map (fun n => n.sector_id))
        (pre.map (fun n => n.sector_id) ++ post.map (fun n => n.sector_id) ++ [x.sector_id]) := by
      rw [List.append_assoc]
      exact List.Perm.append_left _ (by simpa using List.perm_append_singleton x.sector_id _ |>.symm)
    refine ⟨hperm.nodup_iff.mp hnd, trivial, ?_⟩
    intro y hy
    simp only [List.mem_append, List.mem_singleton] at hy
    have hnotin : ∀ z, z ∈ pre ∨ z ∈ post → z.sector_id ≠ cache_sector_id trk sct := by
      intro z hz hzk
      have hmem : z.sector_id ∈ pre.map (fun n => n.sector_id) ++ post.map (fun n => n.sector_id) := by
        rcases hz with hz | hz
        · exact List.mem_append_left _ (List.mem_map_of_mem _ hz)
        · exact List.mem_append_right _ (List.mem_map_of_mem _ hz)
      have hnd2 := hperm.nodup_iff.mp hnd
      rw [List.nodup_append] at hnd2
      exact hnd2.2.2 hmem (by rw [hzk, h3]; simp) 
    rcases hy with hy | hy
    · refine Or.inl ⟨?_, hnotin y hy⟩
      rw [h1]
      rcases hy with hy | hy
      · exact List.mem_append_left _ hy
      · exact List.mem_append_right _ (List.mem_cons_of_mem _ hy)
    · rw [hy]
      exact Or.inr ⟨h3, fun k hk => memcpy_zero_apply _ _ _ _ hk⟩

/-- What `fs3_get_cache` does to the nodes: the same nodes in another order, identifiers
stay pairwise distinct; a miss means no node has the identifier, a hit returns the data
of a node with the identifier. -/
theorem fs3_get_cache_nodes (ch : Cache) (trk sct : Nat)
    (hnd : (cache_ids ch.nodes).Nodup) :
    (cache_ids (fs3_get_cache ch trk sct).2.nodes).Nodup
    ∧ (∀ y, y ∈ (fs3_get_cache ch trk sct).2.nodes ↔ y ∈ ch.nodes)
    ∧ ((fs3_get_cache ch trk sct).1 = none →
        ∀ y ∈ ch.nodes, y.sector_id ≠ cache_sector_id trk sct)
    ∧ (∀ d, (fs3_get_cache ch trk sct).1 = some d →
        ∃ y ∈ ch.nodes, y.sector_id = cache_sector_id trk sct ∧ d = y.sector_data) := by
  cases hf : find_node (cache_sector_id trk sct) ch.nodes with
  | none =>
    have habs := (find_node_none_iff _ _).mp hf
    rw [fs3_get_cache_miss ch trk sct habs]
    exact ⟨hnd, fun y => Iff.rfl, fun _ => habs, fun d hd => by simp at hd⟩
  | some i =>
    obtain ⟨pre, x, post, h1, h2, h3, h4⟩ := find_node_some_split _ _ _ hf
    rw [fs3_get_cache_hit ch trk sct pre post x h1 h3 h4]
    rw [h1] at hnd
    simp only [cache_ids, List.map_append, List.map_cons, List.map_nil] at hnd ⊢
    have hperm : List.Perm (pre.map (fun n => n.sector_id) ++ x.sector_id
          :: post.map (fun n => n.sector_id))
        (pre.map (fun n => n.sector_id) ++ post.map (fun n => n.sector_id) ++ [x.sector_id]) := by
      rw [List.append_assoc]
      exact List.Perm.append_left _ (by simpa using List.perm_append_singleton x.sector_id _ |>.symm)
    refine ⟨hperm.nodup_iff.mp hnd, ?_, fun hd => by simp at hd, ?_⟩
    · intro y
      rw [h1]
      simp only [List.mem_append, List.mem_singleton, List.mem_cons, List.not_mem_nil,
        or_false]
      constructor
      · rintro ((hy | hy) | hy)
        · exact Or.inl hy
        · exact Or.inr (Or.inr hy)
        · exact Or.inr (Or.inl hy)
      · rintro (hy | hy | hy)
        · exact Or.inl (Or.inl hy)
        · exact Or.inr hy
        · exact Or.inl (Or.inr hy)
    · intro d hd
      simp only [Option.some.injEq] at hd
      exact ⟨x, by rw [h1]; simp, h3, hd.symm⟩

/-! ## The demo states are reachable -/

theorem option_getD_write (o : Option (Int × State)) (r : Int) (d : Int × State)
    (h : o.map Prod.fst = some r) : o = some (r, (o.getD d).2) := by
  cases o with
  | none => simp at h
  | some x =>
    simp only [Option.map_some', Option.some.injEq] at h
    simp only [Option.getD_some, ← h]

theorem option_getD_read (o : Option (Int × List Nat × State)) (r : Int) (bytes : List Nat)
    (d : Int × List Nat × State)
    (h : o.map (fun x => (x.1, x.2.1)) = some (r, bytes)) :
    o = some (r, bytes, (o.getD d).2.2) := by
  cases o with
  | none => simp at h
  | some x =>
    simp only [Option.map_some', Option.some.injEq, Prod.mk.injEq] at h
    simp only [Option.getD_some, ← h.1, ← h.2]

theorem demo_open_reachable : Reachable demo demo_open :=
  Reachable.step_open (fs3_mount_disk demo env_ok init_state).2 "f" 0 demo_open
    (Reachable.step_mount init_state env_ok Reachable.init) (by rfl)

theorem demo_written_eq :
    fs3_write demo env_ok demo_open 0 bytes3 3 = some (3, demo_written) :=
  option_getD_write _ 3 _ (by decide)

theorem demo_written_reachable : Reachable demo demo_written :=
  Reachable.step_write demo_open env_ok 0 bytes3 3 3 demo_written demo_open_reachable
    demo_written_eq

theorem demo_read_empty_eq :
    fs3_read demo env_ok demo_open 0 1 = some (1, [0], demo_read_empty) :=
  option_getD_read _ 1 [0] _ (by decide)

theorem demo_written12_eq :
    fs3_write demo env_ok demo_open 0 (fun k => bytes12.getD k 0) (bytes12.length : Int)
      = some ((bytes12.length : Int), demo_written12) :=
  option_getD_write _ 12 _ (by decide)

theorem demo_open_unmounted_reachable : Reachable demo demo_open_unmounted :=
  Reachable.step_open init_state "f" 0 demo_open_unmounted Reachable.init (by rfl)

theorem demo_read_empty_unmounted_eq :
    fs3_read demo env_ok demo_open_unmounted 0 1 = some (1, [0], demo_read_empty_unmounted) :=
  option_getD_read _ 1 [0] _ (by decide)

/-! ## One iteration of the write loop -/

theorem codec_op (op sec trk ret : Nat) (ho : op < 2^4) (hs : sec < 2^16)
    (ht : trk < 2^32) (hr : ret < 2) :
    (deconstruct_fs3_cmdblock (construct_fs3_cmdblock op sec trk ret)).1 = op := by
  rw [construct_eq_sum op sec trk ret ho hs ht hr, deconstruct_eq_divmod]
  simp only
  omega

/-- Function `network_fs3_syscall` writes to the buffer only for a sector read. -/
theorem network_buf_unchanged (c : Consts) (env : Env) (net : Net) (cmd ret : Nat)
    (buf : Nat → Nat) (h : (deconstruct_fs3_cmdblock cmd).1 ≠ c.FS3_OP_RDSECT) :
    (network_fs3_syscall c env net cmd ret buf).2.2.1 = buf := by
  unfold network_fs3_syscall
  have hrb : ¬ (¬ ((deconstruct_fs3_cmdblock cmd).1 = c.FS3_OP_MOUNT
      ∨ (deconstruct_fs3_cmdblock cmd).1 = c.FS3_OP_TSEEK
      ∨ (deconstruct_fs3_cmdblock cmd).1 = c.FS3_OP_UMOUNT)
      ∧ (deconstruct_fs3_cmdblock cmd).1 = c.FS3_OP_RDSECT) := fun hh => h hh.2
  simp only [hrb, if_false]
  split_ifs <;> rfl

theorem wrsect_buf (c : Consts) (env : Env) (net : Net) (sector ret : Nat) (buf : Nat → Nat)
    (hs : sector < 2^16) :
    (network_fs3_syscall c env net (construct_fs3_cmdblock c.FS3_OP_WRSECT sector 0 0)
      ret buf).2.2.1 = buf := by
  apply network_buf_unchanged
  have hlt := c.op_lt c.FS3_OP_WRSECT (by simp)
  rw [codec_op _ _ _ _ (by omega) hs (by decide) (by decide)]
  have := c.op_nodup
  simp only [List.nodup_cons, List.mem_cons, List.mem_singleton, not_or] at this
  omega

/-- What a successful iteration of `fs3_write` (after the sector is resolved) leaves:
the spliced sector goes to the cache, the entry is committed, nothing else changes. -/
theorem fs3_write_sector_inv (c : Consts) (env : Env) (fd : Nat) (buf : Nat → Nat)
    (l l1 : WriteLocals) (s1 s2 : State) (sid : Nat)
    (h : fs3_write_sector c env fd buf l s1 sid = (some l1, s2)) :
    ∃ tb : Nat → Nat,
      (∀ x, x < write_copy_count c (s1.file_handlers fd).pos l.cur_count →
        tb ((s1.file_handlers fd).pos % c.FS3_SECTOR_SIZE + x) = buf (l.copy_index + x))
      ∧ l1.cur_count = l.cur_count - write_copy_count c (s1.file_handlers fd).pos l.cur_count
      ∧ l1.copy_index
          = (l.copy_index + write_copy_count c (s1.file_handlers fd).pos l.cur_count) % 2^16
      ∧ s2.file_handlers = setAt s1.file_handlers fd
          (write_commit (s1.file_handlers fd)
            (write_copy_count c (s1.file_handlers fd).pos l.cur_count))
      ∧ s2.sector_usage = s1.sector_usage
      ∧ s2.sectors_used = s1.sectors_used
      ∧ s2.cache = (fs3_put_cache c s1.cache ((sid / c.FS3_TRACK_SIZE) % 2^16)
          ((sid % c.FS3_TRACK_SIZE) % 2^16) tb).2 := by
  unfold fs3_write_sector at h
  split at h
  rename_i x1 r1 b1 n1 e1
  split at h
  · simp at h
  · split at h
    rename_i x2 r2 b2 n2 e2
    split at h
    · simp at h
    · split at h
      rename_i x3 r3 b3 n3 e3
      split at h
      · simp at h
      · split at h
        rename_i p ch e4
        split at h
        · simp at h
        · simp only [Prod.mk.injEq, Option.some.injEq] at h
          obtain ⟨hl, hs⟩ := h
          have hb3 : b3 = memcpy b2 ((s1.file_handlers fd).pos % c.FS3_SECTOR_SIZE) buf
              l.copy_index (write_copy_count c (s1.file_handlers fd).pos l.cur_count) := by
            have := wrsect_buf c env n2 ((sid % c.FS3_TRACK_SIZE) % 2^16) r2
              (memcpy b2 ((s1.file_handlers fd).pos % c.FS3_SECTOR_SIZE) buf
                l.copy_index (write_copy_count c (s1.file_handlers fd).pos l.cur_count))
              (Nat.mod_lt _ (by decide))
            rw [e3] at this
            exact this
          refine ⟨b3, ?_, by rw [← hl], by rw [← hl], by rw [← hs], by rw [← hs],
            by rw [← hs], by rw [← hs, e4]⟩
          intro x hx
          rw [hb3]
          simp only [memcpy]
          rw [if_pos ⟨by omega, by omega⟩]
          congr 1
          omega

theorem toInt16_le (n : Nat) (h : n ≤ 512) : toInt16 n = (n : Int) :=
  toInt16_small n (by omega)

/-- The allocating branch of lines 573-586, taken when the position is at the end of the
allocated sectors. -/
theorem write_sector_id_alloc (c : Consts) (s : State) (fd : Nat)
    (hM : c.FS3_MAX_TRACKS < 2^16) (hT : c.FS3_TRACK_SIZE < 2^16)
    (hcells : c.FS3_MAX_TRACKS * c.FS3_TRACK_SIZE ≤ 2^16)
    (ns : Nat) (hns : (s.file_handlers fd).num_sectors = ns) (hle : ns ≤ 512)
    (hpos : (s.file_handlers fd).pos = ns * c.FS3_SECTOR_SIZE)
    (sid : Nat) (s1 : State) (h : write_sector_id c s fd = some (some sid, s1)) :
    ∃ t j, first_free c s.sector_usage t j ∧ sid = t * c.FS3_TRACK_SIZE + j ∧ ns < 512
      ∧ s1.file_handlers = setAt s.file_handlers fd
          { s.file_handlers fd with num_sectors := ns + 1,
                                    sector_id := setAt (s.file_handlers fd).sector_id ns sid }
      ∧ s1.sector_usage = setAt s.sector_usage t (setAt (s.sector_usage t) j 1)
      ∧ s1.cache = s.cache := by
  have hdiv : (s.file_handlers fd).pos / c.FS3_SECTOR_SIZE = ns := by
    rw [hpos]; exact Nat.mul_div_cancel _ c.sector_size_pos
  unfold write_sector_id at h
  rw [hdiv, hns, toInt16_le ns hle, if_pos (by omega)] at h
  split at h
  · simp at h
  · simp at h
  · rename_i t j s2 halloc
    obtain ⟨hff, hs2⟩ := allocate_sector_some c s hM hT (t, j) s2 halloc
    split at h
    · simp at h
    · rename_i hguard
      simp only [Option.some.injEq, Prod.mk.injEq] at h
      obtain ⟨hsid, hs1⟩ := h
      have hlt : t * c.FS3_TRACK_SIZE + j < 2^16 := by
        obtain ⟨f1, f2, _⟩ := hff
        have : t * c.FS3_TRACK_SIZE + j < c.FS3_MAX_TRACKS * c.FS3_TRACK_SIZE := by
          calc t * c.FS3_TRACK_SIZE + j < t * c.FS3_TRACK_SIZE + c.FS3_TRACK_SIZE := by omega
            _ = (t + 1) * c.FS3_TRACK_SIZE := by ring
            _ ≤ c.FS3_MAX_TRACKS * c.FS3_TRACK_SIZE := Nat.mul_le_mul_right _ (by omega)
        omega
      have hmod : (t * c.FS3_TRACK_SIZE + j) % 2^16 = t * c.FS3_TRACK_SIZE + j :=
        Nat.mod_eq_of_lt hlt
      have hns1 : (ns + 1) % 2^16 = ns + 1 := Nat.mod_eq_of_lt (by omega)
      rw [hmod] at hsid
      rw [hns1] at hguard
      refine ⟨t, j, hff, hsid.symm, by omega, ?_, ?_, ?_⟩
      · rw [← hs1, hs2, hmod, hns1, ← hsid]
        simp only [Nat.add_sub_cancel]
      · rw [← hs1, hs2]
      · rw [← hs1, hs2]

theorem cell_of_sid (c : Consts) (t j : Nat) (hj : j < c.FS3_TRACK_SIZE) :
    (t * c.FS3_TRACK_SIZE + j) / c.FS3_TRACK_SIZE = t
    ∧ (t * c.FS3_TRACK_SIZE + j) % c.FS3_TRACK_SIZE = j := by
  constructor
  · rw [Nat.add_comm, Nat.add_mul_div_right _ _ c.track_size_pos, Nat.div_eq_of_lt hj]
    simp
  · rw [Nat.add_comm, Nat.add_mul_mod_self_right, Nat.mod_eq_of_lt hj]

/-- Distinct stored sector ids have distinct cache identifiers when a track has at most
1024 sectors. -/
theorem sid_cache_id_inj (c : Consts) (hTS : c.FS3_TRACK_SIZE ≤ 1024) (a b : Nat)
    (ha : a < 2^16) (hb : b < 2^16)
    (h : cache_sector_id ((a / c.FS3_TRACK_SIZE) % 2^16) ((a % c.FS3_TRACK_SIZE) % 2^16)
       = cache_sector_id ((b / c.FS3_TRACK_SIZE) % 2^16) ((b % c.FS3_TRACK_SIZE) % 2^16)) :
    a = b := by
  have hpos := c.track_size_pos
  have ha1 : a / c.FS3_TRACK_SIZE ≤ a := Nat.div_le_self _ _
  have hb1 : b / c.FS3_TRACK_SIZE ≤ b := Nat.div_le_self _ _
  have ha2 : a % c.FS3_TRACK_SIZE < c.FS3_TRACK_SIZE := Nat.mod_lt _ hpos
  have hb2 : b % c.FS3_TRACK_SIZE < c.FS3_TRACK_SIZE := Nat.mod_lt _ hpos
  have ea := Nat.div_add_mod a c.FS3_TRACK_SIZE
  have eb := Nat.div_add_mod b c.FS3_TRACK_SIZE
  generalize a / c.FS3_TRACK_SIZE = qa at *
  generalize b / c.FS3_TRACK_SIZE = qb at *
  generalize a % c.FS3_TRACK_SIZE = ra at *
  generalize b % c.FS3_TRACK_SIZE = rb at *
  unfold cache_sector_id at h
  have e1 : qa % 2^16 = qa := Nat.mod_eq_of_lt (by omega)
  have e2 : qb % 2^16 = qb := Nat.mod_eq_of_lt (by omega)
  have e3 : ra % 2^16 = ra := Nat.mod_eq_of_lt (by omega)
  have e4 : rb % 2^16 = rb := Nat.mod_eq_of_lt (by omega)
  rw [e1, e2, e3, e4] at h
  have hq : qa = qb := by omega
  have hr : ra = rb := by omega
  rw [← ea, ← eb, hq, hr]

theorem write_copy_count_aligned (c : Consts) (hSS : c.FS3_SECTOR_SIZE < 2^16)
    (pos cur : Nat) (hpos : pos % c.FS3_SECTOR_SIZE = 0) :
    write_copy_count c pos cur = if cur > c.FS3_SECTOR_SIZE then c.FS3_SECTOR_SIZE else cur := by
  unfold write_copy_count
  rw [hpos, Nat.sub_zero, Nat.mod_eq_of_lt hSS]

theorem write_iter_inv (c : Consts) (env : Env) (h : Nat) (b : Nat → Nat) (n : Nat)
    (hSS : c.FS3_SECTOR_SIZE < 2^16) (hTS : c.FS3_TRACK_SIZE ≤ 1024)
    (hM : c.FS3_MAX_TRACKS < 2^16)
    (hcells : c.FS3_MAX_TRACKS * c.FS3_TRACK_SIZE ≤ 2^16) (hn : n ≤ 65536)
    (l l1 : WriteLocals) (s s2 : State) (hinv : WInv c h b n l s) (hpos : l.cur_count > 0)
    (hiter : fs3_write_iter c env h b l s = some (some l1, s2)) :
    WInv c h b n l1 s2 := by
  have hT : c.FS3_TRACK_SIZE < 2^16 := by omega
  have hSSpos := c.sector_size_pos
  have hTSpos := c.track_size_pos
  -- resolve the iteration
  unfold fs3_write_iter at hiter
  split at hiter
  · simp at hiter
  · simp at hiter
  rename_i sid s1 hsid
  simp only [Option.some.injEq] at hiter
  have hw := hinv.aligned hpos
  obtain ⟨t, j, hff, hsidv, hns, hfh1, hus1, hch1⟩ :=
    write_sector_id_alloc c s h hM hT hcells _ rfl hinv.ns_le hw sid s1 hsid
  obtain ⟨tb, htb, hl1c, hl1i, hfh2, hus2, _, hch2⟩ :=
    fs3_write_sector_inv c env h b l l1 s1 s2 sid hiter
  obtain ⟨ff1, ff2, ff3, ff4, ff5⟩ := hff
  obtain ⟨hsq, hsr⟩ := cell_of_sid c t j ff2
  rw [← hsidv] at hsq hsr
  -- the entry before the commit
  have hf1 : s1.file_handlers h =
      { s.file_handlers h with
          num_sectors := (s.file_handlers h).num_sectors + 1,
          sector_id := setAt (s.file_handlers h).sector_id (s.file_handlers h).num_sectors sid } := by
    rw [hfh1, setAt_same]
  have hpos1 : (s1.file_handlers h).pos = (s.file_handlers h).pos := by rw [hf1]
  have hmod0 : (s.file_handlers h).pos % c.FS3_SECTOR_SIZE = 0 := by
    rw [hw]; exact Nat.mul_mod_left _ _
  have hcc := write_copy_count_aligned c hSS (s.file_handlers h).pos l.cur_count hmod0
  rw [hpos1] at htb hl1c hl1i hfh2
  generalize hccdef : write_copy_count c (s.file_handlers h).pos l.cur_count = cc at *
  have hcc1 : 1 ≤ cc := by rw [hcc]; split <;> omega
  have hcc2 : cc ≤ c.FS3_SECTOR_SIZE := by rw [hcc]; split <;> omega
  have hcc3 : cc ≤ l.cur_count := by rw [hcc]; split <;> omega
  have hcc4 : l.cur_count - cc > 0 → cc = c.FS3_SECTOR_SIZE := by
    intro h0; rw [hcc] at h0 ⊢; split at h0 <;> simp_all
  have htot := hinv.total
  have hf2 : s2.file_handlers h = write_commit (s1.file_handlers h) cc := by
    rw [hfh2, setAt_same]
  have hlt64 : ((s.file_handlers h).pos + cc) % 2^64 = (s.file_handlers h).pos + cc :=
    Nat.mod_eq_of_lt (by omega)
  have hpos2 : (s2.file_handlers h).pos = (s.file_handlers h).pos + cc := by
    rw [hf2, hf1]; simp only [write_commit]; exact hlt64
  have hlen2 : (s2.file_handlers h).len = (s.file_handlers h).pos + cc := by
    rw [hf2, hf1]; simp only [write_commit]
    rw [hlt64, hinv.len_eq, if_pos (by omega)]
  have hns2 : (s2.file_handlers h).num_sectors = (s.file_handlers h).num_sectors + 1 := by
    rw [hf2, hf1]; rfl
  have hsid2 : (s2.file_handlers h).sector_id
      = setAt (s.file_handlers h).sector_id (s.file_handlers h).num_sectors sid := by
    rw [hf2, hf1]; rfl
  have hst2 : (s2.file_handlers h).file_state = (s.file_handlers h).file_state := by
    rw [hf2, hf1]; rfl
  have hus : ∀ t1 j1, s2.sector_usage t1 j1
      = if t1 = t ∧ j1 = j then 1 else s.sector_usage t1 j1 := by
    intro t1 j1; rw [hus2, hus1]; exact usage_after_mark _ _ _ _ _
  have hci : l.copy_index = (s.file_handlers h).pos := by
    rw [hinv.copy_index]; exact Nat.mod_eq_of_lt (by omega)
  have hsidlt : sid < c.FS3_MAX_TRACKS * c.FS3_TRACK_SIZE := by
    rw [hsidv]
    calc t * c.FS3_TRACK_SIZE + j < t * c.FS3_TRACK_SIZE + c.FS3_TRACK_SIZE := by omega
      _ = (t + 1) * c.FS3_TRACK_SIZE := by ring
      _ ≤ c.FS3_MAX_TRACKS * c.FS3_TRACK_SIZE := Nat.mul_le_mul_right _ (by omega)
  have hnew_ne : ∀ k, k < (s.file_handlers h).num_sectors →
      (s.file_handlers h).sector_id k ≠ sid := by
    intro k hk heq
    have := (hinv.used k hk).2
    rw [heq, hsq, hsr] at this
    exact this ff3
  refine ⟨by omega, by rw [hpos2, hl1c]; omega, by rw [hlen2, hpos2], ?_, ?_, ?_, ?_, ?_, ?_,
    ?_, ?_⟩
  · intro h0
    rw [hl1c] at h0
    rw [hpos2, hns2, hcc4 h0, hw]; ring
  · rw [hpos2, hns2, hw]
    calc (s.file_handlers h).num_sectors * c.FS3_SECTOR_SIZE + cc
        ≤ (s.file_handlers h).num_sectors * c.FS3_SECTOR_SIZE + c.FS3_SECTOR_SIZE := by omega
      _ = ((s.file_handlers h).num_sectors + 1) * c.FS3_SECTOR_SIZE := by ring
  · rw [hl1i, hpos2, hci]
  · rw [hst2]; exact hinv.is_open
  · intro k hk
    rw [hns2] at hk
    rw [hsid2]
    by_cases hkn : k = (s.file_handlers h).num_sectors
    · rw [hkn, setAt_same, hsq, hsr, hus]
      exact ⟨hsidlt, by simp⟩
    · rw [setAt_other _ _ _ _ hkn]
      obtain ⟨u1, u2⟩ := hinv.used k (by omega)
      refine ⟨u1, ?_⟩
      rw [hus]
      split
      · omega
      · exact u2
  · intro k1 k2 hk1 hk2 heq
    rw [hns2] at hk1 hk2
    rw [hsid2] at heq
    by_cases h1 : k1 = (s.file_handlers h).num_sectors <;>
      by_cases h2 : k2 = (s.file_handlers h).num_sectors
    · omega
    · rw [h1, setAt_same, setAt_other _ _ _ _ h2] at heq
      exact absurd heq.symm (hnew_ne k2 (by omega))
    · rw [h2, setAt_same, setAt_other _ _ _ _ h1] at heq
      exact absurd heq (hnew_ne k1 (by omega))
    · rw [setAt_other _ _ _ _ h1, setAt_other _ _ _ _ h2] at heq
      exact hinv.distinct k1 k2 (by omega) (by omega) heq
  · rw [hch2, hch1]
    exact (fs3_put_cache_nodes c s.cache _ _ tb hinv.nodup).1
  · intro k hk y hy hyid x hx hxpos
    rw [hns2] at hk
    rw [hpos2] at hxpos
    rw [hch2, hch1] at hy
    have hput := (fs3_put_cache_nodes c s.cache ((sid / c.FS3_TRACK_SIZE) % 2^16)
      ((sid % c.FS3_TRACK_SIZE) % 2^16) tb hinv.nodup).2.2 y hy
    unfold file_cache_id at hyid
    rw [hsid2] at hyid
    by_cases hkn : k = (s.file_handlers h).num_sectors
    · rw [hkn, setAt_same] at hyid
      rcases hput with ⟨_, hne⟩ | ⟨_, hdat⟩
      · exact absurd hyid hne
      · rw [hdat x hx, hkn]
        have hxcc : x < cc := by rw [hkn, ← hw] at hxpos; omega
        have := htb x hxcc
        rw [hmod0, Nat.zero_add, hci, hw] at this
        exact this
    · rw [setAt_other _ _ _ _ hkn] at hyid
      have hklt : k < (s.file_handlers h).num_sectors := by omega
      rcases hput with ⟨hold, _⟩ | ⟨hid, _⟩
      · refine hinv.data k hklt y hold hyid x hx ?_
        rw [hw]
        calc k * c.FS3_SECTOR_SIZE + x < k * c.FS3_SECTOR_SIZE + c.FS3_SECTOR_SIZE := by omega
          _ = (k + 1) * c.FS3_SECTOR_SIZE := by ring
          _ ≤ (s.file_handlers h).num_sectors * c.FS3_SECTOR_SIZE :=
            Nat.mul_le_mul_right _ (by omega)
      · rw [hid] at hyid
        have hklt16 : (s.file_handlers h).sector_id k < 2^16 := by
          have := (hinv.used k hklt).1; omega
        have := sid_cache_id_inj c hTS sid _ (by omega) hklt16 hyid
        exact absurd this.symm (hnew_ne k hklt)

theorem write_loop_inv (c : Consts) (env : Env) (h : Nat) (b : Nat → Nat) (n : Nat)
    (hSS : c.FS3_SECTOR_SIZE < 2^16) (hTS : c.FS3_TRACK_SIZE ≤ 1024)
    (hM : c.FS3_MAX_TRACKS < 2^16)
    (hcells : c.FS3_MAX_TRACKS * c.FS3_TRACK_SIZE ≤ 2^16) (hn : n ≤ 65536) :
    ∀ (fuel : Nat) (l l1 : WriteLocals) (s s1 : State), WInv c h b n l s →
      fs3_write_loop c env h b fuel l s = some (some l1, s1) →
      WInv c h b n l1 s1 ∧ l1.cur_count = 0 := by
  intro fuel
  induction fuel with
  | zero =>
    intro l l1 s s1 hinv hloop
    unfold fs3_write_loop at hloop
    split at hloop
    · rename_i h0
      simp only [Option.some.injEq, Prod.mk.injEq] at hloop
      obtain ⟨e1, e2⟩ := hloop
      subst e1; subst e2
      exact ⟨hinv, h0⟩
    · simp at hloop
  | succ k ih =>
    intro l l1 s s1 hinv hloop
    unfold fs3_write_loop at hloop
    split at hloop
    · rename_i h0
      simp only [Option.some.injEq, Prod.mk.injEq] at hloop
      obtain ⟨e1, e2⟩ := hloop
      subst e1; subst e2
      exact ⟨hinv, h0⟩
    · rename_i h0
      split at hloop
      · simp at hloop
      · simp at hloop
      · rename_i l2 s2 hiter
        exact ih l2 l1 s2 s1
          (write_iter_inv c env h b n hSS hTS hM hcells hn l l2 s s2 hinv (by omega) hiter)
          hloop

/-- A successful `fs3_write` of `n` bytes to a fresh file establishes the invariant with
nothing left to write. -/
theorem fs3_write_fresh (c : Consts) (env : Env) (s s1 : State) (h : Nat) (b : Nat → Nat)
    (n : Nat)
    (hSS : c.FS3_SECTOR_SIZE < 2^16) (hTS : c.FS3_TRACK_SIZE ≤ 1024)
    (hM : c.FS3_MAX_TRACKS < 2^16)
    (hcells : c.FS3_MAX_TRACKS * c.FS3_TRACK_SIZE ≤ 2^16) (hn1 : 1 ≤ n) (hn : n ≤ 65536)
    (hopen : (s.file_handlers h).file_state = FILE_OPEN)
    (hns : (s.file_handlers h).num_sectors = 0)
    (hlen : (s.file_handlers h).len = 0) (hpos : (s.file_handlers h).pos = 0)
    (hnd : (cache_ids s.cache.nodes).Nodup)
    (hw : fs3_write c env s (h : Int) b (n : Int) = some ((n : Int), s1)) :
    ∃ l1, WInv c h b n l1 s1 ∧ l1.cur_count = 0 := by
  unfold fs3_write at hw
  split at hw
  · simp only [Option.some.injEq, Prod.mk.injEq] at hw
    omega
  · split at hw
    · simp only [Option.some.injEq, Prod.mk.injEq] at hw
      omega
    · simp only [Int.toNat_ofNat] at hw
      have hu : toUInt 32 (n : Int) = n := by
        unfold toUInt
        have : ((n : Int) % (2^32 : Int)) = (n : Int) := Int.emod_eq_of_lt (by omega) (by omega)
        rw [this]; simp
      split at hw
      · simp at hw
      · simp only [Option.some.injEq, Prod.mk.injEq] at hw
        omega
      · rename_i l1 s2 hloop
        simp only [Option.some.injEq, Prod.mk.injEq] at hw
        rw [hw.2] at hloop
        refine ⟨l1, write_loop_inv c env h b n hSS hTS hM hcells hn _ _ l1 s s1 ?_ hloop⟩
        refine ⟨by omega, ?_, by rw [hlen, hpos], ?_, by rw [hpos]; omega, ?_, hopen,
          ?_, ?_, hnd, ?_⟩
        · rw [hpos]; simp [write_locals_init, hu]
        · intro _; rw [hpos, hns]; simp
        · rw [hpos]; simp [write_locals_init]
        · intro k hk; rw [hns] at hk; omega
        · intro k1 k2 hk; rw [hns] at hk; omega
        · intro k hk; rw [hns] at hk; omega

/-! ## The read loop when every sector is cached -/

theorem read_iter_hit (c : Consts) (env : Env) (f : file_t) (b : Nat → Nat) (n : Nat)
    (hn : n ≤ 65536) (h512 : n ≤ 512 * c.FS3_SECTOR_SIZE)
    (l : ReadLocals) (ch : Cache) (nt : Net) (hinv : RInv c f b n l ch)
    (hrem : l.remaining_count > 0) :
    ∃ l1 ch1, fs3_read_iter c env f l ch nt = some (some l1, ch1, nt)
      ∧ RInv c f b n l1 ch1 ∧ l1.remaining_count < l.remaining_count := by
  have hSSpos := c.sector_size_pos
  have hal := hinv.aligned hrem
  have htot := hinv.total
  have hcp := hinv.cur_pos
  -- the sector index
  obtain ⟨k, hk⟩ : ∃ k, l.read_index = k * c.FS3_SECTOR_SIZE :=
    ⟨l.read_index / c.FS3_SECTOR_SIZE, by
      have := Nat.div_add_mod l.read_index c.FS3_SECTOR_SIZE
      rw [hal, Nat.add_zero, Nat.mul_comm] at this
      exact this.symm⟩
  have hkn : k * c.FS3_SECTOR_SIZE < n := by omega
  have hk512 : k < 512 := by
    by_contra hge
    have : 512 * c.FS3_SECTOR_SIZE ≤ k * c.FS3_SECTOR_SIZE :=
      Nat.mul_le_mul_right _ (by omega)
    omega
  have hdiv : l.cur_pos / c.FS3_SECTOR_SIZE = k := by
    rw [hcp, hk]; exact Nat.mul_div_cancel _ hSSpos
  have hmod : l.cur_pos % c.FS3_SECTOR_SIZE = 0 := by rw [hcp]; exact hal
  -- bytes_to_read
  have hbtr : read_bytes_to_read c l.cur_pos l.remaining_count
      = if l.remaining_count > c.FS3_SECTOR_SIZE then c.FS3_SECTOR_SIZE
        else l.remaining_count := by
    unfold read_bytes_to_read
    rw [hmod, Nat.zero_add, Nat.mod_eq_of_lt (by omega : l.remaining_count < 2^32),
      Nat.sub_zero]
  generalize hbdef : read_bytes_to_read c l.cur_pos l.remaining_count = btr at *
  have hb1 : 1 ≤ btr := by rw [hbtr]; split <;> omega
  have hb2 : btr ≤ c.FS3_SECTOR_SIZE := by rw [hbtr]; split <;> omega
  have hb3 : btr ≤ l.remaining_count := by rw [hbtr]; split <;> omega
  have hb4 : l.remaining_count - btr > 0 → btr = c.FS3_SECTOR_SIZE := by
    intro h0; rw [hbtr] at h0 ⊢; split at h0 <;> simp_all
  have hri : (l.read_index + btr) % 2^32 = l.read_index + btr :=
    Nat.mod_eq_of_lt (by omega)
  -- the cache lookup hits
  obtain ⟨g1, g2, g3, g4⟩ := fs3_get_cache_nodes ch
    ((f.sector_id k / c.FS3_TRACK_SIZE) % 2^16) ((f.sector_id k % c.FS3_TRACK_SIZE) % 2^16)
    hinv.nodup
  obtain ⟨y0, hy0, hy0id⟩ := hinv.present k hkn
  cases hget : fs3_get_cache ch ((f.sector_id k / c.FS3_TRACK_SIZE) % 2^16)
      ((f.sector_id k % c.FS3_TRACK_SIZE) % 2^16) with
  | mk d ch1 =>
    rw [hget] at g1 g2 g3 g4
    simp only at g1 g2 g3 g4
    cases d with
    | none => exact absurd hy0id (g3 rfl y0 hy0)
    | some d =>
      obtain ⟨y, hy, hyid, hd⟩ := g4 d rfl
      have hdat := hinv.data k hkn y hy hyid
      refine ⟨{ read_advance l btr with
                  temp_buf := memcpy l.temp_buf l.read_index d 0 btr }, ch1, ?_, ?_, ?_⟩
      · unfold fs3_read_iter
        simp only [hbdef, hdiv, toInt16_le k (by omega), Int.toNat_ofNat, hmod]
        rw [if_neg (by omega), if_neg (by omega), if_neg (by omega), hget]
      · refine ⟨?_, ?_, ?_, ?_, g1, ?_, ?_⟩
        · simp only [read_advance]; rw [hcp]
        · simp only [read_advance]
          rw [hri]; omega
        · intro h0
          simp only [read_advance] at h0 ⊢
          have hbs := hb4 h0
          rw [hri, hbs, hk, ← Nat.succ_mul]; exact Nat.mul_mod_left _ _
        · intro x hx
          simp only [read_advance] at hx ⊢
          rw [hri] at hx
          simp only [memcpy]
          by_cases hxr : l.read_index ≤ x ∧ x < l.read_index + btr
          · rw [if_pos hxr, hd, Nat.zero_add]
            have := hdat (x - l.read_index) (by omega) (by omega)
            rw [this]; congr 1; omega
          · rw [if_neg hxr]; exact hinv.buf x (by omega)
        · intro k1 hk1
          obtain ⟨y1, hy1, hy1id⟩ := hinv.present k1 hk1
          exact ⟨y1, (g2 y1).mpr hy1, hy1id⟩
        · intro k1 hk1 y1 hy1 hy1id
          exact hinv.data k1 hk1 y1 ((g2 y1).mp hy1) hy1id
      · simp only [read_advance]; omega

theorem read_loop_hits (c : Consts) (env : Env) (f : file_t) (b : Nat → Nat) (n : Nat)
    (hn : n ≤ 65536) (h512 : n ≤ 512 * c.FS3_SECTOR_SIZE) :
    ∀ (fuel : Nat) (l : ReadLocals) (ch : Cache) (nt : Net), RInv c f b n l ch →
      l.remaining_count ≤ fuel →
      ∃ l1 ch1, fs3_read_loop c env f fuel l ch nt = some (some l1, ch1, nt)
        ∧ ∀ x, x < n → l1.temp_buf x = b x := by
  intro fuel
  induction fuel with
  | zero =>
    intro l ch nt hinv hf
    have h0 : l.remaining_count = 0 := by omega
    refine ⟨l, ch, ?_, fun x hx => hinv.buf x (by have := hinv.total; omega)⟩
    unfold fs3_read_loop
    rw [if_pos h0]
  | succ m ih =>
    intro l ch nt hinv hf
    by_cases h0 : l.remaining_count = 0
    · refine ⟨l, ch, ?_, fun x hx => hinv.buf x (by have := hinv.total; omega)⟩
      unfold fs3_read_loop
      rw [if_pos h0]
    · obtain ⟨l1, ch1, h1, h2, h3⟩ := read_iter_hit c env f b n hn h512 l ch nt hinv (by omega)
      obtain ⟨l2, ch2, h4, h5⟩ := ih l1 ch1 nt h2 (by omega)
      refine ⟨l2, ch2, ?_, h5⟩
      unfold fs3_read_loop
      rw [if_neg h0, h1]
      exact h4

/-! ## Write, seek, read -/

theorem toUInt_of_nat (w n : Nat) (h : n < 2^w) : toUInt w (n : Int) = n := by
  unfold toUInt
  have h2 : ((2:Int)^w) = ((2^w : Nat) : Int) := by push_cast; rfl
  have : ((n : Int) % (2^w : Int)) = (n : Int) := by
    rw [h2]
    exact Int.emod_eq_of_lt (by omega) (by exact_mod_cast h)
  rw [this]; simp

/-- The clamp of `fs3_read` yields one byte more than the bytes remaining. -/
theorem read_clamp_exceeds (f : file_t) (count : Nat) (hpl : f.pos ≤ f.len)
    (hlen : f.len + 1 < 2^31) (hc : f.len - f.pos < count) (hc2 : count < 2^31) :
    read_clamp f (count : Int) = ((f.len - f.pos + 1 : Nat) : Int) := by
  unfold read_clamp
  have h1 : ((f.len : Int) - (f.pos : Int)) = ((f.len - f.pos : Nat) : Int) := by omega
  rw [h1, toUInt_of_nat 64 count (by omega), toUInt_of_nat 64 (f.len - f.pos) (by omega),
    if_pos hc]
  unfold toInt32
  have h2 : (f.len - f.pos + 1) % 2^64 % 2^32 = f.len - f.pos + 1 := by omega
  rw [h2, if_pos (by omega)]

theorem read_clamp_within (f : file_t) (count : Nat) (hpl : f.pos ≤ f.len)
    (hlen : f.len < 2^63) (hc : count ≤ f.len - f.pos) :
    read_clamp f (count : Int) = (count : Int) := by
  unfold read_clamp
  have h1 : ((f.len : Int) - (f.pos : Int)) = ((f.len - f.pos : Nat) : Int) := by omega
  rw [h1, toUInt_of_nat 64 count (by omega), toUInt_of_nat 64 (f.len - f.pos) (by omega),
    if_neg (by omega)]

theorem fs3_write_ok_in_range (c : Consts) (env : Env) (s s1 : State) (h : Nat)
    (b : Nat → Nat) (n : Nat) (hn1 : 1 ≤ n)
    (hw : fs3_write c env s (h : Int) b (n : Int) = some ((n : Int), s1)) :
    h < MAX_FILES c := by
  unfold fs3_write at hw
  split at hw
  · simp only [Option.some.injEq, Prod.mk.injEq] at hw
    omega
  · rename_i hr
    omega

theorem map_range_eq (b : List Nat) (g : Nat → Nat)
    (h : ∀ x, x < b.length → g x = b.getD x 0) : (List.range b.length).map g = b := by
  apply List.ext_getElem
  · simp
  · intro i h1 h2
    simp only [List.getElem_map, List.getElem_range]
    rw [h i h2]
    simp [List.getD, h2]

/-- Round trip of a fresh file whose write succeeds and whose sectors all stay cached. -/
theorem round_trip (c : Consts) (env : Env) (s s1 : State) (h : Nat) (b : List Nat)
    (hSS : c.FS3_SECTOR_SIZE < 2^16) (hTS : c.FS3_TRACK_SIZE ≤ 1024)
    (hM : c.FS3_MAX_TRACKS < 2^16)
    (hcells : c.FS3_MAX_TRACKS * c.FS3_TRACK_SIZE ≤ 2^16)
    (hn1 : 1 ≤ b.length) (hn : b.length ≤ 65536)
    (hopen : (s.file_handlers h).file_state = FILE_OPEN)
    (hns : (s.file_handlers h).num_sectors = 0)
    (hlen : (s.file_handlers h).len = 0) (hpos : (s.file_handlers h).pos = 0)
    (hnd : (cache_ids s.cache.nodes).Nodup)
    (hw : fs3_write c env s (h : Int) (fun k => b.getD k 0) (b.length : Int)
            = some ((b.length : Int), s1))
    (hcached : ∀ k, k * c.FS3_SECTOR_SIZE < b.length →
      find_node (file_cache_id c (s1.file_handlers h) k) s1.cache.nodes ≠ none) :
    (fs3_seek c s1 (h : Int) 0).1 = 0
    ∧ ∃ s3, fs3_read c env (fs3_seek c s1 (h : Int) 0).2 (h : Int) (b.length : Int)
        = some ((b.length : Int), b, s3) := by
  have hrange := fs3_write_ok_in_range c env s s1 h _ _ hn1 hw
  obtain ⟨lw, hinv, _⟩ := fs3_write_fresh c env s s1 h _ b.length hSS hTS hM hcells hn1 hn
    hopen hns hlen hpos hnd hw
  have hp1 : (s1.file_handlers h).pos = b.length := by have := hinv.total; omega
  have hl1 : (s1.file_handlers h).len = b.length := by rw [hinv.len_eq, hp1]
  have h512 : b.length ≤ 512 * c.FS3_SECTOR_SIZE := by
    have h1 := hinv.pos_le
    have h2 : (s1.file_handlers h).num_sectors * c.FS3_SECTOR_SIZE ≤ 512 * c.FS3_SECTOR_SIZE :=
      Nat.mul_le_mul_right _ hinv.ns_le
    omega
  have hok : seek_ok c s1 (h : Int) 0 :=
    ⟨by omega, by omega, by simpa using hinv.is_open, Nat.zero_le _⟩
  rw [fs3_seek_of_ok c s1 (h : Int) 0 hok]
  refine ⟨rfl, ?_⟩
  simp only [Int.toNat_ofNat]
  -- the entry after the seek
  generalize hf2 : ({ s1.file_handlers h with pos := 0 } : file_t) = f2
  have hf2id : ∀ k, file_cache_id c f2 k = file_cache_id c (s1.file_handlers h) k := by
    intro k; rw [← hf2]; rfl
  have hf2len : f2.len = b.length := by rw [← hf2]; exact hl1
  have hf2pos : f2.pos = 0 := by rw [← hf2]
  have hf2st : f2.file_state = FILE_OPEN := by rw [← hf2]; exact hinv.is_open
  have hclamp : read_clamp f2 (b.length : Int) = (b.length : Int) := by
    unfold read_clamp
    rw [hf2len, hf2pos]
    simp only [Nat.cast_zero, sub_zero]
    rw [if_neg (by omega)]
  have hu32 : toUInt 32 (b.length : Int) = b.length := toUInt_of_nat 32 _ (by omega)
  have hu64 : toUInt 64 (b.length : Int) = b.length := toUInt_of_nat 64 _ (by omega)
  -- the loop
  have hrinv : RInv c f2 (fun k => b.getD k 0) b.length
      (read_locals_init env f2 (b.length : Int)) s1.cache := by
    refine ⟨?_, ?_, ?_, ?_, hinv.nodup, ?_, ?_⟩
    · simp [read_locals_init, hf2pos]
    · simp [read_locals_init, hu32]
    · intro _; simp [read_locals_init]
    · intro x hx; simp [read_locals_init] at hx
    · intro k hk
      have := hcached k hk
      rw [← hf2id] at this
      by_contra hno
      apply this
      rw [find_node_none_iff]
      intro y hy hyid
      exact hno ⟨y, hy, hyid⟩
    · intro k hk y hy hyid x hx hxn
      rw [hf2id] at hyid
      have hkns : k < (s1.file_handlers h).num_sectors := by
        by_contra hge
        have : (s1.file_handlers h).num_sectors * c.FS3_SECTOR_SIZE ≤ k * c.FS3_SECTOR_SIZE :=
          Nat.mul_le_mul_right _ (by omega)
        have := hinv.pos_le
        omega
      exact hinv.data k hkns y hy hyid x hx (by rw [hp1]; exact hxn)
  obtain ⟨l1, ch1, hloop, hbuf⟩ := read_loop_hits c env f2 _ b.length hn h512 b.length
    (read_locals_init env f2 (b.length : Int)) s1.cache s1.net hrinv
    (by simp [read_locals_init, hu32])
  unfold fs3_read
  simp only [Int.toNat_ofNat, setAt_same, hf2]
  rw [if_neg (by omega), if_neg (by simp [hf2st]), hclamp, hu32, hloop]
  simp only
  rw [if_neg (by omega)]
  simp only [Int.toNat_ofNat, map_range_eq b l1.temp_buf hbuf]
  exact ⟨_, rfl⟩

/-! ## The write loop goes through when sectors are free and replies succeed -/

theorem free_set_mark (c : Consts) (usage : Nat → Nat → Nat) (t j : Nat) :
    free_set c (setAt usage t (setAt (usage t) j 1)) = (free_set c usage).erase (t, j) := by
  ext ⟨a, b⟩
  simp only [free_set, Finset.mem_filter, Finset.mem_product, Finset.mem_range,
    Finset.mem_erase, usage_after_mark, ne_eq, Prod.mk.injEq]
  constructor
  · rintro ⟨⟨h1, h2⟩, h3⟩
    by_cases hab : a = t ∧ b = j
    · rw [if_pos hab] at h3; omega
    · rw [if_neg hab] at h3; exact ⟨hab, ⟨h1, h2⟩, h3⟩
  · rintro ⟨hab, ⟨h1, h2⟩, h3⟩
    exact ⟨⟨h1, h2⟩, by rw [if_neg hab]; exact h3⟩

theorem free_set_card_mark (c : Consts) (usage : Nat → Nat → Nat) (t j : Nat)
    (hff : first_free c usage t j) :
    (free_set c (setAt usage t (setAt (usage t) j 1))).card = (free_set c usage).card - 1 := by
  rw [free_set_mark c usage t j]
  apply Finset.card_erase_of_mem
  obtain ⟨h1, h2, h3, _⟩ := hff
  simp [free_set, h1, h2, h3]

theorem free_set_pos_not_full (c : Consts) (usage : Nat → Nat → Nat)
    (h : 0 < (free_set c usage).card) : ¬ bitmap_full c usage := by
  intro hfull
  obtain ⟨⟨a, b⟩, hp⟩ := Finset.card_pos.mp h
  simp only [free_set, Finset.mem_filter, Finset.mem_product, Finset.mem_range] at hp
  exact hfull a hp.1.1 b hp.1.2 hp.2

/-- The status the driver reads after an exchange is success when every reply is. -/
theorem network_status_ok (c : Consts) (env : Env) (net : Net) (cmd ret : Nat)
    (buf : Nat → Nat) (hE : replies_ok env) (hr : status_of ret ≠ FAIL) :
    status_of (network_fs3_syscall c env net cmd ret buf).2.1 ≠ FAIL := by
  unfold network_fs3_syscall
  simp only
  split_ifs <;> first | exact hr | exact hE _

theorem fs3_put_cache_ret (c : Consts) (ch : Cache) (trk sct : Nat) (buf : Nat → Nat) :
    (fs3_put_cache c ch trk sct buf).1 = 0 := by
  unfold fs3_put_cache
  split
  · simp [insert_tail]
  · rfl

theorem fs3_write_sector_ok (c : Consts) (env : Env) (fd : Nat) (buf : Nat → Nat)
    (l : WriteLocals) (s1 : State) (sid : Nat) (hE : replies_ok env)
    (hr : status_of l.ret_cmd_blk ≠ FAIL) :
    ∃ l1 s2, fs3_write_sector c env fd buf l s1 sid = (some l1, s2)
      ∧ status_of l1.ret_cmd_blk ≠ FAIL := by
  unfold fs3_write_sector
  split
  rename_i x1 r1 b1 n1 e1
  have hr1 : status_of r1 ≠ FAIL := by
    have := network_status_ok c env s1.net
      (construct_fs3_cmdblock c.FS3_OP_TSEEK 0 ((sid / c.FS3_TRACK_SIZE) % 2^16) 0)
      l.ret_cmd_blk (fun _ => 0) hE hr
    rw [e1] at this; exact this
  rw [if_neg hr1]
  split
  rename_i x2 r2 b2 n2 e2
  have hr2 : status_of r2 ≠ FAIL := by
    have := network_status_ok c env n1
      (construct_fs3_cmdblock c.FS3_OP_RDSECT ((sid % c.FS3_TRACK_SIZE) % 2^16) 0 0)
      r1 l.temp_buf hE hr1
    rw [e2] at this; exact this
  rw [if_neg hr2]
  split
  rename_i x3 r3 b3 n3 e3
  have hr3 : status_of r3 ≠ FAIL := by
    have := network_status_ok c env n2
      (construct_fs3_cmdblock c.FS3_OP_WRSECT ((sid % c.FS3_TRACK_SIZE) % 2^16) 0 0)
      r2 (memcpy b2 ((s1.file_handlers fd).pos % c.FS3_SECTOR_SIZE) buf l.copy_index
        (write_copy_count c (s1.file_handlers fd).pos l.cur_count)) hE hr2
    rw [e3] at this; exact this
  rw [if_neg hr3]
  split
  rename_i p ch e4
  have hp : p = 0 := by
    have := fs3_put_cache_ret c s1.cache ((sid / c.FS3_TRACK_SIZE) % 2^16)
      ((sid % c.FS3_TRACK_SIZE) % 2^16) b3
    rw [e4] at this; exact this
  rw [if_neg (by omega)]
  exact ⟨_, _, rfl, hr3⟩

theorem write_sector_id_ok (c : Consts) (s : State) (fd : Nat)
    (hM : c.FS3_MAX_TRACKS < 2^16) (hT : c.FS3_TRACK_SIZE < 2^16)
    (hns : (s.file_handlers fd).num_sectors < 512)
    (hpos : (s.file_handlers fd).pos
      = (s.file_handlers fd).num_sectors * c.FS3_SECTOR_SIZE)
    (hfree : 0 < (free_set c s.sector_usage).card) :
    ∃ sid s1, write_sector_id c s fd = some (some sid, s1) := by
  have hdiv : (s.file_handlers fd).pos / c.FS3_SECTOR_SIZE
      = (s.file_handlers fd).num_sectors := by
    rw [hpos]; exact Nat.mul_div_cancel _ c.sector_size_pos
  unfold write_sector_id
  rw [hdiv, toInt16_le _ (by omega), if_pos (by omega)]
  rcases allocate_sector_spec c s hM hT with ⟨t, j, _, h2⟩ | ⟨h1, _⟩
  · rw [h2]
    simp only
    have hmod : ((s.file_handlers fd).num_sectors + 1) % 2^16
        = (s.file_handlers fd).num_sectors + 1 := Nat.mod_eq_of_lt (by omega)
    rw [hmod, if_neg (by omega)]
    exact ⟨_, _, rfl⟩
  · exact absurd h1 (free_set_pos_not_full c _ hfree)

theorem write_iter_ok (c : Consts) (env : Env) (h : Nat) (b : Nat → Nat) (n m : Nat)
    (hSS : c.FS3_SECTOR_SIZE < 2^16) (hTS : c.FS3_TRACK_SIZE ≤ 1024)
    (hM : c.FS3_MAX_TRACKS < 2^16)
    (hcells : c.FS3_MAX_TRACKS * c.FS3_TRACK_SIZE ≤ 2^16) (hn : n ≤ 65536)
    (hE : replies_ok env)
    (l : WriteLocals) (s : State) (hinv : WInv c h b n l s) (hprog : WProg c h m l s)
    (hpos : l.cur_count > 0) :
    ∃ l1 s2, fs3_write_iter c env h b l s = some (some l1, s2)
      ∧ WInv c h b n l1 s2 ∧ WProg c h (m - 1) l1 s2 ∧ l1.cur_count < l.cur_count := by
  have hT : c.FS3_TRACK_SIZE < 2^16 := by omega
  have hSSpos := c.sector_size_pos
  obtain ⟨m0, hm0⟩ : ∃ m0, m = m0 + 1 := by
    rcases m with _ | m0
    · have := hprog.covers; simp at this; omega
    · exact ⟨m0, rfl⟩
  subst hm0
  have hw := hinv.aligned hpos
  have hroom := hprog.room
  have hfree := hprog.free
  have hcov := hprog.covers
  rw [Nat.succ_mul] at hcov
  obtain ⟨sid, s1, hsid⟩ := write_sector_id_ok c s h hM hT (by omega) hw (by omega)
  obtain ⟨t, j, hff, _, _, hfh1, hus1, _⟩ :=
    write_sector_id_alloc c s h hM hT hcells _ rfl hinv.ns_le hw sid s1 hsid
  obtain ⟨l1, s2, hsec, hst⟩ := fs3_write_sector_ok c env h b l s1 sid hE hprog.status
  have hiter : fs3_write_iter c env h b l s = some (some l1, s2) := by
    unfold fs3_write_iter
    rw [hsid]
    simp only [hsec]
  obtain ⟨_, _, hl1c, _, hfh2, hus2, _, _⟩ :=
    fs3_write_sector_inv c env h b l l1 s1 s2 sid hsec
  have hpos1 : (s1.file_handlers h).pos = (s.file_handlers h).pos := by
    rw [hfh1, setAt_same]
  have hmod0 : (s.file_handlers h).pos % c.FS3_SECTOR_SIZE = 0 := by
    rw [hw]; exact Nat.mul_mod_left _ _
  have hcc := write_copy_count_aligned c hSS (s.file_handlers h).pos l.cur_count hmod0
  rw [hpos1, hcc] at hl1c
  have hns2 : (s2.file_handlers h).num_sectors = (s.file_handlers h).num_sectors + 1 := by
    rw [hfh2, setAt_same, hfh1, setAt_same]; rfl
  have hcard : (free_set c s2.sector_usage).card = (free_set c s.sector_usage).card - 1 := by
    rw [hus2, hus1]; exact free_set_card_mark c _ t j hff
  refine ⟨l1, s2, hiter,
    write_iter_inv c env h b n hSS hTS hM hcells hn l l1 s s2 hinv hpos hiter,
    ⟨hst, ?_, ?_, ?_⟩, ?_⟩
  · rw [hl1c, Nat.add_sub_cancel]; split <;> omega
  · rw [hcard, Nat.add_sub_cancel]; omega
  · rw [hns2, Nat.add_sub_cancel]; omega
  · rw [hl1c]; split <;> omega

theorem write_loop_ok (c : Consts) (env : Env) (h : Nat) (b : Nat → Nat) (n : Nat)
    (hSS : c.FS3_SECTOR_SIZE < 2^16) (hTS : c.FS3_TRACK_SIZE ≤ 1024)
    (hM : c.FS3_MAX_TRACKS < 2^16)
    (hcells : c.FS3_MAX_TRACKS * c.FS3_TRACK_SIZE ≤ 2^16) (hn : n ≤ 65536)
    (hE : replies_ok env) :
    ∀ (fuel m : Nat) (l : WriteLocals) (s : State), WInv c h b n l s → WProg c h m l s →
      l.cur_count ≤ fuel →
      ∃ l1 s1, fs3_write_loop c env h b fuel l s = some (some l1, s1) := by
  intro fuel
  induction fuel with
  | zero =>
    intro m l s _ _ hf
    refine ⟨l, s, ?_⟩
    unfold fs3_write_loop
    rw [if_pos (by omega)]
  | succ k ih =>
    intro m l s hinv hprog hf
    by_cases h0 : l.cur_count = 0
    · refine ⟨l, s, ?_⟩
      unfold fs3_write_loop
      rw [if_pos h0]
    · obtain ⟨l1, s2, h1, h2, h3, h4⟩ :=
        write_iter_ok c env h b n m hSS hTS hM hcells hn hE l s hinv hprog (by omega)
      obtain ⟨l2, s3, h5⟩ := ih (m - 1) l1 s2 h2 h3 (by omega)
      refine ⟨l2, s3, ?_⟩
      unfold fs3_write_loop
      rw [if_neg h0, h1]
      exact h5

/-- A write of `n` bytes to a fresh file returns `n` when `m` free sectors cover the
bytes and every reply succeeds. -/
theorem fs3_write_fresh_ok (c : Consts) (env : Env) (s : State) (h : Nat) (b : Nat → Nat)
    (n m : Nat)
    (hSS : c.FS3_SECTOR_SIZE < 2^16) (hTS : c.FS3_TRACK_SIZE ≤ 1024)
    (hM : c.FS3_MAX_TRACKS < 2^16)
    (hcells : c.FS3_MAX_TRACKS * c.FS3_TRACK_SIZE ≤ 2^16) (hn : n ≤ 65536)
    (hh : h < MAX_FILES c)
    (hopen : (s.file_handlers h).file_state = FILE_OPEN)
    (hns : (s.file_handlers h).num_sectors = 0)
    (hlen : (s.file_handlers h).len = 0) (hpos : (s.file_handlers h).pos = 0)
    (hnd : (cache_ids s.cache.nodes).Nodup)
    (hE : replies_ok env)
    (hcov : n ≤ m * c.FS3_SECTOR_SIZE) (hm : m ≤ 512)
    (hfree : m ≤ (free_set c s.sector_usage).card) :
    ∃ s1, fs3_write c env s (h : Int) b (n : Int) = some ((n : Int), s1) := by
  have hu : toUInt 32 (n : Int) = n := toUInt_of_nat 32 n (by omega)
  have hinv : WInv c h b n (write_locals_init env (n : Int)) s := by
    refine ⟨by omega, ?_, by rw [hlen, hpos], ?_, by rw [hpos]; omega, ?_, hopen,
      ?_, ?_, hnd, ?_⟩
    · rw [hpos]; simp [write_locals_init, hu]
    · intro _; rw [hpos, hns]; simp
    · rw [hpos]; simp [write_locals_init]
    · intro k hk; rw [hns] at hk; omega
    · intro k1 k2 hk; rw [hns] at hk; omega
    · intro k hk; rw [hns] at hk; omega
  have hprog : WProg c h m (write_locals_init env (n : Int)) s := by
    refine ⟨(by decide : status_of 0 ≠ FAIL), ?_, hfree, by rw [hns]; omega⟩
    simp [write_locals_init, hu, hcov]
  obtain ⟨l1, s1, hloop⟩ := write_loop_ok c env h b n hSS hTS hM hcells hn hE n m
    (write_locals_init env (n : Int)) s hinv hprog (by simp [write_locals_init, hu])
  refine ⟨s1, ?_⟩
  unfold fs3_write
  simp only [Int.toNat_ofNat]
  rw [if_neg (by omega), if_neg (by simp [hopen]), hu, hloop]

/-! ## Close, and the scan of `fs3_open` for a new path -/

/-- Function `fs3_close` on a handle inside the table whose entry is open. -/
theorem fs3_close_of_ok (c : Consts) (s : State) (fd : Int) (h : close_ok c s fd) :
    fs3_close c s fd =
      (0, { s with file_handlers :=
                     setAt s.file_handlers fd.toNat
                       { s.file_handlers fd.toNat with pos := 0, file_state := FILE_CLOSE } }) := by
  obtain ⟨h0, h1, h2⟩ := h
  unfold fs3_close
  rw [if_neg (by omega), if_neg (by simp [h2])]

/-- Function `fs3_close` on any other handle: the two early returns. -/
theorem fs3_close_of_not_ok (c : Consts) (s : State) (fd : Int) (h : ¬ close_ok c s fd) :
    fs3_close c s fd = (-1, s) := by
  unfold fs3_close
  split
  · rfl
  · split
    · rfl
    · rename_i h1 h2
      exact absurd ⟨by omega, by omega, not_not.mp h2⟩ h

/-- Once `free_handle` differs from -1 the scan keeps it, when no entry has the path. -/
theorem fs3_open_scan_keep (fh : Nat → file_t) (path : String) :
    ∀ (n i : Nat) (free_handle : Int), free_handle ≠ -1 →
      (∀ k, i ≤ k → k < i + n → (fh k).path ≠ some path) →
      fs3_open_scan fh path n i free_handle = Sum.inr free_handle := by
  intro n
  induction n with
  | zero => intro i free_handle _ _; rfl
  | succ n ih =>
    intro i free_handle hne hno
    unfold fs3_open_scan
    rw [if_neg (hno i (Nat.le_refl i) (by omega)),
      if_neg (fun hc => hne hc.2)]
    exact ih (i + 1) free_handle hne (fun k h1 h2 => hno k (by omega) (by omega))

/-- With no unassigned slot and no entry of the path, the scan ends with `free_handle` = -1. -/
theorem fs3_open_scan_full (fh : Nat → file_t) (path : String) :
    ∀ (n i : Nat),
      (∀ k, i ≤ k → k < i + n → (fh k).path ≠ some path ∧ (fh k).path ≠ none) →
      fs3_open_scan fh path n i (-1) = Sum.inr (-1) := by
  intro n
  induction n with
  | zero => intro i _; rfl
  | succ n ih =>
    intro i hno
    unfold fs3_open_scan
    rw [if_neg (hno i (Nat.le_refl i) (by omega)).1,
      if_neg (fun hc => (hno i (Nat.le_refl i) (by omega)).2 hc.1)]
    exact ih (i + 1) (fun k h1 h2 => hno k (by omega) (by omega))

/-- With no entry of the path, the scan ends with `free_handle` the `int16_t` value of the
lowest unassigned slot, when that value is not -1. -/
theorem fs3_open_scan_first (fh : Nat → file_t) (path : String) (k0 : Nat)
    (hk0 : (fh k0).path = none) (hne : toInt16 k0 ≠ -1) :
    ∀ (n i : Nat), i ≤ k0 → k0 < i + n →
      (∀ k, i ≤ k → k < i + n → (fh k).path ≠ some path) →
      (∀ k, i ≤ k → k < k0 → (fh k).path ≠ none) →
      fs3_open_scan fh path n i (-1) = Sum.inr (toInt16 k0) := by
  intro n
  induction n with
  | zero => intro i h1 h2; omega
  | succ n ih =>
    intro i h1 h2 hno hbefore
    unfold fs3_open_scan
    rw [if_neg (hno i (Nat.le_refl i) (by omega))]
    by_cases hik : i = k0
    · subst hik
      rw [if_pos ⟨hk0, rfl⟩]
      exact fs3_open_scan_keep fh path n (i + 1) (toInt16 i) hne
        (fun k h3 h4 => hno k (by omega) (by omega))
    · rw [if_neg (fun hc => hbefore i (Nat.le_refl i) (by omega) hc.1)]
      exact ih (i + 1) (by omega) (by omega) (fun k h3 h4 => hno k (by omega) (by omega))
        (fun k h3 h4 => hbefore k (by omega) h4)

/-- When the scan ends with a negative `free_handle` other than -1, the stores of
`fs3_open` go through a negative index: no defined result. -/
theorem fs3_open_scan_negative (c : Consts) (s : State) (path : String) (free_handle : Int)
    (h : fs3_open_scan s.file_handlers path (MAX_FILES c) 0 (-1) = Sum.inr free_handle)
    (h1 : free_handle ≠ -1) (h2 : free_handle < 0) :
    fs3_open c s path = none := by
  unfold fs3_open
  rw [h]
  simp only
  rw [if_neg h1, if_pos h2]

/-! ## The write loop from any position within the allocated sectors -/

/-- Lines 573-586 when the position lies within the allocated sectors and `m` sectors are
free and fit the sector list: a sector is found or allocated, position and length are
kept, and the sector index of the position is below the new number of sectors. -/
theorem write_sector_id_general (c : Consts) (s : State) (fd m e : Nat)
    (hM : c.FS3_MAX_TRACKS < 2^16) (hT : c.FS3_TRACK_SIZE < 2^16)
    (hwithin : (s.file_handlers fd).pos
      ≤ (s.file_handlers fd).num_sectors * c.FS3_SECTOR_SIZE)
    (hcov : (s.file_handlers fd).pos
      < ((s.file_handlers fd).num_sectors + m) * c.FS3_SECTOR_SIZE)
    (hfree : m + e ≤ (free_set c s.sector_usage).card)
    (hroom : (s.file_handlers fd).num_sectors + m ≤ 512) :
    ∃ sid s1 m1, write_sector_id c s fd = some (some sid, s1)
      ∧ (s1.file_handlers fd).pos = (s.file_handlers fd).pos
      ∧ (s1.file_handlers fd).len = (s.file_handlers fd).len
      ∧ (s1.file_handlers fd).num_sectors + m1 = (s.file_handlers fd).num_sectors + m
      ∧ m1 + e ≤ (free_set c s1.sector_usage).card
      ∧ (s.file_handlers fd).pos / c.FS3_SECTOR_SIZE < (s1.file_handlers fd).num_sectors := by
  have hSSpos := c.sector_size_pos
  have hq : (s.file_handlers fd).pos / c.FS3_SECTOR_SIZE ≤ (s.file_handlers fd).num_sectors :=
    Nat.div_le_of_le_mul (by rw [Nat.mul_comm]; exact hwithin)
  obtain ⟨q, hqd⟩ : ∃ q, (s.file_handlers fd).pos / c.FS3_SECTOR_SIZE = q := ⟨_, rfl⟩
  have h16 : toInt16 ((s.file_handlers fd).pos / c.FS3_SECTOR_SIZE) = (q : Int) := by
    rw [hqd]; exact toInt16_le q (by omega)
  rw [hqd] at hq
  rw [hqd]
  by_cases hlt : q < (s.file_handlers fd).num_sectors
  · have hws : write_sector_id c s fd
        = some (some ((s.file_handlers fd).sector_id
            (toInt16 ((s.file_handlers fd).pos / c.FS3_SECTOR_SIZE)).toNat % 2^16), s) := by
      have hc1 : ¬ (toInt16 ((s.file_handlers fd).pos / c.FS3_SECTOR_SIZE) + 1
          > ((s.file_handlers fd).num_sectors : Int)) := by rw [h16]; omega
      have hc2 : ¬ (toInt16 ((s.file_handlers fd).pos / c.FS3_SECTOR_SIZE) < 0
          ∨ toInt16 ((s.file_handlers fd).pos / c.FS3_SECTOR_SIZE) ≥ 512) := by rw [h16]; omega
      unfold write_sector_id
      rw [if_neg hc1, if_neg hc2]
    exact ⟨_, s, m, hws, rfl, rfl, rfl, hfree, hlt⟩
  · have hqe : q = (s.file_handlers fd).num_sectors := by omega
    have hge : (s.file_handlers fd).num_sectors * c.FS3_SECTOR_SIZE ≤ (s.file_handlers fd).pos := by
      have := Nat.div_mul_le_self (s.file_handlers fd).pos c.FS3_SECTOR_SIZE
      rw [hqd, hqe] at this; exact this
    obtain ⟨m0, hm0⟩ : ∃ m0, m = m0 + 1 := by
      rcases m with _ | m0
      · simp at hcov; omega
      · exact ⟨m0, rfl⟩
    subst hm0
    rcases allocate_sector_spec c s hM hT with ⟨t, j, hff, h2⟩ | ⟨h1, _⟩
    · have hmod : ((s.file_handlers fd).num_sectors + 1) % 2^16
          = (s.file_handlers fd).num_sectors + 1 := Nat.mod_eq_of_lt (by omega)
      have hws : write_sector_id c s fd
          = some (some ((t * c.FS3_TRACK_SIZE + j) % 2^16),
              { s with
                  sectors_used := (s.sectors_used + 1) % 2^32,
                  sector_usage := setAt s.sector_usage t (setAt (s.sector_usage t) j 1),
                  file_handlers := setAt s.file_handlers fd
                    { s.file_handlers fd with
                        num_sectors := (s.file_handlers fd).num_sectors + 1,
                        sector_id := setAt (s.file_handlers fd).sector_id
                          ((s.file_handlers fd).num_sectors + 1 - 1)
                          ((t * c.FS3_TRACK_SIZE + j) % 2^16) } }) := by
        have hc1 : toInt16 ((s.file_handlers fd).pos / c.FS3_SECTOR_SIZE) + 1
            > ((s.file_handlers fd).num_sectors : Int) := by rw [h16]; omega
        unfold write_sector_id
        rw [if_pos hc1, h2]
        simp only
        rw [hmod, if_neg (by omega)]
      refine ⟨_, _, m0, hws, ?_, ?_, ?_, ?_, ?_⟩
      · simp only [setAt_same]
      · simp only [setAt_same]
      · simp only [setAt_same]; omega
      · simp only
        rw [free_set_card_mark c _ t j hff]; omega
      · simp only [setAt_same]; omega
    · exact absurd h1 (free_set_pos_not_full c _ (by omega))

/-- The value of `copy_count` is positive, at most the bytes left, and stays within the
sector of the position, when the sector size fits the `uint16_t` variable `vacancy`. -/
theorem write_copy_count_bounds (c : Consts) (hSS : c.FS3_SECTOR_SIZE < 2^16)
    (p cur : Nat) (hcur : 0 < cur) :
    0 < write_copy_count c p cur ∧ write_copy_count c p cur ≤ cur
      ∧ p + write_copy_count c p cur ≤ (p / c.FS3_SECTOR_SIZE + 1) * c.FS3_SECTOR_SIZE := by
  have hSSpos := c.sector_size_pos
  have hr := Nat.mod_lt p hSSpos
  have hdm := Nat.div_add_mod p c.FS3_SECTOR_SIZE
  have hv : (c.FS3_SECTOR_SIZE - p % c.FS3_SECTOR_SIZE) % 2^16
      = c.FS3_SECTOR_SIZE - p % c.FS3_SECTOR_SIZE := Nat.mod_eq_of_lt (by omega)
  have hmul : (p / c.FS3_SECTOR_SIZE + 1) * c.FS3_SECTOR_SIZE
      = c.FS3_SECTOR_SIZE * (p / c.FS3_SECTOR_SIZE) + c.FS3_SECTOR_SIZE := by ring
  unfold write_copy_count
  rw [hv, hmul]
  generalize c.FS3_SECTOR_SIZE * (p / c.FS3_SECTOR_SIZE) = a at hdm ⊢
  generalize p % c.FS3_SECTOR_SIZE = r at hdm hr ⊢
  split <;> omega

/-- One iteration of the loop of `fs3_write` goes through and keeps `WAcc`. -/
theorem write_iter_acc (c : Consts) (env : Env) (h : Nat) (b : Nat → Nat)
    (p0 l0 total e m : Nat)
    (hSS : c.FS3_SECTOR_SIZE < 2^16) (hM : c.FS3_MAX_TRACKS < 2^16)
    (hT : c.FS3_TRACK_SIZE < 2^16) (hE : replies_ok env)
    (l : WriteLocals) (s : State) (hacc : WAcc c h p0 l0 total e m l s)
    (hpos : l.cur_count > 0) :
    ∃ l1 s2 m1, fs3_write_iter c env h b l s = some (some l1, s2)
      ∧ WAcc c h p0 l0 total e m1 l1 s2 ∧ l1.cur_count < l.cur_count := by
  have hcovers := hacc.covers
  obtain ⟨sid, s1, m1, hws, hp1, hlen1, hns1, hfr1, hq1⟩ :=
    write_sector_id_general c s h m e hM hT hacc.within (by omega) hacc.free hacc.room
  obtain ⟨l1, s2, hsec, hst⟩ := fs3_write_sector_ok c env h b l s1 sid hE hacc.status
  have hiter : fs3_write_iter c env h b l s = some (some l1, s2) := by
    unfold fs3_write_iter
    rw [hws]
    simp only [hsec]
  obtain ⟨_, _, hl1c, _, hfh2, hus2, _, _⟩ :=
    fs3_write_sector_inv c env h b l l1 s1 s2 sid hsec
  rw [hp1] at hl1c hfh2
  obtain ⟨hcc0, hccle, hccq⟩ :=
    write_copy_count_bounds c hSS (s.file_handlers h).pos l.cur_count hpos
  have hnsSS : (s1.file_handlers h).num_sectors * c.FS3_SECTOR_SIZE
      ≤ 512 * c.FS3_SECTOR_SIZE := Nat.mul_le_mul_right _ (by have := hacc.room; omega)
  have hqSS : ((s.file_handlers h).pos / c.FS3_SECTOR_SIZE + 1) * c.FS3_SECTOR_SIZE
      ≤ (s1.file_handlers h).num_sectors * c.FS3_SECTOR_SIZE :=
    Nat.mul_le_mul_right _ (by omega)
  have hmod : ((s.file_handlers h).pos
        + write_copy_count c (s.file_handlers h).pos l.cur_count) % 2^64
      = (s.file_handlers h).pos
        + write_copy_count c (s.file_handlers h).pos l.cur_count :=
    Nat.mod_eq_of_lt (by omega)
  have hpos2 : (s2.file_handlers h).pos = (s.file_handlers h).pos
      + write_copy_count c (s.file_handlers h).pos l.cur_count := by
    rw [hfh2, setAt_same]; simp only [write_commit, hp1, hmod]
  have hlen2 : (s2.file_handlers h).len
      = max l0 ((s.file_handlers h).pos
          + write_copy_count c (s.file_handlers h).pos l.cur_count) := by
    rw [hfh2, setAt_same]; simp only [write_commit, hp1, hmod, hlen1, hacc.len_eq]
    split <;> omega
  have hns2 : (s2.file_handlers h).num_sectors = (s1.file_handlers h).num_sectors := by
    rw [hfh2, setAt_same]; rfl
  have hsum := hacc.sum
  refine ⟨l1, s2, m1, hiter, ⟨hst, ?_, ?_, ?_, ?_, ?_, ?_⟩, ?_⟩
  · rw [hpos2, hl1c]; omega
  · rw [hlen2, hpos2]
  · rw [hpos2, hns2]; omega
  · rw [hpos2, hl1c, hns2, hns1]; omega
  · rw [hus2]; exact hfr1
  · rw [hns2, hns1]; exact hacc.room
  · rw [hl1c]; omega

/-- The loop of `fs3_write` runs to `cur_count` = 0 and keeps `WAcc`. -/
theorem write_loop_acc (c : Consts) (env : Env) (h : Nat) (b : Nat → Nat)
    (p0 l0 total e : Nat)
    (hSS : c.FS3_SECTOR_SIZE < 2^16) (hM : c.FS3_MAX_TRACKS < 2^16)
    (hT : c.FS3_TRACK_SIZE < 2^16) (hE : replies_ok env) :
    ∀ (fuel m : Nat) (l : WriteLocals) (s : State), WAcc c h p0 l0 total e m l s →
      l.cur_count ≤ fuel →
      ∃ l1 s1 m1, fs3_write_loop c env h b fuel l s = some (some l1, s1)
        ∧ l1.cur_count = 0 ∧ WAcc c h p0 l0 total e m1 l1 s1 := by
  intro fuel
  induction fuel with
  | zero =>
    intro m l s hacc hle
    have h0 : l.cur_count = 0 := by omega
    exact ⟨l, s, m, by unfold fs3_write_loop; rw [if_pos h0], h0, hacc⟩
  | succ fuel ih =>
    intro m l s hacc hle
    by_cases h0 : l.cur_count = 0
    · exact ⟨l, s, m, by unfold fs3_write_loop; rw [if_pos h0], h0, hacc⟩
    · obtain ⟨l1, s2, m1, hiter, hacc1, hlt⟩ :=
        write_iter_acc c env h b p0 l0 total e m hSS hM hT hE l s hacc (by omega)
      obtain ⟨l2, s3, m2, hloop, hz, hacc2⟩ := ih m1 l1 s2 hacc1 (by omega)
      refine ⟨l2, s3, m2, ?_, hz, hacc2⟩
      unfold fs3_write_loop
      rw [if_neg h0, hiter]
      exact hloop

/-! ## Cache size, and exchanges that return 0 -/

/-- Function `fs3_put_cache` keeps the number of nodes within a capacity of at least 1. -/
theorem fs3_put_cache_length (c : Consts) (ch : Cache) (trk sct : Nat) (buf : Nat → Nat)
    (hC : 1 ≤ c.FS3_DEFAULT_CACHE_SIZE) (hlen : ch.nodes.length ≤ c.FS3_DEFAULT_CACHE_SIZE) :
    (fs3_put_cache c ch trk sct buf).2.nodes.length ≤ c.FS3_DEFAULT_CACHE_SIZE := by
  cases hf : find_node (cache_sector_id trk sct) ch.nodes with
  | none =>
    have hf2 : fs3_get_cache_node ch.nodes trk sct = none := by rw [fs3_get_cache_node_eq, hf]
    by_cases hfull : c.FS3_DEFAULT_CACHE_SIZE ≤ ch.nodes.length
    · rw [fs3_put_cache_absent_full c ch trk sct buf hf2 hfull]
      simp only [List.length_append, List.length_tail, List.length_cons, List.length_nil]
      omega
    · rw [fs3_put_cache_absent_room c ch trk sct buf hf2 (by omega)]
      simp only [List.length_append, List.length_cons, List.length_nil]
      omega
  | some i =>
    obtain ⟨pre, x, post, hn, _, hx, hpre⟩ := find_node_some_split _ _ i hf
    rw [fs3_put_cache_present c ch trk sct buf pre post x hn hx hpre]
    rw [hn] at hlen
    simp only [List.length_append, List.length_cons, List.length_nil] at hlen ⊢
    omega

/-- Function `fs3_get_cache` keeps the number of nodes. -/
theorem fs3_get_cache_length (ch : Cache) (trk sct : Nat) :
    (fs3_get_cache ch trk sct).2.nodes.length = ch.nodes.length := by
  cases hf : find_node (cache_sector_id trk sct) ch.nodes with
  | none =>
    rw [fs3_get_cache_miss ch trk sct ((find_node_none_iff _ _).mp hf)]
  | some i =>
    obtain ⟨pre, x, post, hn, _, hx, hpre⟩ := find_node_some_split _ _ i hf
    rw [fs3_get_cache_hit ch trk sct pre post x hn hx hpre, hn]
    simp only [List.length_append, List.length_cons, List.length_nil]
    omega

/-- An exchange other than MOUNT never changes `socket_fd`: the `close` of the UMOUNT
branch is only reached with `socket_fd` = -1, which returns earlier. -/
theorem network_keeps_socket (c : Consts) (env : Env) (net : Net) (cmd ret : Nat)
    (buf : Nat → Nat) (hop : (deconstruct_fs3_cmdblock cmd).1 ≠ c.FS3_OP_MOUNT) :
    (network_fs3_syscall c env net cmd ret buf).2.2.2.socket_fd = net.socket_fd := by
  have hne : ¬ c.FS3_OP_MOUNT = (deconstruct_fs3_cmdblock cmd).1 := fun h => hop h.symm
  unfold network_fs3_syscall
  simp only [hne, if_false, false_and]
  split_ifs <;> rfl

/-- Every call of `network_fs3_syscall` moves the call counter of the model by one. -/
theorem network_calls (c : Consts) (env : Env) (net : Net) (cmd ret : Nat)
    (buf : Nat → Nat) :
    (network_fs3_syscall c env net cmd ret buf).2.2.2.calls = net.calls + 1 := by
  unfold network_fs3_syscall
  simp only
  split_ifs <;> rfl

/-- When `network_fs3_syscall` returns 0: the reply has status success, `*ret` is the
reply, and the buffer received the payload exactly for RDSECT. -/
theorem network_zero_inv (c : Consts) (env : Env) (net : Net) (cmd ret : Nat)
    (buf : Nat → Nat) (h : (network_fs3_syscall c env net cmd ret buf).1 = 0) :
    (deconstruct_fs3_cmdblock (env.reply net.calls % 2^64)).2.2.2 ≠ FAIL
    ∧ (network_fs3_syscall c env net cmd ret buf).2.1 = env.reply net.calls % 2^64
    ∧ (network_fs3_syscall c env net cmd ret buf).2.2.1
        = if ¬ ((deconstruct_fs3_cmdblock cmd).1 = c.FS3_OP_MOUNT
              ∨ (deconstruct_fs3_cmdblock cmd).1 = c.FS3_OP_TSEEK
              ∨ (deconstruct_fs3_cmdblock cmd).1 = c.FS3_OP_UMOUNT)
            ∧ (deconstruct_fs3_cmdblock cmd).1 = c.FS3_OP_RDSECT
          then memcpy buf 0 (env.payload net.calls) 0 c.FS3_SECTOR_SIZE else buf := by
  unfold network_fs3_syscall at h ⊢
  simp only at h ⊢
  generalize deconstruct_fs3_cmdblock (env.reply net.calls % 2^64) = d at h ⊢
  generalize (deconstruct_fs3_cmdblock cmd).1 = op at h ⊢
  generalize (if c.FS3_OP_MOUNT = op then env.sock net.calls else net.socket_fd) = fd1 at h ⊢
  by_cases h1 : c.FS3_OP_MOUNT = op ∧ fd1 = -1
  · rw [if_pos h1] at h; exact absurd h (by simp)
  rw [if_neg h1] at h ⊢
  by_cases h2 : c.FS3_OP_MOUNT = op ∧ env.connect net.calls ≠ 0
  · rw [if_pos h2] at h; exact absurd h (by simp)
  rw [if_neg h2] at h ⊢
  by_cases h3 : fd1 = -1
  · rw [if_pos h3] at h; exact absurd h (by simp)
  rw [if_neg h3] at h ⊢
  by_cases h4 : ¬ (op = c.FS3_OP_MOUNT ∨ op = c.FS3_OP_TSEEK ∨ op = c.FS3_OP_UMOUNT
      ∨ op = c.FS3_OP_RDSECT ∨ op = c.FS3_OP_WRSECT)
  · rw [if_pos h4] at h; exact absurd h (by simp)
  rw [if_neg h4] at h ⊢
  by_cases h5 : d.2.2.2 = FAIL
  · rw [if_pos h5] at h; exact absurd h (by simp)
  rw [if_neg h5] at h ⊢
  refine ⟨h5, ?_, ?_⟩
  · split_ifs <;> rfl
  · by_cases h6 : c.FS3_OP_UMOUNT = d.1
    · rw [if_pos h6, if_pos h3] at h; exact absurd h (by simp)
    · rw [if_neg h6]

/-- When `network_fs3_syscall` returns 0 the status the driver reads is success. -/
theorem network_zero_status (c : Consts) (env : Env) (net : Net) (cmd ret : Nat)
    (buf : Nat → Nat) (h : (network_fs3_syscall c env net cmd ret buf).1 = 0) :
    status_of (network_fs3_syscall c env net cmd ret buf).2.1 ≠ FAIL := by
  obtain ⟨h1, h2, _⟩ := network_zero_inv c env net cmd ret buf h
  rw [h2]
  exact h1

/-- When an RDSECT exchange returns 0 the buffer holds the received sector. -/
theorem network_zero_rdsect (c : Consts) (env : Env) (net : Net) (sector ret : Nat)
    (buf : Nat → Nat) (hs : sector < 2^16)
    (h : (network_fs3_syscall c env net (construct_fs3_cmdblock c.FS3_OP_RDSECT sector 0 0)
      ret buf).1 = 0) :
    (network_fs3_syscall c env net (construct_fs3_cmdblock c.FS3_OP_RDSECT sector 0 0)
      ret buf).2.2.1 = memcpy buf 0 (env.payload net.calls) 0 c.FS3_SECTOR_SIZE := by
  have hlt := c.op_lt c.FS3_OP_RDSECT (by simp)
  have hop := codec_op c.FS3_OP_RDSECT sector 0 0 (by omega) hs (by decide) (by decide)
  have hnd := c.op_nodup
  simp only [List.nodup_cons, List.mem_cons, List.mem_singleton, List.not_mem_nil,
    or_false, not_or] at hnd
  rw [(network_zero_inv c env net _ ret buf h).2.2, hop, if_pos]
  refine ⟨?_, rfl⟩
  omega

theorem demo_read_failed_eq :
    fs3_read demo (env_fail_at 12) demo_written24 0 16 = some (-1, [], demo_read_failed) :=
  option_getD_read _ (-1) [] _ (by decide)

theorem demo_read_past_eq :
    fs3_read demo env_ok demo_read_empty 0 20
      = some (20, List.replicate 20 0, demo_read_past) :=
  option_getD_read _ 20 _ _ (by decide)

theorem demo_unbacked_eq :
    fs3_write demo env_ok demo_read_past 0 (fun _ => 7) 1 = some (1, demo_unbacked) :=
  option_getD_write _ 1 _ (by decide)

theorem demo_unbacked_reachable : Reachable demo demo_unbacked :=
  Reachable.step_write demo_read_past env_ok 0 (fun _ => 7) 1 1 demo_unbacked
    (Reachable.step_read demo_read_empty env_ok 0 20 20 _ demo_read_past
      (Reachable.step_read demo_open env_ok 0 1 1 [0] demo_read_empty demo_open_reachable
        demo_read_empty_eq)
      demo_read_past_eq)
    demo_unbacked_eq

/-! ## Sector lists, bitmap and counter stay consistent -/

/-- Marking a cell adds it to the used cells. -/
theorem used_set_mark (c : Consts) (usage : Nat → Nat → Nat) (t j : Nat)
    (ht : t < c.FS3_MAX_TRACKS) (hj : j < c.FS3_TRACK_SIZE) :
    used_set c (setAt usage t (setAt (usage t) j 1)) = insert (t, j) (used_set c usage) := by
  ext ⟨a, b⟩
  simp only [used_set, Finset.mem_filter, Finset.mem_product, Finset.mem_range,
    Finset.mem_insert, usage_after_mark, ne_eq, Prod.mk.injEq]
  constructor
  · rintro ⟨⟨h1, h2⟩, h3⟩
    by_cases hab : a = t ∧ b = j
    · exact Or.inl hab
    · rw [if_neg hab] at h3; exact Or.inr ⟨⟨h1, h2⟩, h3⟩
  · rintro (hab | ⟨⟨h1, h2⟩, h3⟩)
    · rw [if_pos hab, hab.1, hab.2]; exact ⟨⟨ht, hj⟩, by decide⟩
    · refine ⟨⟨h1, h2⟩, ?_⟩
      split
      · decide
      · exact h3

/-- Marking the first free cell raises the number of used cells by one. -/
theorem used_set_card_mark (c : Consts) (usage : Nat → Nat → Nat) (t j : Nat)
    (hff : first_free c usage t j) :
    (used_set c (setAt usage t (setAt (usage t) j 1))).card = (used_set c usage).card + 1 := by
  obtain ⟨h1, h2, h3, _⟩ := hff
  rw [used_set_mark c usage t j h1 h2]
  apply Finset.card_insert_of_not_mem
  simp [used_set, h3]

/-- There are at most FS3_MAX_TRACKS * FS3_TRACK_SIZE used cells. -/
theorem used_set_card_le (c : Consts) (usage : Nat → Nat → Nat) :
    (used_set c usage).card ≤ c.FS3_MAX_TRACKS * c.FS3_TRACK_SIZE := by
  have := Finset.card_filter_le ((Finset.range c.FS3_MAX_TRACKS) ×ˢ
    (Finset.range c.FS3_TRACK_SIZE)) (fun p => usage p.1 p.2 ≠ 0)
  simpa [used_set] using this

/-- With a free cell, fewer than all cells are used. -/
theorem used_set_card_lt (c : Consts) (usage : Nat → Nat → Nat) (t j : Nat)
    (hff : first_free c usage t j) :
    (used_set c usage).card < c.FS3_MAX_TRACKS * c.FS3_TRACK_SIZE := by
  have h1 := used_set_card_mark c usage t j hff
  have h2 := used_set_card_le c (setAt usage t (setAt (usage t) j 1))
  omega

/-- The allocation of lines 576-583 keeps `SInv`: the first free cell is marked, counted and
appended to the sector list of `fd`. -/
theorem sinv_alloc (c : Consts) (s : State) (fd t j : Nat)
    (hcells : c.FS3_MAX_TRACKS * c.FS3_TRACK_SIZE ≤ 2^16)
    (hinv : SInv c s) (hff : first_free c s.sector_usage t j)
    (hns : (s.file_handlers fd).num_sectors < 512) :
    SInv c
      { s with
          sectors_used := (s.sectors_used + 1) % 2^32,
          sector_usage := setAt s.sector_usage t (setAt (s.sector_usage t) j 1),
          file_handlers := setAt s.file_handlers fd
            { s.file_handlers fd with
                num_sectors := (s.file_handlers fd).num_sectors + 1,
                sector_id := setAt (s.file_handlers fd).sector_id
                  (s.file_handlers fd).num_sectors (t * c.FS3_TRACK_SIZE + j) } } := by
  obtain ⟨ht, hj, hfree, _, _⟩ := hff
  obtain ⟨hdiv, hmod⟩ := cell_of_sid c t j hj
  -- every listed sector of the new state is the new one or an old one
  have acc : ∀ h k,
      k < ((setAt s.file_handlers fd
            { s.file_handlers fd with
                num_sectors := (s.file_handlers fd).num_sectors + 1,
                sector_id := setAt (s.file_handlers fd).sector_id
                  (s.file_handlers fd).num_sectors (t * c.FS3_TRACK_SIZE + j) }) h).num_sectors →
      (h = fd ∧ k = (s.file_handlers fd).num_sectors
        ∧ ((setAt s.file_handlers fd
            { s.file_handlers fd with
                num_sectors := (s.file_handlers fd).num_sectors + 1,
                sector_id := setAt (s.file_handlers fd).sector_id
                  (s.file_handlers fd).num_sectors (t * c.FS3_TRACK_SIZE + j) }) h).sector_id k
            = t * c.FS3_TRACK_SIZE + j)
      ∨ (k < (s.file_handlers h).num_sectors
        ∧ ((setAt s.file_handlers fd
            { s.file_handlers fd with
                num_sectors := (s.file_handlers fd).num_sectors + 1,
                sector_id := setAt (s.file_handlers fd).sector_id
                  (s.file_handlers fd).num_sectors (t * c.FS3_TRACK_SIZE + j) }) h).sector_id k
            = (s.file_handlers h).sector_id k) := by
    intro h k hk
    by_cases hh : h = fd
    · subst hh
      simp only [setAt_same] at hk ⊢
      by_cases hkn : k = (s.file_handlers h).num_sectors
      · exact Or.inl ⟨trivial, hkn, by rw [hkn, setAt_same]⟩
      · exact Or.inr ⟨by omega, setAt_other _ _ _ _ hkn⟩
    · simp only [setAt_other _ _ _ _ hh] at hk ⊢
      exact Or.inr ⟨hk, trivial⟩
  have mono : ∀ a b, s.sector_usage a b ≠ 0 →
      setAt s.sector_usage t (setAt (s.sector_usage t) j 1) a b ≠ 0 := by
    intro a b hab
    rw [usage_after_mark]
    split
    · decide
    · exact hab
  have old_ne : ∀ h k, k < (s.file_handlers h).num_sectors →
      (s.file_handlers h).sector_id k ≠ t * c.FS3_TRACK_SIZE + j := by
    intro h k hk heq
    have := (hinv.used h k hk).2
    rw [heq, hdiv, hmod] at this
    exact this hfree
  refine ⟨?_, ?_, ?_, ?_⟩
  · intro h
    simp only
    by_cases hh : h = fd
    · subst hh; simp only [setAt_same]; omega
    · simp only [setAt_other _ _ _ _ hh]; exact hinv.bound h
  · intro h k hk
    simp only at hk ⊢
    rcases acc h k hk with ⟨_, _, e⟩ | ⟨hk0, e⟩
    · rw [e, hdiv, hmod]
      refine ⟨ht, ?_⟩
      rw [usage_after_mark, if_pos ⟨rfl, rfl⟩]; decide
    · rw [e]
      exact ⟨(hinv.used h k hk0).1, mono _ _ (hinv.used h k hk0).2⟩
  · intro h1 k1 h2 k2 hk1 hk2 heq
    simp only at hk1 hk2 heq
    rcases acc h1 k1 hk1 with ⟨a1, b1, e1⟩ | ⟨hk10, e1⟩
    · rcases acc h2 k2 hk2 with ⟨a2, b2, e2⟩ | ⟨hk20, e2⟩
      · exact ⟨a1.trans a2.symm, b1.trans b2.symm⟩
      · rw [e1, e2] at heq
        exact absurd heq.symm (old_ne h2 k2 hk20)
    · rcases acc h2 k2 hk2 with ⟨a2, b2, e2⟩ | ⟨hk20, e2⟩
      · rw [e1, e2] at heq
        exact absurd heq (old_ne h1 k1 hk10)
      · rw [e1, e2] at heq
        exact hinv.distinct h1 k1 h2 k2 hk10 hk20 heq
  · simp only
    have hff2 : first_free c s.sector_usage t j := ⟨ht, hj, hfree, ‹_›, ‹_›⟩
    rw [used_set_card_mark c _ t j hff2, ← hinv.counter]
    have := used_set_card_lt c _ t j hff2
    rw [← hinv.counter] at this
    exact Nat.mod_eq_of_lt (by omega)

/-- A step that changes no sector id, bitmap cell or counter and lengthens no sector list
keeps `SInv`. -/
theorem sinv_of_same (c : Consts) (s s1 : State)
    (hfh : ∀ h, (s1.file_handlers h).sector_id = (s.file_handlers h).sector_id
      ∧ (s1.file_handlers h).num_sectors ≤ (s.file_handlers h).num_sectors)
    (hu : s1.sector_usage = s.sector_usage) (hsu : s1.sectors_used = s.sectors_used)
    (hinv : SInv c s) : SInv c s1 := by
  refine ⟨?_, ?_, ?_, ?_⟩
  · intro h
    exact Nat.le_trans (hfh h).2 (hinv.bound h)
  · intro h k hk
    rw [(hfh h).1, hu]
    exact hinv.used h k (Nat.lt_of_lt_of_le hk (hfh h).2)
  · intro h1 k1 h2 k2 hk1 hk2 heq
    rw [(hfh h1).1, (hfh h2).1] at heq
    exact hinv.distinct h1 k1 h2 k2 (Nat.lt_of_lt_of_le hk1 (hfh h1).2)
      (Nat.lt_of_lt_of_le hk2 (hfh h2).2) heq
  · rw [hsu, hu]; exact hinv.counter

/-- No step at all. -/
theorem wframe_refl (c : Consts) (fd : Nat) (s : State) : WFrame c fd s s :=
  ⟨fun _ _ => rfl, fun h => ⟨Nat.le_refl _, h, fun _ _ => rfl⟩, fun _ _ _ h => h⟩

/-- Two steps in sequence. -/
theorem wframe_trans (c : Consts) (fd : Nat) (s s1 s2 : State)
    (h1 : WFrame c fd s s1) (h2 : WFrame c fd s1 s2) : WFrame c fd s s2 := by
  refine ⟨?_, ?_, ?_⟩
  · intro k hk
    rw [h2.others k hk, h1.others k hk]
  · intro hb
    obtain ⟨a1, a2, a3⟩ := h1.grows hb
    obtain ⟨b1, b2, b3⟩ := h2.grows a2
    refine ⟨Nat.le_trans a1 b1, b2, ?_⟩
    intro k hk
    rw [b3 k (Nat.lt_of_lt_of_le hk a1), a3 k hk]
  · intro hM hT hc hinv
    exact h2.inv hM hT hc (h1.inv hM hT hc hinv)

/-- A step that only changes other fields of entry `fd`. -/
theorem wframe_of_same (c : Consts) (fd : Nat) (s s1 : State)
    (hothers : ∀ k, k ≠ fd → s1.file_handlers k = s.file_handlers k)
    (hsid : (s1.file_handlers fd).sector_id = (s.file_handlers fd).sector_id)
    (hns : (s1.file_handlers fd).num_sectors = (s.file_handlers fd).num_sectors)
    (hu : s1.sector_usage = s.sector_usage) (hsu : s1.sectors_used = s.sectors_used) :
    WFrame c fd s s1 := by
  refine ⟨hothers, ?_, ?_⟩
  · intro hb
    exact ⟨by omega, by omega, fun k _ => by rw [hsid]⟩
  · intro _ _ _ hinv
    refine sinv_of_same c s s1 ?_ hu hsu hinv
    intro h
    by_cases hh : h = fd
    · subst hh; exact ⟨hsid, by omega⟩
    · rw [hothers h hh]; exact ⟨rfl, Nat.le_refl _⟩

/-- Lines 573-586 of an iteration of `fs3_write`. -/
theorem write_sector_id_wframe (c : Consts) (s : State) (fd : Nat) (r : Option Nat)
    (s1 : State) (h : write_sector_id c s fd = some (r, s1)) : WFrame c fd s s1 := by
  unfold write_sector_id at h
  split at h
  · split at h
    · exact absurd h (by simp)
    · rename_i s2 h2
      simp only [Option.some.injEq, Prod.mk.injEq] at h
      rw [← h.2]
      have hfh := allocate_sector_fh c s _ _ h2
      refine ⟨fun k _ => by rw [hfh], fun hb => ⟨by rw [hfh], by rw [hfh]; exact hb,
        fun k _ => by rw [hfh]⟩, ?_⟩
      intro hM hT _ hinv
      rcases allocate_sector_spec c s hM hT with ⟨t, j, _, e⟩ | ⟨_, e⟩
      · rw [e] at h2; simp at h2
      · rw [e] at h2
        simp only [Option.some.injEq, Prod.mk.injEq, true_and] at h2
        rw [← h2]; exact hinv
    · rename_i t j s2 h2
      split at h
      · exact absurd h (by simp)
      · rename_i hguard
        simp only [Option.some.injEq, Prod.mk.injEq] at h
        have hfh := allocate_sector_fh c s _ _ h2
        refine ⟨?_, ?_, ?_⟩
        · intro k hk
          rw [← h.2]
          simp only [setAt_other _ _ _ _ hk]
          rw [hfh]
        · intro hb
          have hmod : ((s.file_handlers fd).num_sectors + 1) % 2^16
              = (s.file_handlers fd).num_sectors + 1 := Nat.mod_eq_of_lt (by omega)
          rw [hmod] at hguard h
          rw [← h.2]
          simp only [setAt_same]
          refine ⟨by omega, by omega, ?_⟩
          intro k hk
          exact setAt_other _ _ _ _ (by omega)
        · intro hM hT hcells hinv
          obtain ⟨hff, hs2⟩ := allocate_sector_some c s hM hT (t, j) s2 h2
          have hmod : ((s.file_handlers fd).num_sectors + 1) % 2^16
              = (s.file_handlers fd).num_sectors + 1 :=
            Nat.mod_eq_of_lt (by have := hinv.bound fd; omega)
          have hid : (t * c.FS3_TRACK_SIZE + j) % 2^16 = t * c.FS3_TRACK_SIZE + j := by
            apply Nat.mod_eq_of_lt
            obtain ⟨f1, f2, _⟩ := hff
            have : t * c.FS3_TRACK_SIZE + j < c.FS3_MAX_TRACKS * c.FS3_TRACK_SIZE := by
              calc t * c.FS3_TRACK_SIZE + j < t * c.FS3_TRACK_SIZE + c.FS3_TRACK_SIZE := by omega
                _ = (t + 1) * c.FS3_TRACK_SIZE := by ring
                _ ≤ c.FS3_MAX_TRACKS * c.FS3_TRACK_SIZE := Nat.mul_le_mul_right _ (by omega)
            omega
          rw [hmod] at hguard h
          rw [hid, Nat.add_sub_cancel] at h
          have := sinv_alloc c s fd t j hcells hinv hff (by omega)
          rw [← h.2, hs2]
          exact this
  · split at h
    · exact absurd h (by simp)
    · simp only [Option.some.injEq, Prod.mk.injEq] at h
      rw [← h.2]; exact wframe_refl c fd s

/-- Lines 588-659 of an iteration of `fs3_write`. -/
theorem fs3_write_sector_wframe (c : Consts) (env : Env) (fd : Nat) (buf : Nat → Nat)
    (l : WriteLocals) (s : State) (sid : Nat) :
    WFrame c fd s (fs3_write_sector c env fd buf l s sid).2 := by
  unfold fs3_write_sector
  split
  split
  · exact wframe_of_same c fd s _ (fun _ _ => rfl) rfl rfl rfl rfl
  · split
    split
    · exact wframe_of_same c fd s _ (fun _ _ => rfl) rfl rfl rfl rfl
    · split
      split
      · exact wframe_of_same c fd s _ (fun _ _ => rfl) rfl rfl rfl rfl
      · split
        split
        · exact wframe_of_same c fd s _ (fun _ _ => rfl) rfl rfl rfl rfl
        · refine wframe_of_same c fd s _ ?_ ?_ ?_ rfl rfl
          · intro k hk
            exact setAt_other _ _ _ _ hk
          · simp only [setAt_same, write_commit]
          · simp only [setAt_same, write_commit]

/-- One iteration of the loop of `fs3_write`. -/
theorem fs3_write_iter_wframe (c : Consts) (env : Env) (fd : Nat) (buf : Nat → Nat)
    (l : WriteLocals) (s : State) (r : Option WriteLocals) (s1 : State)
    (h : fs3_write_iter c env fd buf l s = some (r, s1)) : WFrame c fd s s1 := by
  unfold fs3_write_iter at h
  split at h
  · exact absurd h (by simp)
  · rename_i s2 h2
    simp only [Option.some.injEq, Prod.mk.injEq] at h
    rw [← h.2]; exact write_sector_id_wframe c s fd _ _ h2
  · rename_i sid s2 h2
    have hp := write_sector_id_wframe c s fd _ _ h2
    simp only [Option.some.injEq] at h
    have h3 := fs3_write_sector_wframe c env fd buf l s2 sid
    rw [h] at h3
    exact wframe_trans c fd s s2 s1 hp h3

/-- The loop of `fs3_write`. -/
theorem fs3_write_loop_wframe (c : Consts) (env : Env) (fd : Nat) (buf : Nat → Nat) :
    ∀ (fuel : Nat) (l : WriteLocals) (s : State) (r : Option WriteLocals) (s1 : State),
      fs3_write_loop c env fd buf fuel l s = some (r, s1) → WFrame c fd s s1 := by
  intro fuel
  induction fuel with
  | zero =>
    intro l s r s1 h
    unfold fs3_write_loop at h
    split at h
    · simp only [Option.some.injEq, Prod.mk.injEq] at h
      rw [← h.2]; exact wframe_refl c fd s
    · exact absurd h (by simp)
  | succ n ih =>
    intro l s r s1 h
    unfold fs3_write_loop at h
    split at h
    · simp only [Option.some.injEq, Prod.mk.injEq] at h
      rw [← h.2]; exact wframe_refl c fd s
    · split at h
      · exact absurd h (by simp)
      · rename_i s2 h2
        simp only [Option.some.injEq, Prod.mk.injEq] at h
        rw [← h.2]; exact fs3_write_iter_wframe c env fd buf l s _ _ h2
      · rename_i l2 s2 h2
        exact wframe_trans c fd s s2 s1 (fs3_write_iter_wframe c env fd buf l s _ _ h2)
          (ih _ _ _ _ h)

/-- Function `fs3_write`, whatever it returns. -/
theorem fs3_write_wframe (c : Consts) (env : Env) (s : State) (fd : Int) (buf : Nat → Nat)
    (count r : Int) (s1 : State) (h : fs3_write c env s fd buf count = some (r, s1)) :
    WFrame c fd.toNat s s1 := by
  unfold fs3_write at h
  split at h
  · simp only [Option.some.injEq, Prod.mk.injEq] at h
    rw [← h.2]; exact wframe_refl c _ s
  · split at h
    · simp only [Option.some.injEq, Prod.mk.injEq] at h
      rw [← h.2]; exact wframe_refl c _ s
    · split at h
      · exact absurd h (by simp)
      · rename_i s2 h2
        simp only [Option.some.injEq, Prod.mk.injEq] at h
        rw [← h.2]; exact fs3_write_loop_wframe c env _ buf _ _ _ _ _ h2
      · rename_i l2 s2 h2
        simp only [Option.some.injEq, Prod.mk.injEq] at h
        rw [← h.2]; exact fs3_write_loop_wframe c env _ buf _ _ _ _ _ h2

/-- Function `fs3_read`, whatever it returns. -/
theorem fs3_read_wframe (c : Consts) (env : Env) (s : State) (fd count r : Int)
    (bytes : List Nat) (s1 : State) (h : fs3_read c env s fd count = some (r, bytes, s1)) :
    WFrame c fd.toNat s s1 := by
  unfold fs3_read at h
  split at h
  · simp only [Option.some.injEq, Prod.mk.injEq] at h
    rw [← h.2.2]; exact wframe_refl c _ s
  · split at h
    · simp only [Option.some.injEq, Prod.mk.injEq] at h
      rw [← h.2.2]; exact wframe_refl c _ s
    · split at h
      · exact absurd h (by simp)
      · simp only [Option.some.injEq, Prod.mk.injEq] at h
        rw [← h.2.2]
        exact wframe_of_same c _ s _ (fun _ _ => rfl) rfl rfl rfl rfl
      · split at h
        · exact absurd h (by simp)
        · simp only [Option.some.injEq, Prod.mk.injEq] at h
          rw [← h.2.2]
          refine wframe_of_same c _ s _ ?_ ?_ ?_ rfl rfl
          · intro k hk
            exact setAt_other _ _ _ _ hk
          · simp only [setAt_same]
          · simp only [setAt_same]

/-- Function `fs3_seek`. -/
theorem fs3_seek_wframe (c : Consts) (s : State) (fd : Int) (loc : Nat) :
    WFrame c fd.toNat s (fs3_seek c s fd loc).2 := by
  unfold fs3_seek
  split
  · exact wframe_refl c _ s
  · split
    · exact wframe_refl c _ s
    · split
      · exact wframe_refl c _ s
      · refine wframe_of_same c _ s _ ?_ ?_ ?_ rfl rfl
        · intro k hk
          exact setAt_other _ _ _ _ hk
        · simp only [setAt_same]
        · simp only [setAt_same]

/-- Function `fs3_close`. -/
theorem fs3_close_wframe (c : Consts) (s : State) (fd : Int) :
    WFrame c fd.toNat s (fs3_close c s fd).2 := by
  unfold fs3_close
  split
  · exact wframe_refl c _ s
  · split
    · exact wframe_refl c _ s
    · refine wframe_of_same c _ s _ ?_ ?_ ?_ rfl rfl
      · intro k hk
        exact setAt_other _ _ _ _ hk
      · simp only [setAt_same]
      · simp only [setAt_same]

/-- A return inside the scan of `fs3_open` changes no sector list. -/
theorem fs3_open_scan_sectors (fh : Nat → file_t) (path : String) :
    ∀ (n i : Nat) (free_handle : Int) (r : Int) (fh1 : Nat → file_t),
      fs3_open_scan fh path n i free_handle = Sum.inl (r, fh1) →
      ∀ k, (fh1 k).sector_id = (fh k).sector_id
        ∧ (fh1 k).num_sectors = (fh k).num_sectors := by
  intro n
  induction n with
  | zero => intro i free_handle r fh1 h; unfold fs3_open_scan at h; exact absurd h (by simp)
  | succ n ih =>
    intro i free_handle r fh1 h
    unfold fs3_open_scan at h
    split at h
    · split at h
      · simp only [Sum.inl.injEq, Prod.mk.injEq] at h
        intro k; rw [← h.2]; exact ⟨rfl, rfl⟩
      · simp only [Sum.inl.injEq, Prod.mk.injEq] at h
        intro k; rw [← h.2]
        by_cases hk : k = i
        · subst hk; simp only [setAt_same, and_self]
        · simp only [setAt_other _ _ _ _ hk, and_self]
    · exact ih _ _ _ _ h

/-- Function `fs3_open` keeps `SInv`: a new entry starts with num_sectors = 0. -/
theorem fs3_open_sinv (c : Consts) (s : State) (path : String) (r : Int) (s1 : State)
    (h : fs3_open c s path = some (r, s1)) (hinv : SInv c s) : SInv c s1 := by
  unfold fs3_open at h
  split at h
  · rename_i r1 fh1 hscan
    simp only [Option.some.injEq, Prod.mk.injEq] at h
    have hp := fs3_open_scan_sectors _ _ _ _ _ _ _ hscan
    rw [← h.2]
    refine sinv_of_same c s _ ?_ rfl rfl hinv
    intro k
    exact ⟨(hp k).1, Nat.le_of_eq (hp k).2⟩
  · split at h
    · simp only [Option.some.injEq, Prod.mk.injEq] at h
      rw [← h.2]; exact hinv
    · split at h
      · exact absurd h (by simp)
      · simp only [Option.some.injEq, Prod.mk.injEq] at h
        rw [← h.2]
        refine sinv_of_same c s _ ?_ rfl rfl hinv
        intro k
        rename_i free_handle _ _ _
        by_cases hk : k = free_handle.toNat
        · subst hk
          simp only [setAt_same, true_and]; exact Nat.zero_le _
        · simp only [setAt_other _ _ _ _ hk, true_and]; exact Nat.le_refl _

/-- The start state satisfies `SInv`. -/
theorem sinv_init (c : Consts) : SInv c init_state := by
  refine ⟨?_, ?_, ?_, ?_⟩
  · intro h; simp [init_state, file_zero]
  · intro h k hk; simp [init_state, file_zero] at hk
  · intro h1 k1 h2 k2 hk1; simp [init_state, file_zero] at hk1
  · simp [init_state, used_set]

/-- Every reachable state satisfies `SInv`. -/
theorem reachable_sinv (c : Consts) (hM : c.FS3_MAX_TRACKS < 2^16)
    (hT : c.FS3_TRACK_SIZE < 2^16)
    (hcells : c.FS3_MAX_TRACKS * c.FS3_TRACK_SIZE ≤ 2^16)
    (s : State) (h : Reachable c s) : SInv c s := by
  induction h with
  | init => exact sinv_init c
  | step_mount s env _ ih =>
    exact sinv_of_same c s _ (fun _ => ⟨rfl, Nat.le_refl _⟩) rfl rfl ih
  | step_unmount s env _ ih =>
    exact sinv_of_same c s _ (fun _ => ⟨rfl, Nat.le_refl _⟩) rfl rfl ih
  | step_init_cache s _ ih =>
    exact sinv_of_same c s _ (fun _ => ⟨rfl, Nat.le_refl _⟩) rfl rfl ih
  | step_close_cache s _ ih =>
    exact sinv_of_same c s _ (fun _ => ⟨rfl, Nat.le_refl _⟩) rfl rfl ih
  | step_get_cache s trk sct _ ih =>
    exact sinv_of_same c s _ (fun _ => ⟨rfl, Nat.le_refl _⟩) rfl rfl ih
  | step_put_cache s trk sct buf _ ih =>
    exact sinv_of_same c s _ (fun _ => ⟨rfl, Nat.le_refl _⟩) rfl rfl ih
  | step_open s path r s1 _ ho ih => exact fs3_open_sinv c s path r s1 ho ih
  | step_close s fd _ ih => exact (fs3_close_wframe c s fd).inv hM hT hcells ih
  | step_seek s fd loc _ ih => exact (fs3_seek_wframe c s fd loc).inv hM hT hcells ih
  | step_read s env fd count r bytes s1 _ hr ih =>
    exact (fs3_read_wframe c env s fd count r bytes s1 hr).inv hM hT hcells ih
  | step_write s env fd buf count r s1 _ hw ih =>
    exact (fs3_write_wframe c env s fd buf count r s1 hw).inv hM hT hcells ih

/-! ## The sector list of 512 entries (fs3_driver.c, lines 46-53 and 573-586)

The array `sector_id` of a file entry has 512 elements.  Line 583 stores at index
`num_sectors - 1` after the increment of line 581, and no line compares `num_sectors` or
the position with 512 (the test of lines 559-562 is commented out).  The lemmas below
describe a write that stays within 512 sectors, and show that a write that goes beyond
them reaches the store at index 512, for which C defines no result. -/

/-- Function `fs3_write` within the capacity of the sector list.  For an open handle `h`
whose position lies within the allocated sectors (pos <= len <= num_sectors *
FS3_SECTOR_SIZE) and 0 <= count < 2^31: when every reply carries status success and `m`
further sectors cover the bytes up to pos + count, are free in the bitmap with `e` cells
to spare and fit the 512 entries of the sector list, the call returns `count`, the new
position is pos + count, the new length is max(len, pos + count), the position stays
within the allocated sectors, at most 512 sectors are listed and `e` cells are still
free. -/
theorem fs3_write_within_capacity (c : Consts) (env : Env) (s : State) (h : Nat)
    (b : Nat → Nat) (count m e : Nat)
    (hSS : c.FS3_SECTOR_SIZE < 2^16) (hM : c.FS3_MAX_TRACKS < 2^16)
    (hT : c.FS3_TRACK_SIZE < 2^16)
    (hh : h < MAX_FILES c)
    (hopen : (s.file_handlers h).file_state = FILE_OPEN)
    (hpl : (s.file_handlers h).pos ≤ (s.file_handlers h).len)
    (hlen : (s.file_handlers h).len
      ≤ (s.file_handlers h).num_sectors * c.FS3_SECTOR_SIZE)
    (hcount : count < 2^31)
    (hE : replies_ok env)
    (hcov : (s.file_handlers h).pos + count
      ≤ ((s.file_handlers h).num_sectors + m) * c.FS3_SECTOR_SIZE)
    (hfree : m + e ≤ (free_set c s.sector_usage).card)
    (hroom : (s.file_handlers h).num_sectors + m ≤ 512) :
    ∃ s1, fs3_write c env s (h : Int) b (count : Int) = some ((count : Int), s1)
      ∧ (s1.file_handlers h).pos = (s.file_handlers h).pos + count
      ∧ (s1.file_handlers h).len
          = max (s.file_handlers h).len ((s.file_handlers h).pos + count)
      ∧ (s1.file_handlers h).pos ≤ (s1.file_handlers h).num_sectors * c.FS3_SECTOR_SIZE
      ∧ (s1.file_handlers h).num_sectors ≤ 512
      ∧ e ≤ (free_set c s1.sector_usage).card := by
  have hu : toUInt 32 (count : Int) = count := toUInt_of_nat 32 count (by omega)
  have hacc : WAcc c h (s.file_handlers h).pos (s.file_handlers h).len count e m
      (write_locals_init env (count : Int)) s := by
    refine ⟨(by decide : status_of 0 ≠ FAIL), ?_, ?_, by omega, ?_, hfree, hroom⟩
    · simp [write_locals_init, hu]
    · omega
    · simp only [write_locals_init, hu]; exact hcov
  obtain ⟨l1, s1, m1, hloop, hz, hacc1⟩ :=
    write_loop_acc c env h b _ _ count e hSS hM hT hE count m
      (write_locals_init env (count : Int)) s hacc (by simp [write_locals_init, hu])
  have hsum := hacc1.sum
  rw [hz] at hsum
  have hfree1 := hacc1.free
  have hroom1 := hacc1.room
  refine ⟨s1, ?_, by omega, ?_, hacc1.within, by omega, by omega⟩
  · unfold fs3_write
    simp only [Int.toNat_ofNat]
    rw [if_neg (by omega), if_neg (by simp [hopen]), hu, hloop]
  · rw [hacc1.len_eq]; omega

/-- One iteration of the loop of `fs3_write` when the position lies within the allocated
sectors, below the end of the `m` further sectors that are free (with `e` cells to spare)
and fit the sector list: the iteration goes through, consumes at least one byte, and the
same holds afterwards with the sectors that are left. -/
theorem write_iter_step (c : Consts) (env : Env) (h : Nat) (b : Nat → Nat) (m e : Nat)
    (hSS : c.FS3_SECTOR_SIZE < 2^16) (hM : c.FS3_MAX_TRACKS < 2^16)
    (hT : c.FS3_TRACK_SIZE < 2^16) (hE : replies_ok env)
    (l : WriteLocals) (s : State)
    (hstatus : status_of l.ret_cmd_blk ≠ FAIL)
    (hwithin : (s.file_handlers h).pos
      ≤ (s.file_handlers h).num_sectors * c.FS3_SECTOR_SIZE)
    (hcap : (s.file_handlers h).pos
      < ((s.file_handlers h).num_sectors + m) * c.FS3_SECTOR_SIZE)
    (hfree : m + e ≤ (free_set c s.sector_usage).card)
    (hroom : (s.file_handlers h).num_sectors + m ≤ 512)
    (hpos : l.cur_count > 0) :
    ∃ l1 s2 m1, fs3_write_iter c env h b l s = some (some l1, s2)
      ∧ status_of l1.ret_cmd_blk ≠ FAIL
      ∧ (s2.file_handlers h).pos + l1.cur_count = (s.file_handlers h).pos + l.cur_count
      ∧ l1.cur_count < l.cur_count
      ∧ (s2.file_handlers h).pos ≤ (s2.file_handlers h).num_sectors * c.FS3_SECTOR_SIZE
      ∧ (s2.file_handlers h).num_sectors + m1 = (s.file_handlers h).num_sectors + m
      ∧ m1 + e ≤ (free_set c s2.sector_usage).card := by
  obtain ⟨sid, s1, m1, hws, hp1, hlen1, hns1, hfr1, hq1⟩ :=
    write_sector_id_general c s h m e hM hT hwithin hcap hfree hroom
  obtain ⟨l1, s2, hsec, hst⟩ := fs3_write_sector_ok c env h b l s1 sid hE hstatus
  have hiter : fs3_write_iter c env h b l s = some (some l1, s2) := by
    unfold fs3_write_iter
    rw [hws]
    simp only [hsec]
  obtain ⟨_, _, hl1c, _, hfh2, hus2, _, _⟩ :=
    fs3_write_sector_inv c env h b l l1 s1 s2 sid hsec
  rw [hp1] at hl1c hfh2
  obtain ⟨hcc0, hccle, hccq⟩ :=
    write_copy_count_bounds c hSS (s.file_handlers h).pos l.cur_count hpos
  have hnsSS : (s1.file_handlers h).num_sectors * c.FS3_SECTOR_SIZE
      ≤ 512 * c.FS3_SECTOR_SIZE := Nat.mul_le_mul_right _ (by omega)
  have hqSS : ((s.file_handlers h).pos / c.FS3_SECTOR_SIZE + 1) * c.FS3_SECTOR_SIZE
      ≤ (s1.file_handlers h).num_sectors * c.FS3_SECTOR_SIZE :=
    Nat.mul_le_mul_right _ (by omega)
  have hmod : ((s.file_handlers h).pos
        + write_copy_count c (s.file_handlers h).pos l.cur_count) % 2^64
      = (s.file_handlers h).pos
        + write_copy_count c (s.file_handlers h).pos l.cur_count :=
    Nat.mod_eq_of_lt (by omega)
  have hpos2 : (s2.file_handlers h).pos = (s.file_handlers h).pos
      + write_copy_count c (s.file_handlers h).pos l.cur_count := by
    rw [hfh2, setAt_same]; simp only [write_commit, hp1, hmod]
  have hns2 : (s2.file_handlers h).num_sectors = (s1.file_handlers h).num_sectors := by
    rw [hfh2, setAt_same]; rfl
  refine ⟨l1, s2, m1, hiter, hst, ?_, ?_, ?_, ?_, ?_⟩
  · rw [hpos2, hl1c]; omega
  · rw [hl1c]; omega
  · rw [hpos2, hns2]; omega
  · rw [hns2, hns1]
  · rw [hus2]; exact hfr1

/-- Lines 573-586 at a full sector list: with `num_sectors` = 512, a sector index of at
least 512 and a free cell, the allocation succeeds and the store
`sector_id[num_sectors - 1]` of line 583 has index 512, outside `sector_id[512]`:
no defined result. -/
theorem write_sector_id_full (c : Consts) (s : State) (fd : Nat)
    (hM : c.FS3_MAX_TRACKS < 2^16) (hT : c.FS3_TRACK_SIZE < 2^16)
    (hns : (s.file_handlers fd).num_sectors = 512)
    (hidx : 512 ≤ (s.file_handlers fd).pos / c.FS3_SECTOR_SIZE)
    (hidx2 : (s.file_handlers fd).pos / c.FS3_SECTOR_SIZE < 2^15)
    (hfree : 0 < (free_set c s.sector_usage).card) :
    write_sector_id c s fd = none := by
  obtain ⟨q, hqd⟩ : ∃ q, (s.file_handlers fd).pos / c.FS3_SECTOR_SIZE = q := ⟨_, rfl⟩
  rw [hqd] at hidx hidx2
  have h16 : toInt16 ((s.file_handlers fd).pos / c.FS3_SECTOR_SIZE) = (q : Int) := by
    rw [hqd]; exact toInt16_small q hidx2
  have hc1 : toInt16 ((s.file_handlers fd).pos / c.FS3_SECTOR_SIZE) + 1
      > ((s.file_handlers fd).num_sectors : Int) := by rw [h16, hns]; omega
  rcases allocate_sector_spec c s hM hT with ⟨t, j, hff, e⟩ | ⟨hfull, _⟩
  · unfold write_sector_id
    rw [if_pos hc1, e]
    simp only
    rw [hns, if_pos (Or.inr (by decide))]
  · exact absurd hfull (free_set_pos_not_full c _ hfree)

/-- The loop of `fs3_write` when the bytes left reach beyond 512 sectors, sectors are free
and every reply carries status success: the loop arrives at the full sector list with
bytes left, and has no defined result. -/
theorem write_loop_overflow (c : Consts) (env : Env) (h : Nat) (b : Nat → Nat)
    (hSS : c.FS3_SECTOR_SIZE < 2^16) (hM : c.FS3_MAX_TRACKS < 2^16)
    (hT : c.FS3_TRACK_SIZE < 2^16) (hE : replies_ok env) :
    ∀ (fuel : Nat) (l : WriteLocals) (s : State),
      status_of l.ret_cmd_blk ≠ FAIL →
      (s.file_handlers h).pos ≤ (s.file_handlers h).num_sectors * c.FS3_SECTOR_SIZE →
      (s.file_handlers h).num_sectors ≤ 512 →
      (512 - (s.file_handlers h).num_sectors) + 1 ≤ (free_set c s.sector_usage).card →
      512 * c.FS3_SECTOR_SIZE < (s.file_handlers h).pos + l.cur_count →
      l.cur_count ≤ fuel →
      fs3_write_loop c env h b fuel l s = none := by
  have hSSpos := c.sector_size_pos
  intro fuel
  induction fuel with
  | zero =>
    intro l s _ hwithin hns _ hover hle
    have : (s.file_handlers h).num_sectors * c.FS3_SECTOR_SIZE ≤ 512 * c.FS3_SECTOR_SIZE :=
      Nat.mul_le_mul_right _ hns
    omega
  | succ fuel ih =>
    intro l s hstatus hwithin hns hfree hover hle
    have hnsSS : (s.file_handlers h).num_sectors * c.FS3_SECTOR_SIZE
        ≤ 512 * c.FS3_SECTOR_SIZE := Nat.mul_le_mul_right _ hns
    have h0 : ¬ l.cur_count = 0 := by omega
    by_cases hlt : (s.file_handlers h).pos < 512 * c.FS3_SECTOR_SIZE
    · have h512 : (s.file_handlers h).num_sectors + (512 - (s.file_handlers h).num_sectors)
          = 512 := by omega
      obtain ⟨l1, s2, m1, hiter, hst, hsum, hdec, hw2, hns2, hfr2⟩ :=
        write_iter_step c env h b (512 - (s.file_handlers h).num_sectors) 1 hSS hM hT hE l s
          hstatus hwithin (by rw [h512]; exact hlt) hfree (by omega) (by omega)
      unfold fs3_write_loop
      rw [if_neg h0, hiter]
      exact ih l1 s2 hst hw2 (by omega) (by omega) (by omega) (by omega)
    · have hpe : (s.file_handlers h).pos = 512 * c.FS3_SECTOR_SIZE := by omega
      have hnse : (s.file_handlers h).num_sectors = 512 := by
        have : 512 * c.FS3_SECTOR_SIZE ≤ (s.file_handlers h).num_sectors * c.FS3_SECTOR_SIZE :=
          by omega
        have := Nat.le_of_mul_le_mul_right this hSSpos
        omega
      have hdiv : (s.file_handlers h).pos / c.FS3_SECTOR_SIZE = 512 := by
        rw [hpe]; exact Nat.mul_div_cancel _ hSSpos
      have hnone := write_sector_id_full c s h hM hT hnse (by rw [hdiv]) (by rw [hdiv]; decide)
        (by omega)
      unfold fs3_write_loop
      rw [if_neg h0]
      unfold fs3_write_iter
      rw [hnone]

/-- Function `fs3_write` when the write reaches beyond 512 sectors of the file while
sectors are free and every reply carries status success: no defined result. -/
theorem fs3_write_overflow (c : Consts) (env : Env) (s : State) (h : Nat) (b : Nat → Nat)
    (count : Nat)
    (hSS : c.FS3_SECTOR_SIZE < 2^16) (hM : c.FS3_MAX_TRACKS < 2^16)
    (hT : c.FS3_TRACK_SIZE < 2^16)
    (hh : h < MAX_FILES c)
    (hopen : (s.file_handlers h).file_state = FILE_OPEN)
    (hwithin : (s.file_handlers h).pos
      ≤ (s.file_handlers h).num_sectors * c.FS3_SECTOR_SIZE)
    (hns : (s.file_handlers h).num_sectors ≤ 512)
    (hfree : (512 - (s.file_handlers h).num_sectors) + 1 ≤ (free_set c s.sector_usage).card)
    (hE : replies_ok env) (hcount : count < 2^31)
    (hover : 512 * c.FS3_SECTOR_SIZE < (s.file_handlers h).pos + count) :
    fs3_write c env s (h : Int) b (count : Int) = none := by
  have hu : toUInt 32 (count : Int) = count := toUInt_of_nat 32 count (by omega)
  have hloop := write_loop_overflow c env h b hSS hM hT hE count
    (write_locals_init env (count : Int)) s (by decide : status_of 0 ≠ FAIL) hwithin hns hfree
    (by simp only [write_locals_init, hu]; exact hover) (by simp [write_locals_init, hu])
  unfold fs3_write
  simp only [Int.toNat_ofNat]
  rw [if_neg (by omega), if_neg (by simp [hopen]), hu, hloop]

/-- With an all-zero bitmap every cell of the geometry is free. -/
theorem free_set_card_zero (c : Consts) :
    (free_set c (fun _ _ => 0)).card = c.FS3_MAX_TRACKS * c.FS3_TRACK_SIZE := by
  simp [free_set]

/-- Function `fs3_open` for a path that no entry of the table holds: when the lowest
unassigned slot `k0` is below 2^15 (an `int16_t` value), the call returns `k0`, that entry
then has the path, num_sectors = 0, length 0, position 0 and state open, and every other
entry and the rest of the state are unchanged; when no slot is unassigned it returns -1
and changes nothing. -/
theorem fs3_open_new_path (c : Consts) (s : State) (path : String)
    (hno : ∀ k, k < MAX_FILES c → (s.file_handlers k).path ≠ some path) :
    (∀ k0, k0 < MAX_FILES c → k0 < 2^15 → (s.file_handlers k0).path = none →
        (∀ k, k < k0 → (s.file_handlers k).path ≠ none) →
        fs3_open c s path
          = some ((k0 : Int),
              { s with file_handlers := setAt s.file_handlers k0
                         { s.file_handlers k0 with
                             num_sectors := 0, len := 0, pos := 0, path := some path,
                             file_state := FILE_OPEN } }))
    ∧ ((∀ k, k < MAX_FILES c → (s.file_handlers k).path ≠ none) →
        fs3_open c s path = some (-1, s)) := by
  constructor
  · intro k0 hk0 h15 hnone hbefore
    have h16 := toInt16_small k0 h15
    have hscan := fs3_open_scan_first s.file_handlers path k0 hnone
      (by rw [h16]; omega) (MAX_FILES c) 0 (by omega) (by omega)
      (fun k _ hk => hno k (by omega)) (fun k _ hk => hbefore k hk)
    unfold fs3_open
    rw [hscan, h16]
    simp only
    rw [if_neg (by omega), if_neg (by omega)]
    simp only [Int.toNat_ofNat]
  · intro hfull
    have hscan := fs3_open_scan_full s.file_handlers path (MAX_FILES c) 0
      (fun k _ hk => ⟨hno k (by omega), hfull k (by omega)⟩)
    unfold fs3_open
    rw [hscan]
    simp only
    rw [if_pos trivial]

/-- Lines 573-586 of an iteration of `fs3_write` on a sector list with room.  For track
and sector counts and sector ids that fit the `uint16_t` variables, a sector index
`pos / FS3_SECTOR_SIZE` that fits the `int16_t` variable and `num_sectors` below 512: the
lines allocate nothing and leave the state unchanged when the sector index is below
`num_sectors`; otherwise they either fail on a full bitmap, leaving the state unchanged, or
mark and count the first free cell `(t, j)` and store `t * FS3_TRACK_SIZE + j` at index
`num_sectors` of the list, raising `num_sectors` by one.  And whenever `fs3_write` has a
result, `num_sectors` has not decreased and the first `num_sectors` elements of the list
are the same as before. -/
theorem write_sector_id_append (c : Consts) (s : State) (fd : Nat)
    (hM : c.FS3_MAX_TRACKS < 2^16) (hT : c.FS3_TRACK_SIZE < 2^16)
    (hcells : c.FS3_MAX_TRACKS * c.FS3_TRACK_SIZE ≤ 2^16)
    (hidx : (s.file_handlers fd).pos / c.FS3_SECTOR_SIZE < 2^15)
    (hns : (s.file_handlers fd).num_sectors < 512) :
    ((s.file_handlers fd).pos / c.FS3_SECTOR_SIZE < (s.file_handlers fd).num_sectors →
        write_sector_id c s fd
          = some (some ((s.file_handlers fd).sector_id
              ((s.file_handlers fd).pos / c.FS3_SECTOR_SIZE) % 2^16), s))
    ∧ ((s.file_handlers fd).num_sectors ≤ (s.file_handlers fd).pos / c.FS3_SECTOR_SIZE →
        (bitmap_full c s.sector_usage ∧ write_sector_id c s fd = some (none, s))
        ∨ ∃ t j, first_free c s.sector_usage t j
            ∧ write_sector_id c s fd
              = some (some (t * c.FS3_TRACK_SIZE + j),
                  { s with
                      sectors_used := (s.sectors_used + 1) % 2^32,
                      sector_usage := setAt s.sector_usage t (setAt (s.sector_usage t) j 1),
                      file_handlers := setAt s.file_handlers fd
                        { s.file_handlers fd with
                            num_sectors := (s.file_handlers fd).num_sectors + 1,
                            sector_id := setAt (s.file_handlers fd).sector_id
                              (s.file_handlers fd).num_sectors
                              (t * c.FS3_TRACK_SIZE + j) } }))
    ∧ (∀ (env : Env) (buf : Nat → Nat) (count r : Int) (s1 : State),
        fs3_write c env s (fd : Int) buf count = some (r, s1) →
        (s.file_handlers fd).num_sectors ≤ (s1.file_handlers fd).num_sectors
        ∧ ∀ k, k < (s.file_handlers fd).num_sectors →
            (s1.file_handlers fd).sector_id k = (s.file_handlers fd).sector_id k) := by
  obtain ⟨q, hqd⟩ : ∃ q, (s.file_handlers fd).pos / c.FS3_SECTOR_SIZE = q := ⟨_, rfl⟩
  rw [hqd] at hidx ⊢
  have h16 : toInt16 ((s.file_handlers fd).pos / c.FS3_SECTOR_SIZE) = (q : Int) := by
    rw [hqd]; exact toInt16_small q hidx
  refine ⟨?_, ?_, ?_⟩
  · intro hlt
    have hc1 : ¬ (toInt16 ((s.file_handlers fd).pos / c.FS3_SECTOR_SIZE) + 1
        > ((s.file_handlers fd).num_sectors : Int)) := by rw [h16]; omega
    have hc2 : ¬ (toInt16 ((s.file_handlers fd).pos / c.FS3_SECTOR_SIZE) < 0
        ∨ toInt16 ((s.file_handlers fd).pos / c.FS3_SECTOR_SIZE) ≥ 512) := by rw [h16]; omega
    unfold write_sector_id
    rw [if_neg hc1, if_neg hc2, h16]
    simp only [Int.toNat_ofNat]
  · intro hge
    have hc1 : toInt16 ((s.file_handlers fd).pos / c.FS3_SECTOR_SIZE) + 1
        > ((s.file_handlers fd).num_sectors : Int) := by rw [h16]; omega
    rcases allocate_sector_spec c s hM hT with ⟨t, j, hff, e⟩ | ⟨hfull, e⟩
    · refine Or.inr ⟨t, j, hff, ?_⟩
      have hmod : ((s.file_handlers fd).num_sectors + 1) % 2^16
          = (s.file_handlers fd).num_sectors + 1 := Nat.mod_eq_of_lt (by omega)
      have hid : (t * c.FS3_TRACK_SIZE + j) % 2^16 = t * c.FS3_TRACK_SIZE + j := by
        apply Nat.mod_eq_of_lt
        obtain ⟨f1, f2, _⟩ := hff
        have : t * c.FS3_TRACK_SIZE + j < c.FS3_MAX_TRACKS * c.FS3_TRACK_SIZE := by
          calc t * c.FS3_TRACK_SIZE + j < t * c.FS3_TRACK_SIZE + c.FS3_TRACK_SIZE := by omega
            _ = (t + 1) * c.FS3_TRACK_SIZE := by ring
            _ ≤ c.FS3_MAX_TRACKS * c.FS3_TRACK_SIZE := Nat.mul_le_mul_right _ (by omega)
        omega
      unfold write_sector_id
      rw [if_pos hc1, e]
      simp only
      rw [hmod, if_neg (by omega), hid, Nat.add_sub_cancel]
    · refine Or.inl ⟨hfull, ?_⟩
      unfold write_sector_id
      rw [if_pos hc1, e]
  · intro env buf count r s1 hw
    have hf := fs3_write_wframe c env s (fd : Int) buf count r s1 hw
    simp only [Int.toNat_ofNat] at hf
    obtain ⟨g1, _, g3⟩ := hf.grows (by omega)
    exact ⟨g1, g3⟩

/-- Frame of the calls that have a result.  For every handle value `fd` and every entry
`k` other than `fd`: every result of `fs3_read` and of `fs3_write` on `fd`, and the states
after `fs3_seek` and `fs3_close` on `fd`, have entry `k` of the file table as it was. -/
theorem file_entries_frame (c : Consts) (env : Env) (s : State) (fd : Int) (k : Nat)
    (hk : (k : Int) ≠ fd) :
    (∀ (count r : Int) (out : List Nat) (s1 : State),
        fs3_read c env s fd count = some (r, out, s1) →
        s1.file_handlers k = s.file_handlers k)
    ∧ (∀ (buf : Nat → Nat) (count r : Int) (s1 : State),
        fs3_write c env s fd buf count = some (r, s1) →
        s1.file_handlers k = s.file_handlers k)
    ∧ (∀ loc, (fs3_seek c s fd loc).2.file_handlers k = s.file_handlers k)
    ∧ (fs3_close c s fd).2.file_handlers k = s.file_handlers k := by
  by_cases hneg : fd < 0
  · refine ⟨?_, ?_, ?_, ?_⟩
    · intro count r out s1 h
      unfold fs3_read at h
      rw [if_pos (Or.inl hneg)] at h
      simp only [Option.some.injEq, Prod.mk.injEq] at h
      rw [← h.2.2]
    · intro buf count r s1 h
      unfold fs3_write at h
      rw [if_pos (Or.inl hneg)] at h
      simp only [Option.some.injEq, Prod.mk.injEq] at h
      rw [← h.2]
    · intro loc
      unfold fs3_seek
      rw [if_pos (Or.inl hneg)]
    · unfold fs3_close
      rw [if_pos (Or.inl hneg)]
  · have hkn : k ≠ fd.toNat := by omega
    exact ⟨fun count r out s1 h => (fs3_read_wframe c env s fd count r out s1 h).others k hkn,
      fun buf count r s1 h => (fs3_write_wframe c env s fd buf count r s1 h).others k hkn,
      fun loc => (fs3_seek_wframe c s fd loc).others k hkn,
      (fs3_close_wframe c s fd).others k hkn⟩

/-- In the environment `env_ok` every reply carries status success. -/
theorem replies_ok_env_ok : replies_ok env_ok :=
  fun _ => (by decide : status_of (0 % 2^64) ≠ FAIL)

/-- No entry of `demo_open` has the path "g". -/
theorem demo_open_no_g (k : Nat) : (demo_open.file_handlers k).path ≠ some "g" := by
  by_cases hk : k = 0
  · subst hk; decide
  · simp [demo_open, init_state, setAt, hk, file_zero]

/-- The state `demo_open` is reachable with the constants `geometry64`: it is the state
after `fs3_mount_disk()` and `fs3_open("f")`. -/
theorem geometry64_open_reachable : Reachable geometry64 demo_open :=
  Reachable.step_open (fs3_mount_disk geometry64 env_ok init_state).2 "f" 0 demo_open
    (Reachable.step_mount init_state env_ok Reachable.init)
    ((fs3_open_new_path geometry64 (fs3_mount_disk geometry64 env_ok init_state).2 "f"
      (fun k _ => by simp [fs3_mount_disk, init_state, file_zero])).1 0 (by decide) (by decide)
      (by simp [fs3_mount_disk, init_state, file_zero]) (fun k hk => absurd hk (by omega)))

/-- The state `demo_two_files` is reachable with the constants `geometry64`: it is the
state after `fs3_open("g")` in `demo_open`. -/
theorem geometry64_two_files_reachable : Reachable geometry64 demo_two_files :=
  Reachable.step_open demo_open "g" 1 demo_two_files geometry64_open_reachable
    ((fs3_open_new_path geometry64 demo_open "g" (fun k _ => demo_open_no_g k)).1 1
      (by decide) (by decide) (by decide)
      (fun k hk => by
        have hk0 : k = 0 := by omega
        subst hk0; decide))

/-! ## Claims -/

/-- C1: codec round trip.  For every opcode below 2^4, sector below 2^16, track below
2^32 and status below 2, decoding the encoded block gives back exactly the four fields. -/
theorem C1_codec_round_trip (op sec trk ret : Nat) (ho : op < 2^4) (hs : sec < 2^16)
    (ht : trk < 2^32) (hr : ret < 2) :
    deconstruct_fs3_cmdblock (construct_fs3_cmdblock op sec trk ret)
      = (op, sec, trk, ret) := by
  rw [construct_eq_sum op sec trk ret ho hs ht hr, deconstruct_eq_divmod]
  refine Prod.ext ?_ (Prod.ext ?_ (Prod.ext ?_ ?_)) <;> simp only <;> omega

/-- Witness of C1 at the block of a sector read of sector 7 on track 3. -/
theorem C1_codec_round_trip_witness :
    deconstruct_fs3_cmdblock (construct_fs3_cmdblock 2 7 3 0) = (2, 7, 3, 0) :=
  C1_codec_round_trip 2 7 3 0 (by decide) (by decide) (by decide) (by decide)

/-- C2 (counterexample): on the demo geometry, with every sector in use, slot 1 holds a
freshly opened new file; `fs3_write(1, {10, 20, 30}, 3)` finds no free sector and returns
-1, and the following `fs3_seek(1, 0)`, `fs3_read(1, buf, 3)` returns 1 with the byte 0,
not 3 with the bytes written.  No transport exchange fails and no cache entry of the file
is evicted. -/
theorem C2_write_read_counterexample :
    ((demo_full.file_handlers 1).path, (demo_full.file_handlers 1).file_state,
      (demo_full.file_handlers 1).num_sectors, (demo_full.file_handlers 1).len,
      (demo_full.file_handlers 1).pos) = (some "g", FILE_OPEN, 0, 0, 0)
    ∧ (fs3_write demo env_ok demo_full 1 bytes3 3).map Prod.fst = some (-1)
    ∧ write_seek_read demo env_ok demo_full 1 bytes3 3 = some (1, [0])
    ∧ write_seek_read demo env_ok demo_full 1 bytes3 3 ≠ some (3, [10, 20, 30]) := by
  decide

/-- C2 (amended): write/read round trip.  For a geometry with sectors below 2^16 bytes,
at most 1024 sectors per track, fewer than 2^16 tracks and at most 2^16 sectors in all,
in a state whose cache holds at most one node per identifier: for a freshly opened new
file `h` (open, no sectors, length 0, position 0) and every byte sequence `b` of length
`n` with `1 <= n <= 65536`, when `m <= 512` sectors cover the `n` bytes and are free in the
bitmap, every reply of the server carries status success, and every sector of the file is
in the cache after the write (none was evicted): `fs3_write(h, b, n)` returns `n`,
`fs3_seek(h, 0)` returns 0 and `fs3_read(h, buf, n)` returns `n` and stores exactly
`b`. -/
theorem C2_write_read_round_trip (c : Consts) (env : Env) (s : State) (h : Nat)
    (b : List Nat) (m : Nat)
    (hSS : c.FS3_SECTOR_SIZE < 2^16) (hTS : c.FS3_TRACK_SIZE ≤ 1024)
    (hM : c.FS3_MAX_TRACKS < 2^16)
    (hcells : c.FS3_MAX_TRACKS * c.FS3_TRACK_SIZE ≤ 2^16)
    (hn1 : 1 ≤ b.length) (hn : b.length ≤ 65536)
    (hh : h < MAX_FILES c)
    (hopen : (s.file_handlers h).file_state = FILE_OPEN)
    (hns : (s.file_handlers h).num_sectors = 0)
    (hlen : (s.file_handlers h).len = 0) (hpos : (s.file_handlers h).pos = 0)
    (hnd : (cache_ids s.cache.nodes).Nodup)
    (hE : replies_ok env)
    (hcov : b.length ≤ m * c.FS3_SECTOR_SIZE) (hm : m ≤ 512)
    (hfree : m ≤ (free_set c s.sector_usage).card)
    (hcached : ∀ s1, fs3_write c env s (h : Int) (fun k => b.getD k 0) (b.length : Int)
        = some ((b.length : Int), s1) →
      ∀ k, k * c.FS3_SECTOR_SIZE < b.length →
        find_node (file_cache_id c (s1.file_handlers h) k) s1.cache.nodes ≠ none) :
    ∃ s1, fs3_write c env s (h : Int) (fun k => b.getD k 0) (b.length : Int)
        = some ((b.length : Int), s1)
      ∧ (fs3_seek c s1 (h : Int) 0).1 = 0
      ∧ ∃ s3, fs3_read c env (fs3_seek c s1 (h : Int) 0).2 (h : Int) (b.length : Int)
          = some ((b.length : Int), b, s3) := by
  obtain ⟨s1, hw⟩ := fs3_write_fresh_ok c env s h (fun k => b.getD k 0) b.length m
    hSS hTS hM hcells hn hh hopen hns hlen hpos hnd hE hcov hm hfree
  obtain ⟨h1, h2⟩ := round_trip c env s s1 h b hSS hTS hM hcells hn1 hn hopen hns hlen hpos
    hnd hw (hcached s1 hw)
  exact ⟨s1, hw, h1, h2⟩

/-- Witness of C2 (amended) on the demo geometry: twelve bytes, two sectors, written to
the fresh file of `demo_open` and read back. -/
theorem C2_write_read_round_trip_witness :
    ∃ s1, fs3_write demo env_ok demo_open 0 (fun k => bytes12.getD k 0) 12 = some (12, s1)
      ∧ (fs3_seek demo s1 0 0).1 = 0
      ∧ ∃ s3, fs3_read demo env_ok (fs3_seek demo s1 0 0).2 0 12
          = some (12, [1, 2, 3, 4, 5, 6, 7, 8, 9, 10, 11, 12], s3) :=
  C2_write_read_round_trip demo env_ok demo_open 0 bytes12 2
    (by decide) (by decide) (by decide) (by decide) (by decide) (by decide) (by decide)
    (by decide) (by decide) (by decide) (by decide) (by decide)
    (fun _ => (by decide : status_of (0 % 2^64) ≠ FAIL))
    (by decide) (by decide) (by decide)
    (fun s1 hs1 k hk => by
      have hs : s1 = demo_written12 := by
        have := demo_written12_eq.symm.trans hs1
        simp only [Option.some.injEq, Prod.mk.injEq] at this
        exact this.2.symm
      subst hs
      have hk2 : k < 2 := by
        have : k * 8 < 12 := hk
        omega
      interval_cases k <;> decide)

/-- C4: reopen semantics.  In every reachable state, for every open handle `h` (an
`int16_t` value inside the table) whose entry has path `path`, `fs3_close(h)` succeeds
and the following `fs3_open(path)` returns `h`; the entry then has the sector list, the
number of sectors and the length it had before the close, position 0 and state open. -/
theorem C4_reopen (c : Consts) (s : State) (h : Nat) (path : String)
    (hr : Reachable c s) (hh : h < MAX_FILES c) (h15 : h < 2^15)
    (hp : (s.file_handlers h).path = some path)
    (ho : (s.file_handlers h).file_state = FILE_OPEN) :
    (fs3_close c s (h : Int)).1 = 0
    ∧ ∃ s1, fs3_open c (fs3_close c s (h : Int)).2 path = some ((h : Int), s1)
      ∧ (s1.file_handlers h).sector_id = (s.file_handlers h).sector_id
      ∧ (s1.file_handlers h).num_sectors = (s.file_handlers h).num_sectors
      ∧ (s1.file_handlers h).len = (s.file_handlers h).len
      ∧ (s1.file_handlers h).pos = 0
      ∧ (s1.file_handlers h).file_state = FILE_OPEN := by
  have hu := reachable_paths_unique c s hr
  have hclose : fs3_close c s (h : Int) =
      (0, { s with file_handlers := setAt s.file_handlers h
                     { s.file_handlers h with pos := 0, file_state := FILE_CLOSE } }) := by
    unfold fs3_close
    rw [if_neg (by omega), if_neg (by simp [ho])]
    simp only [Int.toNat_ofNat]
  rw [hclose]
  refine ⟨rfl, ?_⟩
  have hscan := fs3_open_scan_match
    (setAt s.file_handlers h { s.file_handlers h with pos := 0, file_state := FILE_CLOSE })
    path (MAX_FILES c) 0 (-1) h (Nat.zero_le h) (by omega)
    (fun k _ hk hk2 => by
      rw [setAt_other _ _ _ _ (by omega)] at hk2
      have := hu k h path (by omega) hh hk2 hp
      omega)
    (by rw [setAt_same]; exact hp)
  rw [setAt_same, if_neg (by simp [FILE_CLOSE, FILE_OPEN]), toInt16_small h h15] at hscan
  unfold fs3_open
  simp only [hscan]
  exact ⟨_, rfl, by simp only [setAt_same], by simp only [setAt_same],
    by simp only [setAt_same], by simp only [setAt_same], by simp only [setAt_same]⟩

/-- Witness of C4 on the demo geometry: the file of three bytes of `demo_written`. -/
theorem C4_reopen_witness :
    (fs3_close demo demo_written 0).1 = 0
    ∧ ∃ s1, fs3_open demo (fs3_close demo demo_written 0).2 "f" = some (0, s1)
      ∧ (s1.file_handlers 0).sector_id = (demo_written.file_handlers 0).sector_id
      ∧ (s1.file_handlers 0).num_sectors = (demo_written.file_handlers 0).num_sectors
      ∧ (s1.file_handlers 0).len = (demo_written.file_handlers 0).len
      ∧ (s1.file_handlers 0).pos = 0
      ∧ (s1.file_handlers 0).file_state = FILE_OPEN :=
  C4_reopen demo demo_written 0 "f" demo_written_reachable (by decide) (by decide)
    (by decide) (by decide)

/-- C5: double-open rejection.  In every reachable state in which some entry has path
`path` and is open, `fs3_open(path)` returns -1 and leaves the state, in particular the
whole file table, unchanged. -/
theorem C5_double_open (c : Consts) (s : State) (path : String) (i : Nat)
    (hr : Reachable c s) (hi : i < MAX_FILES c)
    (hp : (s.file_handlers i).path = some path)
    (ho : (s.file_handlers i).file_state = FILE_OPEN) :
    fs3_open c s path = some (-1, s) := by
  have hu := reachable_paths_unique c s hr
  have hscan := fs3_open_scan_match s.file_handlers path (MAX_FILES c) 0 (-1) i
    (Nat.zero_le i) (by omega)
    (fun k _ hk hk2 => by
      have := hu k i path (by omega) hi hk2 hp
      omega)
    hp
  rw [if_pos ho] at hscan
  unfold fs3_open
  simp only [hscan]

/-- Witness of C5 on the demo geometry: a second `fs3_open("f")` in `demo_open`. -/
theorem C5_double_open_witness : fs3_open demo demo_open "f" = some (-1, demo_open) :=
  C5_double_open demo demo_open "f" 0 demo_open_reachable (by decide) rfl rfl

/-- C7: seek boundary.  `fs3_seek(fd, loc)` returns 0 exactly when `fd` is in range, the
entry is open and `loc` is at most the length of the file; it then changes nothing but
the position of that entry, which becomes `loc`; otherwise it returns -1 and leaves the
state unchanged.  So a seek to the length succeeds and a seek to the length plus one
fails. -/
theorem C7_seek_boundary (c : Consts) (s : State) (fd : Int) (loc : Nat) :
    ((fs3_seek c s fd loc).1 = 0 ↔ seek_ok c s fd loc)
    ∧ (seek_ok c s fd loc →
        (fs3_seek c s fd loc).2 =
          { s with file_handlers :=
                     setAt s.file_handlers fd.toNat { s.file_handlers fd.toNat with pos := loc } })
    ∧ (¬ seek_ok c s fd loc → fs3_seek c s fd loc = (-1, s))
    ∧ (seek_ok c s fd 0 →
        (fs3_seek c s fd (s.file_handlers fd.toNat).len).1 = 0
        ∧ (fs3_seek c s fd ((s.file_handlers fd.toNat).len + 1)).1 = -1) := by
  refine ⟨?_, fun h => by rw [fs3_seek_of_ok c s fd loc h], fs3_seek_of_not_ok c s fd loc, ?_⟩
  · by_cases h : seek_ok c s fd loc
    · rw [fs3_seek_of_ok c s fd loc h]; exact ⟨fun _ => h, fun _ => rfl⟩
    · rw [fs3_seek_of_not_ok c s fd loc h]
      exact ⟨fun h0 => by simp at h0, fun h1 => absurd h1 h⟩
  · intro h
    obtain ⟨h0, h1, h2, _⟩ := h
    rw [fs3_seek_of_ok c s fd _ ⟨h0, h1, h2, Nat.le_refl _⟩,
      fs3_seek_of_not_ok c s fd _ (fun hk => by have := hk.2.2.2; omega)]
    exact ⟨rfl, rfl⟩

/-- C3: LRU eviction.  With capacity `C >= 1`: when the cache holds exactly `C` entries
and the key is not present, `fs3_put_cache` returns 0, removes exactly the list head,
keeps the other entries in their order and appends the new entry at the tail.  With
capacity 2 and three keys with distinct identifiers, from the empty cache: insert A,
insert B, lookup A, insert C leaves exactly A and C; lookup A before the insertion is a
hit, lookup B afterwards is a miss, lookup A and lookup C are hits with their data. -/
theorem C3_lru_eviction (c : Consts) (hC : 1 ≤ c.FS3_DEFAULT_CACHE_SIZE) :
    (∀ (ch : Cache) (trk sct : Nat) (buf : Nat → Nat),
        ch.nodes.length = c.FS3_DEFAULT_CACHE_SIZE →
        fs3_get_cache_node ch.nodes trk sct = none →
        ∃ head rest, ch.nodes = head :: rest
          ∧ (fs3_put_cache c ch trk sct buf).1 = 0
          ∧ (fs3_put_cache c ch trk sct buf).2.nodes = rest ++ [new_node c trk sct buf])
    ∧ (c.FS3_DEFAULT_CACHE_SIZE = 2 →
        ∀ (ch : Cache) (tA sA tB sB tC sC : Nat) (dA dB dC : Nat → Nat),
          ch.nodes = [] →
          cache_sector_id tA sA ≠ cache_sector_id tB sB →
          cache_sector_id tA sA ≠ cache_sector_id tC sC →
          cache_sector_id tB sB ≠ cache_sector_id tC sC →
          lru_scenario c ch tA sA tB sB tC sC dA dB dC
            = (some (new_node c tA sA dA).sector_data, none,
               some (new_node c tA sA dA).sector_data,
               some (new_node c tC sC dC).sector_data,
               [new_node c tA sA dA, new_node c tC sC dC])) := by
  constructor
  · intro ch trk sct buf hlen habs
    rw [fs3_put_cache_absent_full c ch trk sct buf habs (by omega)]
    cases hn : ch.nodes with
    | nil => rw [hn] at hlen; simp at hlen; omega
    | cons head rest => exact ⟨head, rest, rfl, rfl, by simp⟩
  · intro h2 ch tA sA tB sB tC sC dA dB dC hnil hAB hAC hBC
    have hBA : cache_sector_id tB sB ≠ cache_sector_id tA sA := fun h => hAB h.symm
    have hCA : cache_sector_id tC sC ≠ cache_sector_id tA sA := fun h => hAC h.symm
    have hCB : cache_sector_id tC sC ≠ cache_sector_id tB sB := fun h => hBC h.symm
    obtain ⟨nodes, k1, k2, k3, k4⟩ := ch
    simp only at hnil
    subst hnil
    simp [lru_scenario, fs3_put_cache, fs3_get_cache, fs3_get_cache_node_eq, find_node,
      new_node, h2, get_cache_size, insert_tail, insert_node_to_tail, delete_head,
      move_node_to_tail, hAB, hAC, hBC, hBA, hCA, hCB]

/-- Witness of C3 on the demo geometry (capacity 2) with the sectors (0,0), (0,1), (0,2)
and the empty cache. -/
theorem C3_lru_eviction_witness :
    lru_scenario demo ⟨[], 0, 0, 0, 0⟩ 0 0 0 1 0 2 (fun _ => 1) (fun _ => 2) (fun _ => 3)
      = (some (new_node demo 0 0 (fun _ => 1)).sector_data, none,
         some (new_node demo 0 0 (fun _ => 1)).sector_data,
         some (new_node demo 0 2 (fun _ => 3)).sector_data,
         [new_node demo 0 0 (fun _ => 1), new_node demo 0 2 (fun _ => 3)]) :=
  (C3_lru_eviction demo (by decide)).2 rfl ⟨[], 0, 0, 0, 0⟩ 0 0 0 1 0 2
    (fun _ => 1) (fun _ => 2) (fun _ => 3) rfl (by decide) (by decide) (by decide)

/-- C6: allocation order.  An allocation is `get_free_sector` followed by the store
`sector_usage[track][sector] = TRUE` of its caller (lines 576-580 of `fs3_write`).  With
track and sector counts that fit the `uint16_t` loop counters: on an empty bitmap with at
least three cells, three consecutive allocations succeed, the first returns (0,0) and
each returns a cell strictly later in row-major order than the one before; and for every
bitmap, a successful allocation marks the cell it returns as used and increments the
used counter, and the next successful allocation returns a strictly later cell. -/
theorem C6_allocation_order (c : Consts) (s : State)
    (hM : c.FS3_MAX_TRACKS < 2^16) (hT : c.FS3_TRACK_SIZE < 2^16) :
    (3 ≤ c.FS3_MAX_TRACKS * c.FS3_TRACK_SIZE → (∀ t j, s.sector_usage t j = 0) →
      ∃ a2 a3 s1 s2 s3,
        allocate_sector c s = some (some (0, 0), s1)
        ∧ allocate_sector c s1 = some (some a2, s2)
        ∧ allocate_sector c s2 = some (some a3, s3)
        ∧ row_major_lt (0, 0) a2 ∧ row_major_lt a2 a3)
    ∧ (∀ (a : Nat × Nat) (s1 : State), allocate_sector c s = some (some a, s1) →
        s1.sector_usage a.1 a.2 = 1
        ∧ s1.sectors_used = (s.sectors_used + 1) % 2^32
        ∧ ∀ (b : Nat × Nat) (s2 : State), allocate_sector c s1 = some (some b, s2) →
            row_major_lt a b) := by
  constructor
  · intro h3 hempty
    have hTS := c.track_size_pos
    have hMT : 0 < c.FS3_MAX_TRACKS := by
      rcases Nat.eq_zero_or_pos c.FS3_MAX_TRACKS with h | h
      · rw [h] at h3; simp at h3
      · exact h
    -- first allocation
    obtain ⟨a1, s1, h1⟩ := allocate_sector_of_free c s hM hT 0 0 hMT hTS (hempty 0 0)
    obtain ⟨hf1, hs1⟩ := allocate_sector_some c s hM hT a1 s1 h1
    have ha1 : a1 = (0, 0) := by
      obtain ⟨f1, f2, f3, f4, f5⟩ := hf1
      have e1 : a1.1 = 0 := by
        by_contra hne
        exact f5 0 (by omega) 0 hTS (hempty 0 0)
      have e2 : a1.2 = 0 := by
        by_contra hne
        exact f4 0 (by omega) (hempty _ _)
      exact Prod.ext e1 e2
    subst ha1
    have hu1 : ∀ t1 j1, s1.sector_usage t1 j1 = if t1 = 0 ∧ j1 = 0 then 1 else 0 := by
      intro t1 j1; rw [hs1]
      have := usage_after_mark s.sector_usage 0 0 t1 j1
      simp only at this ⊢
      rw [this, hempty]
    -- second allocation: cell 1 is free
    obtain ⟨r1a, r1b⟩ := cell_in_range c 1 (by omega)
    have hfree1 : s1.sector_usage (1 / c.FS3_TRACK_SIZE) (1 % c.FS3_TRACK_SIZE) = 0 := by
      rw [hu1, if_neg]
      intro hh
      have := cell_inj c 1 0 (by rw [hh.1]; simp) (by rw [hh.2]; simp)
      omega
    obtain ⟨a2, s2, h2⟩ := allocate_sector_of_free c s1 hM hT _ _ r1a r1b hfree1
    obtain ⟨hf2, hs2⟩ := allocate_sector_some c s1 hM hT a2 s2 h2
    have hu2 : ∀ t1 j1, s2.sector_usage t1 j1
        = if t1 = a2.1 ∧ j1 = a2.2 then 1 else s1.sector_usage t1 j1 := by
      intro t1 j1; rw [hs2]; exact usage_after_mark _ _ _ _ _
    -- third allocation: cell 1 or cell 2 is free
    obtain ⟨r2a, r2b⟩ := cell_in_range c 2 (by omega)
    have hfree2 : ∃ t j, t < c.FS3_MAX_TRACKS ∧ j < c.FS3_TRACK_SIZE
        ∧ s2.sector_usage t j = 0 := by
      by_cases hcase : a2 = (1 / c.FS3_TRACK_SIZE, 1 % c.FS3_TRACK_SIZE)
      · refine ⟨_, _, r2a, r2b, ?_⟩
        rw [hu2, if_neg, hu1, if_neg]
        · intro hh
          have := cell_inj c 2 0 (by rw [hh.1]; simp) (by rw [hh.2]; simp)
          omega
        · intro hh
          rw [hcase] at hh
          have := cell_inj c 2 1 hh.1 hh.2
          omega
      · refine ⟨_, _, r1a, r1b, ?_⟩
        rw [hu2, if_neg, hfree1]
        intro hh
        exact hcase (Prod.ext hh.1.symm hh.2.symm)
    obtain ⟨t, j, ht, hj, hfree⟩ := hfree2
    obtain ⟨a3, s3, h3a⟩ := allocate_sector_of_free c s2 hM hT t j ht hj hfree
    exact ⟨a2, a3, s1, s2, s3, h1, h2, h3a,
      (allocate_sector_next c s hM hT _ s1 h1).2 a2 s2 h2,
      (allocate_sector_next c s1 hM hT a2 s2 h2).2 a3 s3 h3a⟩
  · intro a s1 h
    obtain ⟨_, hs⟩ := allocate_sector_some c s hM hT a s1 h
    obtain ⟨h1, h2⟩ := allocate_sector_next c s hM hT a s1 h
    exact ⟨h1, by rw [hs], h2⟩

/-- Witness of C6 on the demo geometry (2 tracks of 4 sectors) at program start. -/
theorem C6_allocation_order_witness :
    ∃ a2 a3 s1 s2 s3,
      allocate_sector demo init_state = some (some (0, 0), s1)
      ∧ allocate_sector demo s1 = some (some a2, s2)
      ∧ allocate_sector demo s2 = some (some a3, s3)
      ∧ row_major_lt (0, 0) a2 ∧ row_major_lt a2 a3 :=
  (C6_allocation_order demo init_state (by decide) (by decide)).1 (by decide)
    (fun _ _ => rfl)

/-- C8 (the code at the failing input): in `demo_written` the file has length 3 and
position 3.  `fs3_read(0, buf, 5)` at the end of the file returns 1 byte, not 0, and moves
the position to 4; after `fs3_seek(0, 0)`, `fs3_read(0, buf, 5)` returns 4 bytes, not
min(5, 3) = 3. -/
theorem C8_read_clamp_off_by_one :
    ((demo_written.file_handlers 0).pos, (demo_written.file_handlers 0).len) = (3, 3)
    ∧ (fs3_read demo env_ok demo_written 0 5).map
          (fun x => (x.1, x.2.1, (x.2.2.file_handlers 0).pos)) = some (1, [10], 4)
    ∧ (fs3_read demo env_ok (fs3_seek demo demo_written 0 0).2 0 5).map
          (fun x => (x.1, x.2.1, (x.2.2.file_handlers 0).pos))
        = some (4, [10, 20, 30, 0], 4) := by
  decide

/-- C9 (the code at the failing input): the state after `fs3_open("f")` and
`fs3_read(0, buf, 1)` from program start is reachable, and its entry 0 has length 0 and
position 1; the same holds when `fs3_mount_disk()` is called first. -/
theorem C9_position_exceeds_length :
    (Reachable demo demo_read_empty_unmounted
      ∧ (demo_read_empty_unmounted.file_handlers 0).len = 0
      ∧ (demo_read_empty_unmounted.file_handlers 0).pos = 1)
    ∧ (Reachable demo demo_read_empty
      ∧ (demo_read_empty.file_handlers 0).len = 0
      ∧ (demo_read_empty.file_handlers 0).pos = 1) :=
  ⟨⟨Reachable.step_read demo_open_unmounted env_ok 0 1 1 [0] demo_read_empty_unmounted
      demo_open_unmounted_reachable demo_read_empty_unmounted_eq, by decide, by decide⟩,
   ⟨Reachable.step_read demo_open env_ok 0 1 1 [0] demo_read_empty demo_open_reachable
      demo_read_empty_eq, by decide, by decide⟩⟩

/-- C10 (the code at the failing input): in `demo_written` the cached sector of the file
starts with the bytes 10, 20, 30.  After `fs3_seek(0, 1)`, `fs3_read(0, buf, 2)` is served
from the cache and returns the bytes 10, 20 of offsets 0 and 1, not the bytes 20, 30 of
offsets 1 and 2. -/
theorem C10_cache_hit_copies_from_offset_zero :
    demo_written.cache.nodes.map (fun n => (List.range 3).map n.sector_data) = [[10, 20, 30]]
    ∧ ((fs3_seek demo demo_written 0 1).2.file_handlers 0).pos = 1
    ∧ (fs3_read demo env_ok (fs3_seek demo demo_written 0 1).2 0 2).map
          (fun x => (x.1, x.2.1)) = some (2, [10, 20]) := by
  decide

/-- C11 (the code at the failing input): with the constants `geometry64` (sectors of 1024
bytes, 65536 cells) and the open, empty file of `demo_open`, every reply carries status
success and all 65536 cells are free, so every allocation and every exchange of a write
goes through.  A write of 512 * 1024 bytes returns its count and leaves position and
length at 512 * 1024.  A write of 517 * 1024 bytes does not return its count: the
iteration for the 513th sector stores at `sector_id[512]`, outside the array of 512
elements, and the call has no defined result. -/
theorem C11_write_beyond_sector_list :
    replies_ok env_ok
    ∧ (demo_open.file_handlers 0).file_state = FILE_OPEN
    ∧ (demo_open.file_handlers 0).pos = 0
    ∧ (demo_open.file_handlers 0).len = 0
    ∧ (free_set geometry64 demo_open.sector_usage).card = 65536
    ∧ (∀ b, ∃ s1,
        fs3_write geometry64 env_ok demo_open 0 b (512 * 1024) = some (512 * 1024, s1)
        ∧ (s1.file_handlers 0).pos = 512 * 1024
        ∧ (s1.file_handlers 0).len = 512 * 1024)
    ∧ ∀ b, fs3_write geometry64 env_ok demo_open 0 b (517 * 1024) = none := by
  have hcard : (free_set geometry64 demo_open.sector_usage).card = 65536 :=
    free_set_card_zero geometry64
  refine ⟨replies_ok_env_ok, rfl, rfl, rfl, hcard, ?_, ?_⟩
  · intro b
    obtain ⟨s1, hw, hp, hl, _⟩ :=
      fs3_write_within_capacity geometry64 env_ok demo_open 0 b (512 * 1024) 512 0
        (by decide) (by decide) (by decide) (by decide) rfl (by decide) (by decide)
        (by decide) replies_ok_env_ok (by decide) (by rw [hcard]; decide) (by decide)
    exact ⟨s1, hw, hp, hl⟩
  · intro b
    exact fs3_write_overflow geometry64 env_ok demo_open 0 b (517 * 1024)
      (by decide) (by decide) (by decide) (by decide) rfl (by decide) (by decide)
      (by rw [hcard]; decide) replies_ok_env_ok (by decide) (by decide)

/-- C12 (the code at the failing input): without `fs3_mount_disk()` the connection is
not open (`socket_fd` = -1) and `network_fs3_syscall` returns -1 on every exchange; yet
`fs3_write(0, buf, 24)` on the open file of `demo_open_unmounted` returns 24, not -1, and
after `fs3_seek(0, 0)` the call `fs3_read(0, out, 3)`, whose sector is not in the cache,
returns 3, not -1. -/
theorem C12_transport_failure_not_reported :
    demo_open_unmounted.net.socket_fd = -1
    ∧ (network_fs3_syscall demo env_ok demo_open_unmounted.net
        (construct_fs3_cmdblock demo.FS3_OP_TSEEK 0 0 0) 0 (fun _ => 0)).1 = -1
    ∧ (fs3_write demo env_ok demo_open_unmounted 0 (fun k => k + 1) 24).map Prod.fst
        = some 24
    ∧ demo_unmounted_written24.net.socket_fd = -1
    ∧ fs3_get_cache_node demo_unmounted_written24.cache.nodes 0 0 = none
    ∧ (network_fs3_syscall demo env_ok demo_unmounted_written24.net
        (construct_fs3_cmdblock demo.FS3_OP_TSEEK 0 0 0) 0 (fun _ => 0)).1 = -1
    ∧ (fs3_read demo env_ok demo_unmounted_written24 0 3).map Prod.fst = some 3 := by
  decide

/-- C13: validation errors leave all state untouched.  For every handle that is out of
range or whose entry is not open, `fs3_read` and `fs3_write` return -1, store nothing to
the caller's buffer, and leave the whole state (file table, bitmap, used-sector counter,
cache nodes, their order and the cache counters, connection) as it was. -/
theorem C13_validation (c : Consts) (env : Env) (s : State) (fd : Int) (buf : Nat → Nat)
    (count : Int)
    (h : fd < 0 ∨ fd ≥ (MAX_FILES c : Int)
      ∨ (s.file_handlers fd.toNat).file_state ≠ FILE_OPEN) :
    fs3_read c env s fd count = some (-1, [], s)
    ∧ fs3_write c env s fd buf count = some (-1, s) := by
  constructor
  · unfold fs3_read
    split
    · rfl
    · rename_i h1
      rw [if_pos (by rcases h with h | h | h <;> omega)]
  · unfold fs3_write
    split
    · rfl
    · rename_i h1
      rw [if_pos (by rcases h with h | h | h <;> omega)]

/-- Witness of C13 on the demo geometry: handle 1 of `demo_written` is inside the table
and its entry is not open. -/
theorem C13_validation_witness :
    fs3_read demo env_ok demo_written 1 5 = some (-1, [], demo_written)
    ∧ fs3_write demo env_ok demo_written 1 bytes3 3 = some (-1, demo_written) :=
  C13_validation demo env_ok demo_written 1 bytes3 5 (Or.inr (Or.inr (by decide)))

/-- C14 (the code at the failing input): with the constants `geometry64` the file table
has 65536 slots.  In `table_32768` no entry has path "f", slots 0..32767 are assigned and
slot 32768 is the lowest unassigned one.  `fs3_open("f")` does not return 32768: the
`int16_t` variable `free_handle` takes the value -32768, the stores
`file_handlers[free_handle]` of lines 233-238 lie outside the table, and the call has
no defined result. -/
theorem C14_open_handle_not_representable :
    (∀ k, k < MAX_FILES geometry64 → (table_32768.file_handlers k).path ≠ some "f")
    ∧ (∀ k, k < 32768 → (table_32768.file_handlers k).path ≠ none)
    ∧ 32768 < MAX_FILES geometry64
    ∧ (table_32768.file_handlers 32768).path = none
    ∧ fs3_open geometry64 table_32768 "f" = none := by
  have hno : ∀ k, (table_32768.file_handlers k).path ≠ some "f" := by
    intro k
    simp only [table_32768]
    split
    · intro hc
      simp only [file_zero, Option.some.injEq] at hc
      have := congrArg String.length hc
      simp [String.length] at this
    · simp [file_zero]
  have hbefore : ∀ k, k < 32768 → (table_32768.file_handlers k).path ≠ none := by
    intro k hk
    simp [table_32768, hk]
  have hk0 : (table_32768.file_handlers 32768).path = none := by
    simp [table_32768, file_zero]
  refine ⟨fun k _ => hno k, hbefore, by decide, hk0, ?_⟩
  exact fs3_open_scan_negative geometry64 table_32768 "f" (toInt16 32768)
    (fs3_open_scan_first table_32768.file_handlers "f" 32768 hk0 (by decide)
      (MAX_FILES geometry64) 0 (by omega) (by decide) (fun k _ _ => hno k)
      (fun k _ hk => hbefore k hk))
    (by decide) (by decide)

/-- C15: close.  With `close_ok` meaning that the handle is inside the table and its
entry is open: `fs3_close(fd)` returns -1 exactly when `close_ok` fails, and then leaves
the state unchanged; otherwise it returns 0, sets the position to 0 and the state to
closed, keeps path, sector list, number of sectors and length of the entry, and leaves
every other entry unchanged. -/
theorem C15_close (c : Consts) (s : State) (fd : Int) :
    ((fs3_close c s fd).1 = -1 ↔ ¬ close_ok c s fd)
    ∧ (¬ close_ok c s fd → fs3_close c s fd = (-1, s))
    ∧ (close_ok c s fd →
        (fs3_close c s fd).1 = 0
        ∧ (fs3_close c s fd).2 =
            { s with file_handlers :=
                       setAt s.file_handlers fd.toNat
                         { s.file_handlers fd.toNat with pos := 0, file_state := FILE_CLOSE } }
        ∧ ((fs3_close c s fd).2.file_handlers fd.toNat).pos = 0
        ∧ ((fs3_close c s fd).2.file_handlers fd.toNat).file_state = FILE_CLOSE
        ∧ ((fs3_close c s fd).2.file_handlers fd.toNat).path = (s.file_handlers fd.toNat).path
        ∧ ((fs3_close c s fd).2.file_handlers fd.toNat).sector_id
            = (s.file_handlers fd.toNat).sector_id
        ∧ ((fs3_close c s fd).2.file_handlers fd.toNat).num_sectors
            = (s.file_handlers fd.toNat).num_sectors
        ∧ ((fs3_close c s fd).2.file_handlers fd.toNat).len = (s.file_handlers fd.toNat).len
        ∧ ∀ k, k ≠ fd.toNat → (fs3_close c s fd).2.file_handlers k = s.file_handlers k) := by
  refine ⟨?_, fs3_close_of_not_ok c s fd, ?_⟩
  · by_cases h : close_ok c s fd
    · rw [fs3_close_of_ok c s fd h]
      exact ⟨fun h0 => by simp at h0, fun h1 => absurd h h1⟩
    · rw [fs3_close_of_not_ok c s fd h]
      exact ⟨fun _ => h, fun _ => rfl⟩
  · intro h
    rw [fs3_close_of_ok c s fd h]
    refine ⟨rfl, rfl, ?_, ?_, ?_, ?_, ?_, ?_, ?_⟩
    · simp only [setAt_same]
    · simp only [setAt_same]
    · simp only [setAt_same]
    · simp only [setAt_same]
    · simp only [setAt_same]
    · simp only [setAt_same]
    · intro k hk
      simp only [setAt_other _ _ _ _ hk]

/-- C16: first-fit.  With track and sector counts that fit the `uint16_t` loop counters:
for every bitmap with a free cell `(t0, j0)`, `get_free_sector` returns a cell `(t, j)`
that is free, such that every cell of a lower track, and every cell of the same track
with a lower sector, is used; in particular `(t, j)` is not after `(t0, j0)` in
row-major order. -/
theorem C16_first_fit (c : Consts) (s : State)
    (hM : c.FS3_MAX_TRACKS < 2^16) (hT : c.FS3_TRACK_SIZE < 2^16)
    (t0 j0 : Nat) (ht0 : t0 < c.FS3_MAX_TRACKS) (hj0 : j0 < c.FS3_TRACK_SIZE)
    (hfree : s.sector_usage t0 j0 = 0) :
    ∃ t j, get_free_sector c s
          = some (some (t, j), { s with sectors_used := (s.sectors_used + 1) % 2^32 })
      ∧ t < c.FS3_MAX_TRACKS ∧ j < c.FS3_TRACK_SIZE ∧ s.sector_usage t j = 0
      ∧ (∀ k, k < j → s.sector_usage t k ≠ 0)
      ∧ (∀ t1, t1 < t → ∀ k, k < c.FS3_TRACK_SIZE → s.sector_usage t1 k ≠ 0)
      ∧ (t < t0 ∨ (t = t0 ∧ j ≤ j0)) := by
  rcases get_free_sector_spec c s hM hT with ⟨t, j, ⟨h1, h2, h3, h4, h5⟩, hg⟩ | ⟨hfull, _⟩
  · refine ⟨t, j, hg, h1, h2, h3, h4, h5, ?_⟩
    rcases Nat.lt_trichotomy t t0 with hlt | heq | hgt
    · exact Or.inl hlt
    · refine Or.inr ⟨heq, ?_⟩
      by_contra hcon
      exact h4 j0 (by omega) (heq ▸ hfree)
    · exact absurd hfree (h5 t0 hgt j0 hj0)
  · exact absurd hfree (hfull t0 ht0 j0 hj0)

/-- Witness of C16 on the demo geometry: in `demo_written` cell (0,0) is used and cell
(1,2) is free. -/
theorem C16_first_fit_witness :
    ∃ t j, get_free_sector demo demo_written
          = some (some (t, j),
              { demo_written with sectors_used := (demo_written.sectors_used + 1) % 2^32 })
      ∧ t < demo.FS3_MAX_TRACKS ∧ j < demo.FS3_TRACK_SIZE ∧ demo_written.sector_usage t j = 0
      ∧ (∀ k, k < j → demo_written.sector_usage t k ≠ 0)
      ∧ (∀ t1, t1 < t → ∀ k, k < demo.FS3_TRACK_SIZE → demo_written.sector_usage t1 k ≠ 0)
      ∧ (t < 1 ∨ (t = 1 ∧ j ≤ 2)) :=
  C16_first_fit demo demo_written (by decide) (by decide) 1 2 (by decide) (by decide)
    (by decide)

/-- C17: exhaustion.  With track and sector counts that fit the `uint16_t` loop
counters, `get_free_sector` always returns; it reports failure exactly when every cell of
the bitmap is used, and then the state (used-sector counter and bitmap included) is
unchanged. -/
theorem C17_exhaustion (c : Consts) (s : State)
    (hM : c.FS3_MAX_TRACKS < 2^16) (hT : c.FS3_TRACK_SIZE < 2^16) :
    (∃ r s1, get_free_sector c s = some (r, s1))
    ∧ ((∃ s1, get_free_sector c s = some (none, s1)) ↔ bitmap_full c s.sector_usage)
    ∧ (bitmap_full c s.sector_usage → get_free_sector c s = some (none, s)) := by
  rcases get_free_sector_spec c s hM hT with ⟨t, j, ⟨h1, h2, h3, h4, h5⟩, hg⟩ | ⟨hfull, hg⟩
  · have hnot : ¬ bitmap_full c s.sector_usage := fun hf => hf t h1 j h2 h3
    refine ⟨⟨_, _, hg⟩, ⟨?_, fun hf => absurd hf hnot⟩, fun hf => absurd hf hnot⟩
    rintro ⟨s1, hs1⟩
    rw [hg] at hs1
    simp at hs1
  · exact ⟨⟨_, _, hg⟩, ⟨fun _ => hfull, fun _ => ⟨s, hg⟩⟩, fun _ => hg⟩

/-- Witness of C17 on the demo geometry with the full bitmap of `demo_full`. -/
theorem C17_exhaustion_witness :
    (∃ r s1, get_free_sector demo demo_full = some (r, s1))
    ∧ ((∃ s1, get_free_sector demo demo_full = some (none, s1))
        ↔ bitmap_full demo demo_full.sector_usage)
    ∧ (bitmap_full demo demo_full.sector_usage
        → get_free_sector demo demo_full = some (none, demo_full)) :=
  C17_exhaustion demo demo_full (by decide) (by decide)

/-- C18: bit layout.  For an opcode below 2^4, a sector below 2^16, a track below 2^32
and a status of 0 or 1, `construct_fs3_cmdblock` equals
opcode * 2^60 + sector * 2^44 + track * 2^12 + status * 2^11; it is a 64-bit value and
its low 11 bits are zero. -/
theorem C18_bit_layout (op sec trk ret : Nat) (ho : op < 2^4) (hs : sec < 2^16)
    (ht : trk < 2^32) (hr : ret < 2) :
    construct_fs3_cmdblock op sec trk ret
        = op * 2^60 + sec * 2^44 + trk * 2^12 + ret * 2^11
    ∧ construct_fs3_cmdblock op sec trk ret < 2^64
    ∧ construct_fs3_cmdblock op sec trk ret % 2^11 = 0
    ∧ ∀ i, i < 11 → (construct_fs3_cmdblock op sec trk ret).testBit i = false := by
  have hsum := construct_eq_sum op sec trk ret ho hs ht hr
  have hmod : construct_fs3_cmdblock op sec trk ret % 2^11 = 0 := by rw [hsum]; omega
  refine ⟨hsum, by rw [hsum]; omega, hmod, ?_⟩
  intro i hi
  have h1 : (construct_fs3_cmdblock op sec trk ret % 2^11).testBit i = false := by
    rw [hmod]; simp
  rw [Nat.testBit_mod_two_pow] at h1
  simpa [hi] using h1

/-- Witness of C18 for opcode 2, sector 7, track 3 and status 1. -/
theorem C18_bit_layout_witness :
    construct_fs3_cmdblock 2 7 3 1 = 2 * 2^60 + 7 * 2^44 + 3 * 2^12 + 1 * 2^11
    ∧ construct_fs3_cmdblock 2 7 3 1 < 2^64
    ∧ construct_fs3_cmdblock 2 7 3 1 % 2^11 = 0
    ∧ ∀ i, i < 11 → (construct_fs3_cmdblock 2 7 3 1).testBit i = false :=
  C18_bit_layout 2 7 3 1 (by decide) (by decide) (by decide) (by decide)

/-- C19: a lookup hit promotes.  For every cache with a node for `(trk, sct)`: the
list is `pre ++ x :: post` with `x` the first such node, `fs3_get_cache(trk, sct)` returns
the data of `x`, and the list becomes `pre ++ post ++ [x]`: `x` is moved to the
most-recently-used end, and the other nodes, their data and their relative order are
unchanged. -/
theorem C19_lookup_hit_promotes (ch : Cache) (trk sct : Nat)
    (h : ∃ y ∈ ch.nodes, y.sector_id = cache_sector_id trk sct) :
    ∃ pre x post, ch.nodes = pre ++ x :: post
      ∧ x.sector_id = cache_sector_id trk sct
      ∧ (∀ y ∈ pre, y.sector_id ≠ cache_sector_id trk sct)
      ∧ fs3_get_cache ch trk sct
          = (some x.sector_data,
             { ch with nodes := pre ++ post ++ [x],
                       fs3_get_cache_success := (ch.fs3_get_cache_success + 1) % 2^32 }) := by
  cases hf : find_node (cache_sector_id trk sct) ch.nodes with
  | none =>
    obtain ⟨y, hy, hid⟩ := h
    exact absurd hid ((find_node_none_iff _ _).mp hf y hy)
  | some i =>
    obtain ⟨pre, x, post, hn, _, hx, hpre⟩ := find_node_some_split _ _ i hf
    exact ⟨pre, x, post, hn, hx, hpre, fs3_get_cache_hit ch trk sct pre post x hn hx hpre⟩

/-- Witness of C19 on the cache `demo_cache2`, which holds the sectors (0,0) and (0,1):
the lookup of (0,0). -/
theorem C19_lookup_hit_promotes_witness :
    ∃ pre x post, demo_cache2.nodes = pre ++ x :: post
      ∧ x.sector_id = cache_sector_id 0 0
      ∧ (∀ y ∈ pre, y.sector_id ≠ cache_sector_id 0 0)
      ∧ fs3_get_cache demo_cache2 0 0
          = (some x.sector_data,
             { demo_cache2 with
                 nodes := pre ++ post ++ [x],
                 fs3_get_cache_success := (demo_cache2.fs3_get_cache_success + 1) % 2^32 }) :=
  C19_lookup_hit_promotes demo_cache2 0 0
    ⟨new_node demo 0 0 (fun _ => 1), List.mem_cons_self _ _, rfl⟩

/-- C20: insert of a present key.  For every cache with a node for `(trk, sct)`: the
list is `pre ++ x :: post` with `x` the first such node, `fs3_put_cache(trk, sct, buf)`
returns 0 and the list becomes `pre ++ post ++ [x1]`, where `x1` is `x` with the
FS3_SECTOR_SIZE bytes of `buf` as its data: the node is overwritten and moved to the
most-recently-used end, nothing is evicted, the number of nodes and all other nodes are
unchanged. -/
theorem C20_insert_present (c : Consts) (ch : Cache) (trk sct : Nat) (buf : Nat → Nat)
    (h : ∃ y ∈ ch.nodes, y.sector_id = cache_sector_id trk sct) :
    ∃ pre x post, ch.nodes = pre ++ x :: post
      ∧ x.sector_id = cache_sector_id trk sct
      ∧ (∀ y ∈ pre, y.sector_id ≠ cache_sector_id trk sct)
      ∧ fs3_put_cache c ch trk sct buf
          = (0, { ch with
                    nodes := pre ++ post ++
                      [{ x with sector_data := memcpy x.sector_data 0 buf 0 c.FS3_SECTOR_SIZE }],
                    fs3_put_cache_success := (ch.fs3_put_cache_success + 1) % 2^32 })
      ∧ (∀ k, k < c.FS3_SECTOR_SIZE →
          memcpy x.sector_data 0 buf 0 c.FS3_SECTOR_SIZE k = buf k)
      ∧ (fs3_put_cache c ch trk sct buf).2.nodes.length = ch.nodes.length := by
  cases hf : find_node (cache_sector_id trk sct) ch.nodes with
  | none =>
    obtain ⟨y, hy, hid⟩ := h
    exact absurd hid ((find_node_none_iff _ _).mp hf y hy)
  | some i =>
    obtain ⟨pre, x, post, hn, _, hx, hpre⟩ := find_node_some_split _ _ i hf
    have hp := fs3_put_cache_present c ch trk sct buf pre post x hn hx hpre
    refine ⟨pre, x, post, hn, hx, hpre, hp, ?_, ?_⟩
    · intro k hk
      exact memcpy_zero_apply _ _ _ _ hk
    · rw [hp, hn]
      simp only [List.length_append, List.length_cons, List.length_nil]
      omega

/-- Witness of C20 on the cache `demo_cache2`: the insertion of new data for (0,0). -/
theorem C20_insert_present_witness :
    ∃ pre x post, demo_cache2.nodes = pre ++ x :: post
      ∧ x.sector_id = cache_sector_id 0 0
      ∧ (∀ y ∈ pre, y.sector_id ≠ cache_sector_id 0 0)
      ∧ fs3_put_cache demo demo_cache2 0 0 (fun _ => 9)
          = (0, { demo_cache2 with
                    nodes := pre ++ post ++
                      [{ x with
                           sector_data :=
                             memcpy x.sector_data 0 (fun _ => 9) 0 demo.FS3_SECTOR_SIZE }],
                    fs3_put_cache_success := (demo_cache2.fs3_put_cache_success + 1) % 2^32 })
      ∧ (∀ k, k < demo.FS3_SECTOR_SIZE →
          memcpy x.sector_data 0 (fun _ => 9) 0 demo.FS3_SECTOR_SIZE k = (fun _ => 9) k)
      ∧ (fs3_put_cache demo demo_cache2 0 0 (fun _ => 9)).2.nodes.length
          = demo_cache2.nodes.length :=
  C20_insert_present demo demo_cache2 0 0 (fun _ => 9)
    ⟨new_node demo 0 0 (fun _ => 1), List.mem_cons_self _ _, rfl⟩

/-- C21: cache invariant.  With a capacity FS3_DEFAULT_CACHE_SIZE of at least 1, every
cache reachable from an empty cache by calls of `fs3_put_cache` and `fs3_get_cache` has at
most FS3_DEFAULT_CACHE_SIZE nodes, and no two of its nodes have the same sector
identifier. -/
theorem C21_cache_invariant (c : Consts) (hC : 1 ≤ c.FS3_DEFAULT_CACHE_SIZE) (ch : Cache)
    (h : CacheReachable c ch) :
    ch.nodes.length ≤ c.FS3_DEFAULT_CACHE_SIZE
    ∧ (ch.nodes.map (fun n => n.sector_id)).Nodup := by
  induction h with
  | empty ch h0 => rw [h0]; exact ⟨Nat.zero_le _, List.nodup_nil⟩
  | step_put ch trk sct buf _ ih =>
    exact ⟨fs3_put_cache_length c ch trk sct buf hC ih.1,
      (fs3_put_cache_nodes c ch trk sct buf ih.2).1⟩
  | step_get ch trk sct _ ih =>
    exact ⟨by rw [fs3_get_cache_length]; exact ih.1, (fs3_get_cache_nodes ch trk sct ih.2).1⟩

/-- Witness of C21 on the demo geometry (capacity 2): the cache after two insertions. -/
theorem C21_cache_invariant_witness :
    demo_cache2.nodes.length ≤ demo.FS3_DEFAULT_CACHE_SIZE
    ∧ (demo_cache2.nodes.map (fun n => n.sector_id)).Nodup :=
  C21_cache_invariant demo (by decide) demo_cache2
    (CacheReachable.step_put _ 0 1 (fun _ => 2)
      (CacheReachable.step_put _ 0 0 (fun _ => 1) (CacheReachable.empty _ rfl)))

/-- C22 (the code at the failing input): in `demo_open` the connection is open
(`socket_fd` = 3).  The server answers the UMOUNT exchange with the UMOUNT block and
status success; `network_fs3_syscall` returns -1, not 0, and `socket_fd` is still 3, also
after `fs3_unmount_disk`.  For every geometry, environment and transport state, a UMOUNT
exchange leaves `socket_fd` as it was. -/
theorem C22_umount_keeps_connection :
    status_of (env_umount.reply 1 % 2^64) = SUCCESS
    ∧ (deconstruct_fs3_cmdblock (env_umount.reply 1 % 2^64)).1 = demo.FS3_OP_UMOUNT
    ∧ demo_open.net.socket_fd = 3
    ∧ (network_fs3_syscall demo env_umount demo_open.net
        (construct_fs3_cmdblock demo.FS3_OP_UMOUNT 0 0 0) 0 (fun _ => 0)).1 = -1
    ∧ (network_fs3_syscall demo env_umount demo_open.net
        (construct_fs3_cmdblock demo.FS3_OP_UMOUNT 0 0 0) 0 (fun _ => 0)).2.2.2.socket_fd = 3
    ∧ (fs3_unmount_disk demo env_umount demo_open).2.net.socket_fd = 3
    ∧ ∀ (c : Consts) (env : Env) (net : Net) (ret : Nat) (buf : Nat → Nat),
        (network_fs3_syscall c env net (construct_fs3_cmdblock c.FS3_OP_UMOUNT 0 0 0)
          ret buf).2.2.2.socket_fd = net.socket_fd := by
  refine ⟨by decide, by decide, by decide, by decide, by decide, by decide, ?_⟩
  intro c env net ret buf
  refine network_keeps_socket c env net _ ret buf ?_
  rw [codec_op c.FS3_OP_UMOUNT 0 0 0 (c.op_lt _ (by simp)) (by decide) (by decide) (by decide)]
  have := c.op_nodup
  simp only [List.nodup_cons, List.mem_cons, List.not_mem_nil, or_false, not_or] at this
  omega

/-- C23: decode is a total inverse of encode.  For every 64-bit block whose low 11 bits
are zero, `construct_fs3_cmdblock` applied to the four values `deconstruct_fs3_cmdblock`
returns for the block gives the block back. -/
theorem C23_decode_encode (b : Nat) (hb : b < 2^64) (h0 : b % 2^11 = 0) :
    construct_fs3_cmdblock (deconstruct_fs3_cmdblock b).1 (deconstruct_fs3_cmdblock b).2.1
      (deconstruct_fs3_cmdblock b).2.2.1 (deconstruct_fs3_cmdblock b).2.2.2 = b := by
  rw [deconstruct_eq_divmod]
  simp only
  rw [construct_eq_sum _ _ _ _ (Nat.mod_lt _ (by decide)) (Nat.mod_lt _ (by decide))
    (Nat.mod_lt _ (by decide)) (Nat.mod_lt _ (by decide))]
  omega

/-- Witness of C23 for the block 0x3abcd12345678800. -/
theorem C23_decode_encode_witness :
    construct_fs3_cmdblock (deconstruct_fs3_cmdblock 0x3abcd12345678800).1
      (deconstruct_fs3_cmdblock 0x3abcd12345678800).2.1
      (deconstruct_fs3_cmdblock 0x3abcd12345678800).2.2.1
      (deconstruct_fs3_cmdblock 0x3abcd12345678800).2.2.2 = 0x3abcd12345678800 :=
  C23_decode_encode 0x3abcd12345678800 (by decide) (by decide)

/-- C24: read on a cache miss.  In an iteration of the loop of `fs3_read` whose sector
`(read_track, read_sector)` is not in the cache, whose sector index and copies are inside
the arrays, and whose TSEEK and RDSECT calls of `network_fs3_syscall` both return 0: the
iteration goes on, the `bytes_to_read` bytes stored to `temp_buf` from `read_index` are
the bytes of the received sector from offset `cur_pos % FS3_SECTOR_SIZE`, and afterwards
the last node of the cache (the most-recently-used end) has the identifier of that
`(track, sector)` and holds the FS3_SECTOR_SIZE bytes of the received sector. -/
theorem C24_read_miss (c : Consts) (env : Env) (f : file_t) (l : ReadLocals) (ch : Cache)
    (nt : Net)
    (hidx : l.cur_pos / c.FS3_SECTOR_SIZE < 512)
    (hroom : l.read_index + read_bytes_to_read c l.cur_pos l.remaining_count
      ≤ c.FS3_SECTOR_SIZE * 512)
    (hin : l.cur_pos % c.FS3_SECTOR_SIZE + read_bytes_to_read c l.cur_pos l.remaining_count
      ≤ c.FS3_SECTOR_SIZE)
    (hmiss : ∀ y ∈ ch.nodes,
      y.sector_id ≠ cache_sector_id (read_track c f l) (read_sector c f l))
    (hseek : (network_fs3_syscall c env nt
      (construct_fs3_cmdblock c.FS3_OP_TSEEK 0 (read_track c f l) 0)
      l.ret_cmd_blk (fun _ => 0)).1 = 0)
    (hread : (network_fs3_syscall c env
      (network_fs3_syscall c env nt
        (construct_fs3_cmdblock c.FS3_OP_TSEEK 0 (read_track c f l) 0)
        l.ret_cmd_blk (fun _ => 0)).2.2.2
      (construct_fs3_cmdblock c.FS3_OP_RDSECT (read_sector c f l) 0 0)
      (network_fs3_syscall c env nt
        (construct_fs3_cmdblock c.FS3_OP_TSEEK 0 (read_track c f l) 0)
        l.ret_cmd_blk (fun _ => 0)).2.1
      l.sector_buf).1 = 0) :
    ∃ l1 ch1 n2 front y, fs3_read_iter c env f l ch nt = some (some l1, ch1, n2)
      ∧ (∀ x, x < read_bytes_to_read c l.cur_pos l.remaining_count →
          l1.temp_buf (l.read_index + x)
            = env.payload (nt.calls + 1) (l.cur_pos % c.FS3_SECTOR_SIZE + x))
      ∧ ch1.nodes = front ++ [y]
      ∧ y.sector_id = cache_sector_id (read_track c f l) (read_sector c f l)
      ∧ ∀ k, k < c.FS3_SECTOR_SIZE → y.sector_data k = env.payload (nt.calls + 1) k := by
  have hsct : read_sector c f l < 2^16 := Nat.mod_lt _ (by decide)
  have hs1 := network_zero_status c env nt _ _ _ hseek
  have hcalls := network_calls c env nt
    (construct_fs3_cmdblock c.FS3_OP_TSEEK 0 (read_track c f l) 0) l.ret_cmd_blk (fun _ => 0)
  have hs2 := network_zero_status c env _ _ _ _ hread
  have hbuf := network_zero_rdsect c env _ _ _ _ hsct hread
  rw [hcalls] at hbuf
  generalize hbtr : read_bytes_to_read c l.cur_pos l.remaining_count = btr at *
  have hdata : ∀ k, k < c.FS3_SECTOR_SIZE →
      memcpy l.sector_buf 0 (env.payload (nt.calls + 1)) 0 c.FS3_SECTOR_SIZE k
        = env.payload (nt.calls + 1) k := fun k hk => memcpy_zero_apply _ _ _ _ hk
  have hiter : fs3_read_iter c env f l ch nt
      = some (some { read_advance l btr with
                       temp_buf := memcpy l.temp_buf l.read_index
                         (memcpy l.sector_buf 0 (env.payload (nt.calls + 1)) 0
                           c.FS3_SECTOR_SIZE)
                         (l.cur_pos % c.FS3_SECTOR_SIZE) btr,
                       sector_buf := memcpy l.sector_buf 0 (env.payload (nt.calls + 1)) 0
                         c.FS3_SECTOR_SIZE,
                       ret_cmd_blk := (network_fs3_syscall c env
                         (network_fs3_syscall c env nt
                           (construct_fs3_cmdblock c.FS3_OP_TSEEK 0 (read_track c f l) 0)
                           l.ret_cmd_blk (fun _ => 0)).2.2.2
                         (construct_fs3_cmdblock c.FS3_OP_RDSECT (read_sector c f l) 0 0)
                         (network_fs3_syscall c env nt
                           (construct_fs3_cmdblock c.FS3_OP_TSEEK 0 (read_track c f l) 0)
                           l.ret_cmd_blk (fun _ => 0)).2.1
                         l.sector_buf).2.1 },
          (fs3_put_cache c
            { ch with fs3_get_cache_failure := (ch.fs3_get_cache_failure + 1) % 2^32 }
            (read_track c f l) (read_sector c f l)
            (memcpy l.sector_buf 0 (env.payload (nt.calls + 1)) 0 c.FS3_SECTOR_SIZE)).2,
          (network_fs3_syscall c env
            (network_fs3_syscall c env nt
              (construct_fs3_cmdblock c.FS3_OP_TSEEK 0 (read_track c f l) 0)
              l.ret_cmd_blk (fun _ => 0)).2.2.2
            (construct_fs3_cmdblock c.FS3_OP_RDSECT (read_sector c f l) 0 0)
            (network_fs3_syscall c env nt
              (construct_fs3_cmdblock c.FS3_OP_TSEEK 0 (read_track c f l) 0)
              l.ret_cmd_blk (fun _ => 0)).2.1
            l.sector_buf).2.2.2) := by
    have h16 := toInt16_le _ (Nat.le_of_lt hidx)
    have hc1 : ¬ (toInt16 (l.cur_pos / c.FS3_SECTOR_SIZE) < 0
        ∨ toInt16 (l.cur_pos / c.FS3_SECTOR_SIZE) ≥ 512) := by
      rw [h16]
      generalize l.cur_pos / c.FS3_SECTOR_SIZE = q at hidx ⊢
      omega
    have hm := fs3_get_cache_miss ch (read_track c f l) (read_sector c f l) hmiss
    simp only [read_track, read_sector] at hs1 hs2 hbuf hm ⊢
    unfold fs3_read_iter
    simp only [hbtr]
    rw [if_neg hc1, if_neg (by omega), if_neg (by omega)]
    simp only [h16, Int.toNat_ofNat]
    rw [hm]
    simp only
    unfold fs3_read_miss
    simp only
    rw [if_neg hs1, if_neg hs2, hbuf]
  refine ⟨_, _, _, ?_, new_node c (read_track c f l) (read_sector c f l)
    (memcpy l.sector_buf 0 (env.payload (nt.calls + 1)) 0 c.FS3_SECTOR_SIZE), hiter, ?_, ?_,
    rfl, ?_⟩
  · exact if c.FS3_DEFAULT_CACHE_SIZE ≤ ch.nodes.length then ch.nodes.tail else ch.nodes
  · intro x hx
    simp only [memcpy]
    rw [if_pos ⟨Nat.le_add_right _ _, by omega⟩, Nat.add_sub_cancel_left,
      if_pos ⟨Nat.zero_le _, by omega⟩]
    simp
  · have habs : fs3_get_cache_node
        ({ ch with fs3_get_cache_failure := (ch.fs3_get_cache_failure + 1) % 2^32 } : Cache).nodes
        (read_track c f l) (read_sector c f l) = none := by
      rw [fs3_get_cache_node_eq]; exact (find_node_none_iff _ _).mpr hmiss
    by_cases hfull : c.FS3_DEFAULT_CACHE_SIZE ≤ ch.nodes.length
    · rw [fs3_put_cache_absent_full c _ _ _ _ habs hfull, if_pos hfull]
    · rw [fs3_put_cache_absent_room c _ _ _ _ habs (by simpa using hfull), if_neg hfull]
  · intro k hk
    simp only [new_node]
    rw [memcpy_zero_apply _ _ _ _ hk, hdata k hk]

/-- Witness of C24 on the demo geometry: the first iteration of a read of 3 bytes at
position 0 in `demo_written24`, whose first sector is not in the cache. -/
theorem C24_read_miss_witness :
    ∃ l1 ch1 n2 front y,
      fs3_read_iter demo env_data (demo_written24.file_handlers 0)
          (read_locals_init env_data (demo_written24.file_handlers 0) 3)
          demo_written24.cache demo_written24.net = some (some l1, ch1, n2)
      ∧ (∀ x, x < read_bytes_to_read demo
            (read_locals_init env_data (demo_written24.file_handlers 0) 3).cur_pos
            (read_locals_init env_data (demo_written24.file_handlers 0) 3).remaining_count →
          l1.temp_buf
              ((read_locals_init env_data (demo_written24.file_handlers 0) 3).read_index + x)
            = env_data.payload (demo_written24.net.calls + 1)
                ((read_locals_init env_data (demo_written24.file_handlers 0) 3).cur_pos
                  % demo.FS3_SECTOR_SIZE + x))
      ∧ ch1.nodes = front ++ [y]
      ∧ y.sector_id = cache_sector_id
          (read_track demo (demo_written24.file_handlers 0)
            (read_locals_init env_data (demo_written24.file_handlers 0) 3))
          (read_sector demo (demo_written24.file_handlers 0)
            (read_locals_init env_data (demo_written24.file_handlers 0) 3))
      ∧ ∀ k, k < demo.FS3_SECTOR_SIZE →
          y.sector_data k = env_data.payload (demo_written24.net.calls + 1) k :=
  C24_read_miss demo env_data (demo_written24.file_handlers 0)
    (read_locals_init env_data (demo_written24.file_handlers 0) 3)
    demo_written24.cache demo_written24.net
    (by decide) (by decide) (by decide) (by decide) (by decide) (by decide)

/-- C25 (the code at the failing input): with the constants `geometry64`, a write of
512 * 1024 bytes to the empty file of `demo_open` gives a reachable state in which the file
lists 512 sectors, the sector index `pos / FS3_SECTOR_SIZE` is 512, not below
`num_sectors`, and the bitmap has a free cell.  In that state lines 573-586 of the next
iteration of `fs3_write` allocate the cell and store its identifier at `sector_id[512]`,
outside the array of 512 elements: the identifier is not appended to the list, and the
lines have no defined result. -/
theorem C25_append_at_full_list :
    ∀ b, ∃ s1,
      fs3_write geometry64 env_ok demo_open 0 b (512 * 1024) = some (512 * 1024, s1)
      ∧ Reachable geometry64 s1
      ∧ (s1.file_handlers 0).num_sectors = 512
      ∧ (s1.file_handlers 0).pos / geometry64.FS3_SECTOR_SIZE = 512
      ∧ ¬ bitmap_full geometry64 s1.sector_usage
      ∧ write_sector_id geometry64 s1 0 = none := by
  intro b
  have hcard : (free_set geometry64 demo_open.sector_usage).card = 65536 :=
    free_set_card_zero geometry64
  obtain ⟨s1, hw, hp, _, hwithin, hns, hfree⟩ :=
    fs3_write_within_capacity geometry64 env_ok demo_open 0 b (512 * 1024) 512 1
      (by decide) (by decide) (by decide) (by decide) rfl (by decide) (by decide)
      (by decide) replies_ok_env_ok (by decide) (by rw [hcard]; decide) (by decide)
  have hp1 : (s1.file_handlers 0).pos = 512 * 1024 := by rw [hp]; rfl
  have hSS : geometry64.FS3_SECTOR_SIZE = 1024 := rfl
  rw [hSS] at hwithin
  have hns1 : (s1.file_handlers 0).num_sectors = 512 := by omega
  have hdiv : (s1.file_handlers 0).pos / geometry64.FS3_SECTOR_SIZE = 512 := by
    rw [hp1, hSS]
  refine ⟨s1, hw, Reachable.step_write demo_open env_ok 0 b _ _ s1 geometry64_open_reachable hw,
    hns1, hdiv, free_set_pos_not_full geometry64 _ (by omega), ?_⟩
  exact write_sector_id_full geometry64 s1 0 (by decide) (by decide) hns1
    (by rw [hdiv]) (by rw [hdiv]; decide) (by omega)

/-- C26 (counterexample): in `demo_written24` the file has three sectors and position
0, and the transport has made 10 calls.  When the reply of call 12 carries status failure,
the first iteration of `fs3_read(0, buf, 16)` completes (calls 10 and 11) and consumes 8
bytes, the TSEEK of the second iteration fails, `fs3_read` returns -1, and the position
afterwards is 0, not 0 + 8. -/
theorem C26_failed_read_counterexample :
    (demo_written24.file_handlers 0).pos = 0
    ∧ demo_written24.net.calls = 10
    ∧ (fs3_read_iter demo (env_fail_at 12) (demo_written24.file_handlers 0)
          (read_locals_init (env_fail_at 12) (demo_written24.file_handlers 0) 16)
          demo_written24.cache demo_written24.net).map
        (fun r => (r.1.map (fun l => (l.cur_pos, l.remaining_count)), r.2.2.calls))
        = some (some (8, 8), 12)
    ∧ (fs3_read demo (env_fail_at 12) demo_written24 0 16).map
        (fun x => (x.1, (x.2.2.file_handlers 0).pos)) = some (-1, 0) := by
  decide

/-- C26 (amended): a failed read leaves the position where it was.  Whenever
`fs3_read` returns -1, after any number of completed iterations, the file table is
unchanged (so the position of the handle is the starting position) and nothing is stored
to the caller's buffer. -/
theorem C26_failed_read_keeps_position (c : Consts) (env : Env) (s : State) (fd count : Int)
    (out : List Nat) (s1 : State)
    (h : fs3_read c env s fd count = some (-1, out, s1)) :
    s1.file_handlers = s.file_handlers
    ∧ (s1.file_handlers fd.toNat).pos = (s.file_handlers fd.toNat).pos
    ∧ out = [] := by
  have key : s1.file_handlers = s.file_handlers ∧ out = [] := by
    unfold fs3_read at h
    split at h
    · simp only [Option.some.injEq, Prod.mk.injEq] at h
      rw [← h.2.2]; exact ⟨rfl, h.2.1.symm⟩
    · split at h
      · simp only [Option.some.injEq, Prod.mk.injEq] at h
        rw [← h.2.2]; exact ⟨rfl, h.2.1.symm⟩
      · split at h
        · exact absurd h (by simp)
        · simp only [Option.some.injEq, Prod.mk.injEq] at h
          rw [← h.2.2]; exact ⟨rfl, h.2.1.symm⟩
        · split at h
          · exact absurd h (by simp)
          · rename_i hneg
            simp only [Option.some.injEq, Prod.mk.injEq] at h
            omega
  exact ⟨key.1, by rw [key.1], key.2⟩

/-- Witness of C26 (amended): the failed read of `demo_read_failed`, which fails in its
second iteration. -/
theorem C26_failed_read_keeps_position_witness :
    demo_read_failed.file_handlers = demo_written24.file_handlers
    ∧ (demo_read_failed.file_handlers (0 : Int).toNat).pos
        = (demo_written24.file_handlers (0 : Int).toNat).pos
    ∧ ([] : List Nat) = [] :=
  C26_failed_read_keeps_position demo (env_fail_at 12) demo_written24 0 16 []
    demo_read_failed demo_read_failed_eq

/-- C27 (the code at the failing input): after `fs3_mount_disk()`, `fs3_open("f")`,
`fs3_read(0, buf, 1)` (position 1, length 0), `fs3_read(0, buf, 20)` (position 21, length
0) and `fs3_write(0, {7}, 1)`, the reachable state has one sector and length 22, which
exceeds 1 * FS3_SECTOR_SIZE = 8. -/
theorem C27_length_exceeds_sectors :
    Reachable demo demo_unbacked
    ∧ ((demo_read_empty.file_handlers 0).pos, (demo_read_empty.file_handlers 0).len) = (1, 0)
    ∧ ((demo_read_past.file_handlers 0).pos, (demo_read_past.file_handlers 0).len) = (21, 0)
    ∧ (demo_unbacked.file_handlers 0).len = 22
    ∧ (demo_unbacked.file_handlers 0).num_sectors = 1
    ∧ ¬ (demo_unbacked.file_handlers 0).len
        ≤ (demo_unbacked.file_handlers 0).num_sectors * demo.FS3_SECTOR_SIZE :=
  ⟨demo_unbacked_reachable, by decide, by decide, by decide, by decide, by decide⟩

/-- C28 (the code at the failing input): with the constants `geometry64`, the state
`demo_open` after `fs3_mount_disk()` and `fs3_open("f")` is reachable and lists no sector
in any entry.  In it a write of 515 * 1024 bytes to the empty file, with every reply
carrying status success, has no defined result: the iterations for the sectors after the
512th store at `sector_id[512]` and beyond, outside the array of 512 elements, so the
call leads to no state in which the first `num_sectors` positions of the list
are defined. -/
theorem C28_sector_list_overrun :
    Reachable geometry64 demo_open
    ∧ (∀ h, (demo_open.file_handlers h).num_sectors = 0)
    ∧ ∀ b, fs3_write geometry64 env_ok demo_open 0 b (515 * 1024) = none := by
  have hcard : (free_set geometry64 demo_open.sector_usage).card = 65536 :=
    free_set_card_zero geometry64
  refine ⟨geometry64_open_reachable, ?_, ?_⟩
  · intro h
    by_cases hk : h = 0
    · subst hk; rfl
    · simp [demo_open, init_state, setAt, hk, file_zero]
  · intro b
    exact fs3_write_overflow geometry64 env_ok demo_open 0 b (515 * 1024)
      (by decide) (by decide) (by decide) (by decide) rfl (by decide) (by decide)
      (by rw [hcard]; decide) replies_ok_env_ok (by decide) (by decide)

/-- C29: cache keys do not collide for driver sectors.  When a track has at most 1024
sectors (and the track count fits `uint16_t`), two pairs `(track, sector)` with
track < FS3_MAX_TRACKS and sector < FS3_TRACK_SIZE that have the same cache identifier
`track * 1024 + sector` are the same pair; hence the data `fs3_get_cache` returns for
such a pair is the data of a node whose identifier belongs to that pair and to no other. -/
theorem C29_cache_keys (c : Consts) (hM : c.FS3_MAX_TRACKS < 2^16)
    (hTS : c.FS3_TRACK_SIZE ≤ 1024) :
    (∀ t1 s1 t2 s2, t1 < c.FS3_MAX_TRACKS → s1 < c.FS3_TRACK_SIZE →
        t2 < c.FS3_MAX_TRACKS → s2 < c.FS3_TRACK_SIZE →
        cache_sector_id t1 s1 = cache_sector_id t2 s2 → t1 = t2 ∧ s1 = s2)
    ∧ (∀ (ch : Cache) (t2 s2 : Nat) (d : Nat → Nat),
        t2 < c.FS3_MAX_TRACKS → s2 < c.FS3_TRACK_SIZE →
        (fs3_get_cache ch t2 s2).1 = some d →
        ∃ y ∈ ch.nodes, d = y.sector_data ∧ y.sector_id = cache_sector_id t2 s2
          ∧ ∀ t1 s1, t1 < c.FS3_MAX_TRACKS → s1 < c.FS3_TRACK_SIZE →
              cache_sector_id t1 s1 = y.sector_id → t1 = t2 ∧ s1 = s2) := by
  have inj : ∀ t1 s1 t2 s2, t1 < c.FS3_MAX_TRACKS → s1 < c.FS3_TRACK_SIZE →
      t2 < c.FS3_MAX_TRACKS → s2 < c.FS3_TRACK_SIZE →
      cache_sector_id t1 s1 = cache_sector_id t2 s2 → t1 = t2 ∧ s1 = s2 := by
    intro t1 s1 t2 s2 h1 h2 h3 h4 h
    unfold cache_sector_id at h
    omega
  refine ⟨inj, ?_⟩
  intro ch t2 s2 d h3 h4 hget
  cases hf : find_node (cache_sector_id t2 s2) ch.nodes with
  | none =>
    rw [fs3_get_cache_miss ch t2 s2 ((find_node_none_iff _ _).mp hf)] at hget
    simp at hget
  | some i =>
    obtain ⟨pre, x, post, hn, _, hx, hpre⟩ := find_node_some_split _ _ i hf
    rw [fs3_get_cache_hit ch t2 s2 pre post x hn hx hpre] at hget
    simp only [Option.some.injEq] at hget
    refine ⟨x, by rw [hn]; simp, hget.symm, hx, ?_⟩
    intro t1 s1 h1 h2 h
    exact inj t1 s1 t2 s2 h1 h2 h3 h4 (h.trans hx)

/-- Witness of C29 on the demo geometry (4 sectors per track). -/
theorem C29_cache_keys_witness :
    (∀ t1 s1 t2 s2, t1 < demo.FS3_MAX_TRACKS → s1 < demo.FS3_TRACK_SIZE →
        t2 < demo.FS3_MAX_TRACKS → s2 < demo.FS3_TRACK_SIZE →
        cache_sector_id t1 s1 = cache_sector_id t2 s2 → t1 = t2 ∧ s1 = s2)
    ∧ (∀ (ch : Cache) (t2 s2 : Nat) (d : Nat → Nat),
        t2 < demo.FS3_MAX_TRACKS → s2 < demo.FS3_TRACK_SIZE →
        (fs3_get_cache ch t2 s2).1 = some d →
        ∃ y ∈ ch.nodes, d = y.sector_data ∧ y.sector_id = cache_sector_id t2 s2
          ∧ ∀ t1 s1, t1 < demo.FS3_MAX_TRACKS → s1 < demo.FS3_TRACK_SIZE →
              cache_sector_id t1 s1 = y.sector_id → t1 = t2 ∧ s1 = s2) :=
  C29_cache_keys demo (by decide) (by decide)

/-- C30 (the code at the failing input): with the constants `geometry64` and the two
open, empty files of `demo_two_files`, a write of 10 * 1024 bytes to handle 1 gives a
reachable state in which entry 1 is the file "g" and entry 0 the open, empty file "f".  In
that state a write of 523 * 1024 bytes to handle 0, with every reply carrying status
success, has no defined result: its stores at `sector_id[512]` and beyond lie outside
the array of entry 0, so the call does not come with a state in which entry 1 is
unchanged. -/
theorem C30_write_overruns_entry :
    ∀ b1, ∃ s2,
      fs3_write geometry64 env_ok demo_two_files 1 b1 (10 * 1024) = some (10 * 1024, s2)
      ∧ Reachable geometry64 s2
      ∧ (s2.file_handlers 1).path = some "g"
      ∧ (s2.file_handlers 1).pos = 10 * 1024
      ∧ s2.file_handlers 0 = demo_open.file_handlers 0
      ∧ ∀ b, fs3_write geometry64 env_ok s2 0 b (523 * 1024) = none := by
  intro b1
  have hcard : (free_set geometry64 demo_two_files.sector_usage).card = 65536 :=
    free_set_card_zero geometry64
  obtain ⟨s2, hw, hp, _, _, _, hfree⟩ :=
    fs3_write_within_capacity geometry64 env_ok demo_two_files 1 b1 (10 * 1024) 10 513
      (by decide) (by decide) (by decide) (by decide) rfl (by decide) (by decide)
      (by decide) replies_ok_env_ok (by decide) (by rw [hcard]; decide) (by decide)
  have hf := fs3_write_wframe geometry64 env_ok demo_two_files _ b1 _ _ s2 hw
  have h0 : s2.file_handlers 0 = demo_open.file_handlers 0 :=
    (hf.others 0 (by decide)).trans rfl
  have hpath : (s2.file_handlers 1).path = some "g" :=
    (fs3_write_paths geometry64 env_ok demo_two_files _ b1 _ _ s2 hw 1).trans rfl
  refine ⟨s2, hw, Reachable.step_write demo_two_files env_ok 1 b1 _ _ s2
    geometry64_two_files_reachable hw, hpath, by rw [hp]; rfl, h0, ?_⟩
  intro b
  exact fs3_write_overflow geometry64 env_ok s2 0 b (523 * 1024)
    (by decide) (by decide) (by decide) (by decide) (by rw [h0]; rfl) (by rw [h0]; decide)
    (by rw [h0]; decide) (by rw [h0]; omega) replies_ok_env_ok (by decide)
    (by rw [h0]; decide)

end FS3
